import Mathlib

/-!
Verification of the SEO recovery platform analysis engine.

This file gives a shallow embedding, in Lean, of the analysis engine of the
repository (app/services/matching.py, app/services/audit.py, app/main.py) and
proves properties of the embedded functions.

Modelling conventions, used throughout:

* Python strings are Lean `String` / `List Char`; helper functions mirror the
  CPython semantics of the string methods used by the code (strip, lower,
  startswith, endswith, substring membership).  Python `str.lower` is modelled
  on the ASCII range (the code only lowercases URLs and fixed tags).
* CPython library functions called by the code (`urllib.parse.urlsplit`,
  `urlparse`, `urljoin`, `difflib.SequenceMatcher`) are embedded from their
  CPython 3.11 sources.  `urlsplit` raises `ValueError` for a mismatched
  bracket in the authority; this and every other Python exception is modelled
  by `Option`/`Except`: `none` is a raised exception.  The extra CPython
  checks that can only reject exotic authorities (the NFKC re-check and the
  bracketed-host validation) are modelled as always passing.
* Python `float` values are modelled as `Rat`; `round` is round-half-even.
* Loops of the source whose termination depends on runtime data are embedded
  with an explicit fuel argument so that every definition is executable by
  kernel reduction; the fuel chosen at each call site provably dominates the
  number of iterations of the source loop.
-/

namespace Seo

/- The Batteries rational arithmetic operations are `@[irreducible]`; making
them semireducible lets `decide` and `rfl` evaluate the embedded functions
on concrete inputs. -/
attribute [local semireducible] Rat.mul Rat.add Rat.inv Rat.sub

deriving instance DecidableEq for Except

/-! ## Python string primitives -/

/-- The characters for which Python `str.isspace` is true (also the set
matched by the regex class backslash-s in unicode mode). -/
def pyIsSpace (c : Char) : Bool :=
  c = ' ' || c = '\t' || c = '\n' || c = '\x0b' || c = '\x0c' || c = '\r' ||
  c = '\x1c' || c = '\x1d' || c = '\x1e' || c = '\x1f' || c = '\x85' ||
  c = '\xa0' || c = ' ' ||
  (' ' ≤ c && c ≤ ' ') ||
  c = ' ' || c = ' ' || c = ' ' || c = ' ' || c = '　'

/-- Python `str.strip()` on the character list. -/
def pyStripL (l : List Char) : List Char :=
  ((l.dropWhile pyIsSpace).reverse.dropWhile pyIsSpace).reverse

/-- Python `str.strip()`. -/
def pyStrip (s : String) : String := ⟨pyStripL s.data⟩

/-- Python `str.lower()` restricted to ASCII letters. -/
def pyLowerChar (c : Char) : Char :=
  if 'A' ≤ c ∧ c ≤ 'Z' then Char.ofNat (c.toNat + 32) else c

/-- Python `str.lower()` on strings (ASCII range). -/
def pyLower (s : String) : String := ⟨s.data.map pyLowerChar⟩

/-- Membership of character `c` in the string, Python `c in s`. -/
def pyElem (c : Char) (l : List Char) : Bool := l.contains c

/-- `l₁` is a prefix of `l₂` (Python slicing comparison). -/
def isPrefOf : List Char → List Char → Bool
  | [], _ => true
  | _ :: _, [] => false
  | c :: cs, d :: ds => c = d && isPrefOf cs ds

/-- Python substring test `sub in s` on character lists. -/
def containsSubL (sub : List Char) : List Char → Bool
  | [] => isPrefOf sub []
  | l@(_ :: rest) => isPrefOf sub l || containsSubL sub rest

/-- Python substring test `sub in s`. -/
def containsSub (sub s : String) : Bool := containsSubL sub.data s.data

/-- Python `s.startswith(p)`. -/
def pyStartsWith (s p : String) : Bool := isPrefOf p.data s.data

/-- Python `s.endswith(p)`. -/
def pyEndsWith (s p : String) : Bool := isPrefOf p.data.reverse s.data.reverse

/-- ASCII letter test, Python `c.isascii() and c.isalpha()`. -/
def isAsciiAlpha (c : Char) : Bool :=
  ('a' ≤ c && c ≤ 'z') || ('A' ≤ c && c ≤ 'Z')

/-- ASCII digit test. -/
def isAsciiDigit (c : Char) : Bool := '0' ≤ c && c ≤ '9'

/-- Characters allowed in a URL scheme after the first one. -/
def isSchemeChar (c : Char) : Bool :=
  isAsciiAlpha c || isAsciiDigit c || c = '+' || c = '-' || c = '.'

/-! ## Python rounding and truncation on `Rat` -/

/-- Python `round(x)`: round half to even (floats modelled as rationals). -/
def pyRound (x : Rat) : Int :=
  let f : Int := ⌊x⌋
  let r : Rat := x - (f : Rat)
  if r < 1/2 then f
  else if (1:Rat)/2 < r then f + 1
  else if f % 2 = 0 then f else f + 1

/-- Python `int(x)` on a float: truncation toward zero. -/
def pyTrunc (x : Rat) : Int :=
  if 0 ≤ x then ⌊x⌋ else -⌊-x⌋

/-- Python `round(x, 2)`: half-even rounding to two decimal places. -/
def pyRound2 (x : Rat) : Rat := (pyRound (x * 100) : Rat) / 100

/-! ## urllib.parse: urlsplit / urlparse

Embedded from CPython 3.11 `urllib/parse.py`.  A `none` result models a
raised `ValueError` (mismatched square bracket in the authority). -/

structure SplitResult where
  scheme : String
  netloc : String
  path : String
  query : String
  fragment : String
deriving Repr, DecidableEq

/-- Index of the first occurrence of `c`, Python `str.find` (none = -1). -/
def findIdx (l : List Char) (c : Char) : Option Nat :=
  go l 0
where
  go : List Char → Nat → Option Nat
    | [], _ => none
    | d :: ds, n => if d = c then some n else go ds (n + 1)

/-- `_splitnetloc`: split after the leading `//` at the first `/?#`. -/
def splitNetloc (l : List Char) : List Char × List Char :=
  let delim := fun d : Char => d = '/' || d = '?' || d = '#'
  (l.takeWhile (fun d => ¬ delim d), l.dropWhile (fun d => ¬ delim d))

/-- Split at the first occurrence of `c`, if any (Python `str.split(c, 1)`). -/
def splitOnceAt (c : Char) (l : List Char) : Option (List Char × List Char) :=
  match findIdx l c with
  | none => none
  | some n => some (l.take n, l.drop (n + 1))

/-- The scheme step of `urlsplit`: if the text up to the first colon is a
valid scheme, return it lowercased together with the remainder. -/
def splitScheme (l : List Char) : Option (List Char × List Char) :=
  match findIdx l ':' with
  | none => none
  | some i =>
    if 0 < i then
      match l with
      | [] => none
      | c0 :: _ =>
        if isAsciiAlpha c0 ∧ (l.take i).all isSchemeChar then
          some ((l.take i).map pyLowerChar, l.drop (i + 1))
        else none
    else none

/-- CPython `urlsplit` (default empty scheme, fragments allowed).  The NFKC
netloc re-check and the bracketed-host validation, which can only reject
authorities that do not occur in this system, are modelled as passing. -/
def urlsplit (url0 : String) (defaultScheme : String := "") : Option SplitResult :=
  -- lstrip of _WHATWG_C0_CONTROL_OR_SPACE, then _UNSAFE_URL_BYTES_TO_REMOVE
  let l1 := url0.data.dropWhile (fun c => c ≤ '\x20')
  let l0 := l1.filter (fun c => ¬ (c = '\t' || c = '\r' || c = '\n'))
  let (scheme, rest) :=
    match splitScheme l0 with
    | some (s, r) => (s, r)
    | none => (defaultScheme.data, l0)
  let (netloc, rest) :=
    if isPrefOf ['/', '/'] rest then
      let (n, r) := splitNetloc (rest.drop 2)
      (n, r)
    else ([], rest)
  if (pyElem '[' netloc && !pyElem ']' netloc) ||
     (pyElem ']' netloc && !pyElem '[' netloc) then
    none
  else
    let (rest, fragment) :=
      match splitOnceAt '#' rest with
      | some (a, b) => (a, b)
      | none => (rest, [])
    let (path, query) :=
      match splitOnceAt '?' rest with
      | some (a, b) => (a, b)
      | none => (rest, [])
    some ⟨⟨scheme⟩, ⟨netloc⟩, ⟨path⟩, ⟨query⟩, ⟨fragment⟩⟩

/-- Schemes for which `urlparse` splits parameters off the path. -/
def usesParams : List String :=
  ["", "ftp", "hdl", "prospero", "http", "imap", "https", "shttp", "rtsp",
   "rtsps", "rtspu", "sip", "sips", "mms", "sftp", "tel"]

/-- Index of the last occurrence of `c` (Python `str.rfind`, none = -1). -/
def rfindIdx (l : List Char) (c : Char) : Option Nat :=
  match findIdx l.reverse c with
  | none => none
  | some n => some (l.length - 1 - n)

/-- Python `str.find(c, start)`: first occurrence at index ≥ `start`. -/
def findIdxFrom (l : List Char) (c : Char) (start : Nat) : Option Nat :=
  match findIdx (l.drop start) c with
  | none => none
  | some n => some (start + n)

/-- `_splitparams`: split `;params` off the last path segment. -/
def splitparams (l : List Char) : List Char × List Char :=
  let i :=
    if pyElem '/' l then
      match rfindIdx l '/' with
      | some r => findIdxFrom l ';' r
      | none => findIdx l ';'
    else findIdx l ';'
  match i with
  | none => (l, [])
  | some n => (l.take n, l.drop (n + 1))

structure ParseResult where
  scheme : String
  netloc : String
  path : String
  params : String
  query : String
  fragment : String
deriving Repr, DecidableEq

/-- CPython `urlparse`. -/
def urlparsePy (url : String) (defaultScheme : String := "") : Option ParseResult := do
  let s ← urlsplit url defaultScheme
  let (path, params) :=
    if usesParams.contains s.scheme ∧ pyElem ';' s.path.data then
      splitparams s.path.data
    else (s.path.data, [])
  pure ⟨s.scheme, s.netloc, ⟨path⟩, ⟨params⟩, s.query, s.fragment⟩

/-! ## app/services/matching.py: URL helpers -/

/-- `matching.normalize_url`. -/
def normalize_url (url : String) : Option String := do
  let parsed ← urlparsePy (pyStrip url)
  let path0 := if parsed.path = "" then "/" else parsed.path
  let path := if path0 ≠ "/" ∧ pyEndsWith path0 "/" then ⟨path0.data.dropLast⟩ else path0
  pure (pyLower parsed.scheme ++ "://" ++ pyLower parsed.netloc ++ path)

/-- `matching.path_of`. -/
def path_of (url : String) : Option String := do
  let parsed ← urlparsePy url
  let path0 := if parsed.path = "" then "/" else parsed.path
  pure (if path0 ≠ "/" ∧ pyEndsWith path0 "/" then ⟨path0.data.dropLast⟩ else path0)

/-- `matching.infer_type`. -/
def infer_type (url : String) : Option String := do
  let p ← path_of url
  let path := pyLower p
  pure (if containsSub "/products/" path then "product"
    else if containsSub "/collections/" path || containsSub "/category/" path then "category"
    else if containsSub "/blog" path || containsSub "/blogs/" path then "blog"
    else "page")

/-- `matching.slug_of`: the text after the last slash of the path, lowercased. -/
def slug_of (url : String) : Option String := do
  let p ← path_of url
  let slug : String :=
    match rfindIdx p.data '/' with
    | some n => ⟨p.data.drop (n + 1)⟩
    | none => p
  pure (pyLower slug)

/-- Separator class of `tokenize_slug` (dash, underscore, whitespace). -/
def isSlugSep (c : Char) : Bool := c = '-' || c = '_' || pyIsSpace c

/-- Maximal runs of non-separator characters (`re.split` on separator runs
with empty pieces dropped). -/
def splitRuns (sep : Char → Bool) : List Char → List Char → List (List Char)
  | [], cur => if cur.isEmpty then [] else [cur.reverse]
  | c :: cs, cur =>
    if sep c then
      if cur.isEmpty then splitRuns sep cs []
      else cur.reverse :: splitRuns sep cs []
    else splitRuns sep cs (c :: cur)

/-- `matching.tokenize_slug`. -/
def tokenize_slug (slug : String) : List String :=
  (splitRuns isSlugSep slug.data []).map (fun l => ⟨l⟩)

/-! ## difflib.SequenceMatcher

Embedded from CPython 3.11 `difflib.py`, specialised to `isjunk = None` (the
`bjunk` set is empty, so the two junk-extension loops of
`find_longest_match` never run and are omitted) and `autojunk = True`. -/

/-- `b2j.get(c, [])`: ascending indices of `c` in `b`, with "popular"
elements removed when `len(b) >= 200` (autojunk). -/
def b2jGet (b : List Char) (c : Char) : List Nat :=
  if b.length ≥ 200 ∧ b.count c > b.length / 100 + 1 then []
  else (b.enum.filter (fun p => p.2 = c)).map (·.1)

/-- The inner loop of `find_longest_match` over the index list `b2j[a[i]]`
(`continue` below `blo`, `break` at `bhi`).  `old` is the previous `j2len`
mapping, `new` the one being built; in Python the lookup `j2len.get(j-1, 0)`
at `j = 0` reads key `-1`, which is never present, hence the `j = 0` case. -/
def flmInner (old : Nat → Nat) (blo bhi i : Nat) :
    List Nat → (Nat × Nat × Nat) → (Nat → Nat) → ((Nat × Nat × Nat) × (Nat → Nat))
  | [], best, new => (best, new)
  | j :: js, best, new =>
    if j < blo then flmInner old blo bhi i js best new
    else if bhi ≤ j then (best, new)
    else
      let k := if j = 0 then 1 else old (j - 1) + 1
      let new' := fun x => if x = j then k else new x
      let best' := if best.2.2 < k then (i + 1 - k, j + 1 - k, k) else best
      flmInner old blo bhi i js best' new'

/-- The outer loop of `find_longest_match` over `i in range(alo, ahi)`. -/
def flmOuter (a b : List Char) (blo bhi : Nat) :
    List Nat → ((Nat × Nat × Nat) × (Nat → Nat)) → ((Nat × Nat × Nat) × (Nat → Nat))
  | [], st => st
  | i :: rest, st =>
    let r := flmInner st.2 blo bhi i (b2jGet b (a.getD i (Char.ofNat 0))) st.1 (fun _ => 0)
    flmOuter a b blo bhi rest r

/-- First extension loop of `find_longest_match`: extend the block to the
left while the guarded characters match.  Structural recursion on `besti`
(the loop guard `besti > alo` forces `besti` to decrease). -/
def extLeft (a b : List Char) (alo blo : Nat) : Nat → Nat → Nat → Nat × Nat × Nat
  | 0, bestj, bestsize => (0, bestj, bestsize)
  | besti + 1, bestj, bestsize =>
    if alo < besti + 1 ∧ blo < bestj ∧
       a.getD besti (Char.ofNat 0) = b.getD (bestj - 1) (Char.ofNat 0) then
      extLeft a b alo blo besti (bestj - 1) (bestsize + 1)
    else (besti + 1, bestj, bestsize)

/-- Second extension loop: extend to the right.  The Python guard
`besti + bestsize < ahi` is the fuel: the caller passes
`fuel = ahi - (besti + bestsize)`, which the recursion keeps in sync. -/
def extRight (a b : List Char) (bhi besti bestj : Nat) : Nat → Nat → Nat
  | 0, bestsize => bestsize
  | fuel + 1, bestsize =>
    if bestj + bestsize < bhi ∧
       a.getD (besti + bestsize) (Char.ofNat 0) = b.getD (bestj + bestsize) (Char.ofNat 0) then
      extRight a b bhi besti bestj fuel (bestsize + 1)
    else bestsize

/-- `SequenceMatcher.find_longest_match` on `a[alo:ahi]` and `b[blo:bhi]`. -/
def findLongestMatch (a b : List Char) (alo ahi blo bhi : Nat) : Nat × Nat × Nat :=
  let st := flmOuter a b blo bhi (List.range' alo (ahi - alo)) ((alo, blo, 0), fun _ => 0)
  let e := extLeft a b alo blo st.1.1 st.1.2.1 st.1.2.2
  (e.1, e.2.1, extRight a b bhi e.1 e.2.1 (ahi - (e.1 + e.2.2)) e.2.2)

/-- The stack loop of `get_matching_blocks`, collecting the raw blocks.  The
Python `queue.pop()` takes the most recently appended range, so the second
pushed subrange sits on top.  The fuel dominates the number of pops: each pop
strictly decreases the sum of `2*(ahi-alo)+1` over the stack. -/
def gmbGo (a b : List Char) :
    Nat → List (Nat × Nat × Nat × Nat) → List (Nat × Nat × Nat) → List (Nat × Nat × Nat)
  | 0, _, acc => acc
  | _ + 1, [], acc => acc
  | fuel + 1, (alo, ahi, blo, bhi) :: rest, acc =>
    let m := findLongestMatch a b alo ahi blo bhi
    if m.2.2 ≠ 0 then
      let stack1 := if alo < m.1 ∧ blo < m.2.1 then [(alo, m.1, blo, m.2.1)] else []
      let stack2 :=
        if m.1 + m.2.2 < ahi ∧ m.2.1 + m.2.2 < bhi then
          [(m.1 + m.2.2, ahi, m.2.1 + m.2.2, bhi)]
        else []
      gmbGo a b fuel (stack2 ++ stack1 ++ rest) (m :: acc)
    else gmbGo a b fuel rest acc

/-- The sizes of the raw matching blocks of `get_matching_blocks`.  Sorting
the blocks, collapsing adjacent ones and appending the zero-size sentinel
preserve the total size, and `ratio` only uses the total. -/
def smMatchSizes (a b : List Char) : List Nat :=
  (gmbGo a b (2 * (a.length + b.length) + 1) [(0, a.length, 0, b.length)] []).map (·.2.2)

/-- `SequenceMatcher.ratio()`: `2*matches/(len(a)+len(b))`, or 1.0 for two
empty sequences. -/
def smScore (a b : List Char) : Rat :=
  let t := a.length + b.length
  if t = 0 then 1 else (2 * ((smMatchSizes a b).sum : Rat)) / (t : Rat)

/-- `matching.similarity`. -/
def similarity (a b : String) : Rat := smScore a.data b.data

example : normalize_url "https://EX.com/Foo/" = some "https://ex.com/Foo" := by decide
example : normalize_url "" = some ":///" := by decide
example : normalize_url "  https://A.com/B/  " = some "https://a.com/B" := by decide
example : normalize_url "https://a.com" = some "https://a.com/" := by decide
example : normalize_url "https://a.com/x;p/y;q?z#w" = some "https://a.com/x;p/y" := by decide
example : path_of "https://a.com" = some "/" := by decide
example : slug_of "https://a.com/a-b/c_d-e" = some "c_d-e" := by decide
example : tokenize_slug "c_d-e" = ["c", "d", "e"] := by decide
example : similarity "abc" "abd" = 2/3 := by decide
example : similarity "" "" = 1 := by decide
example : similarity "abcd" "bcda" = 3/4 := by decide
example : similarity "abcdxy" "xyabcd" = 2/3 := by decide
example : similarity "aXbXc" "aYbYc" = 3/5 := by decide
example : urlparsePy "HTTP://A.com/P" = some ⟨"http", "A.com", "/P", "", "", ""⟩ := by decide
example : urlparsePy "1a://x/y" = some ⟨"", "", "1a://x/y", "", "", ""⟩ := by decide
example : urlparsePy "a:b" = some ⟨"a", "", "b", "", "", ""⟩ := by decide

/-! ## app/services/matching.py: match_urls -/

/-- A parsed URL record: dict with key `url` and optional key `type`. -/
structure UrlRow where
  url : String
  type? : Option String := none
deriving Repr, DecidableEq

/-- A `result_row` dictionary of the matcher. -/
structure MatchRow where
  old_url : String
  new_url : String
  score : Int
  reason : String
  rtype : String
  old_path : String
  new_path : String
deriving Repr, DecidableEq

/-- `matching.result_row`. -/
def result_row (old_url new_url : String) (score : Int) (reason rtype : String) :
    Option MatchRow := do
  let op ← path_of old_url
  let np ← if new_url ≠ "" then path_of new_url else pure ""
  pure ⟨old_url, new_url, score, reason, rtype, op, np⟩

/-- The lookup tables built from the new-URL rows.  The Python dicts are kept
as association lists in insertion order; lookup takes the last binding, as a
dict overwritten by a later insertion would. -/
structure NewMaps where
  byNorm : List (String × String) := []
  byPath : List (String × String) := []
  tProduct : List String := []
  tCategory : List String := []
  tPage : List String := []
  tBlog : List String := []
  allUrls : List String := []
deriving Repr, DecidableEq

/-- Python dict lookup (last binding wins). -/
def dictGet (l : List (String × String)) (k : String) : Option String :=
  (l.reverse.find? (fun p => p.1 = k)).map (·.2)

/-- `new_by_type.get(t)`: the bucket for one of the four fixed keys. -/
def typeBucket (m : NewMaps) (t : String) : Option (List String) :=
  if t = "product" then some m.tProduct
  else if t = "category" then some m.tCategory
  else if t = "page" then some m.tPage
  else if t = "blog" then some m.tBlog
  else none

/-- Append a URL to the bucket `t` (one of the four fixed keys). -/
def addToBucket (m : NewMaps) (t : String) (url : String) : NewMaps :=
  if t = "product" then { m with tProduct := m.tProduct ++ [url] }
  else if t = "category" then { m with tCategory := m.tCategory ++ [url] }
  else if t = "blog" then { m with tBlog := m.tBlog ++ [url] }
  else { m with tPage := m.tPage ++ [url] }

/-- `(row.get("type") or infer_type(url)).lower()`: a missing or empty `type`
value falls back to the inferred type. -/
def rowType (row : UrlRow) : Option String :=
  match row.type? with
  | some t => if t = "" then (infer_type row.url).map pyLower else some (pyLower t)
  | none => (infer_type row.url).map pyLower

/-- One iteration of the first loop of `match_urls` (indexing the new rows). -/
def buildStep (m : NewMaps) (row : UrlRow) : Option NewMaps := do
  let url := row.url
  let normalized ← normalize_url url
  let p ← path_of url
  let pt0 ← rowType row
  -- `if page_type not in new_by_type: page_type = "page"`
  let pt := if (typeBucket m pt0).isSome then pt0 else "page"
  pure { addToBucket m pt url with
         byNorm := m.byNorm ++ [(normalized, url)],
         byPath := m.byPath ++ [(pyLower p, url)],
         allUrls := m.allUrls ++ [url] }

/-- The index tables of `match_urls` over all new rows. -/
def buildMaps (new_rows : List UrlRow) : Option NewMaps :=
  new_rows.foldlM buildStep {}

/-- Effectful map over a list in the `Option` monad (a Python loop that
appends one result per element and propagates exceptions). -/
def optMapM (f : α → Option β) : List α → Option (List β)
  | [] => some []
  | a :: t => do
    let b ← f a
    let r ← optMapM f t
    pure (b :: r)

/-- Python truthiness of an optional string (`None` and `""` are falsy). -/
def optTruthy : Option String → Bool
  | some t => t ≠ ""
  | none => false

/-- One candidate step of the slug-similarity loop: sequence ratio of the
slugs, token Jaccard, `0.75/0.25` combination, strict improvement. -/
def bestStep (old_slug : String) (st : Option String × Rat) (cand : String) :
    Option (Option String × Rat) := do
  let cand_slug ← slug_of cand
  let seq_score := similarity old_slug cand_slug
  let old_tokens := (tokenize_slug old_slug).toFinset
  let cand_tokens := (tokenize_slug cand_slug).toFinset
  let u := (old_tokens ∪ cand_tokens).card
  let union := if u = 0 then 1 else u
  let jaccard : Rat := ((old_tokens ∩ cand_tokens).card : Rat) / (union : Rat)
  let score := seq_score * (3/4) + jaccard * (1/4)
  pure (if st.2 < score then (some cand, score) else st)

/-- The slug-similarity loop of `match_urls` over the candidate list. -/
def bestFold (old_slug : String) (cands : List String) : Option (Option String × Rat) :=
  cands.foldlM (bestStep old_slug) (none, 0)

/-- The per-old-row body of the second loop of `match_urls`. -/
def matchOne (m : NewMaps) (row : UrlRow) : Option MatchRow := do
  let old_url := row.url
  let old_type ← rowType row
  let old_norm ← normalize_url old_url
  let op ← path_of old_url
  let old_path := pyLower op
  let old_slug ← slug_of old_url
  match dictGet m.byNorm old_norm with
  | some target => result_row old_url target 100 "exact_url" old_type
  | none =>
    match dictGet m.byPath old_path with
    | some target => result_row old_url target 95 "exact_path" old_type
    | none =>
      -- `new_by_type.get(old_type) or new_all_urls`
      let candidates :=
        match typeBucket m old_type with
        | some l => if l = [] then m.allUrls else l
        | none => m.allUrls
      let best ← bestFold old_slug candidates
      let percent := pyRound (best.2 * 100)
      if optTruthy best.1 ∧ 60 ≤ percent then
        result_row old_url (best.1.getD "") percent "slug_similarity" old_type
      else
        result_row old_url "" 0 "manual_required" old_type

/-- `matching.match_urls`. -/
def match_urls (old_rows new_rows : List UrlRow) : Option (List MatchRow) := do
  let m ← buildMaps new_rows
  optMapM (matchOne m) old_rows

/-! ## Python stable sort

`list.sort(key=..., reverse=...)` is a stable sort; every stable sort
computes the same output list, so it is embedded as a stable insertion sort.
`prec a b` is the strict comparison "a must come before b" (for an ascending
sort, strictly smaller key; for `reverse=True`, strictly larger key); an
element is inserted behind every element that strictly precedes it, which is
exactly stability. -/

/-- Stable insertion of `x` (later element) into an already sorted list. -/
def pyInsert (prec : α → α → Bool) (x : α) : List α → List α
  | [] => [x]
  | y :: ys => if prec y x then y :: pyInsert prec x ys else x :: y :: ys

/-- Python stable sort with strict comparator `prec`. -/
def pySortBy (prec : α → α → Bool) : List α → List α
  | [] => []
  | x :: xs => pyInsert prec x (pySortBy prec xs)

/-! ## app/main.py: metric maps and the comparison engine -/

/-- A metric record of a Search Console snapshot (floats as rationals). -/
structure Metrics where
  clicks : Rat
  impressions : Rat
  position : Rat
deriving Repr, DecidableEq

/-- A snapshot dict keyed by normalized URL, as an insertion-ordered
association list (lookup takes the last binding). -/
abbrev MetricMap := List (String × Metrics)

/-- Dict lookup in a metric map (last binding wins). -/
def metricGet (m : MetricMap) (k : String) : Option Metrics :=
  (m.reverse.find? (fun p => p.1 = k)).map (·.2)

/-- `main.pick_metric`: primary key, fallback key, then the default record
`{clicks: 0, impressions: 0, position: 999}`. -/
def pick_metric (m : MetricMap) (primary fallback : String) : Option Metrics := do
  let pk ← normalize_url primary
  let fk ← if fallback ≠ "" then normalize_url fallback else pure ""
  pure <| match metricGet m pk with
    | some v => v
    | none =>
      match (if fk ≠ "" then metricGet m fk else none) with
      | some v => v
      | none => ⟨0, 0, 999⟩

/-- `main.compare_status` (the float literals 0.9 and 0.3 are the rationals
9/10 and 3/10). -/
def compare_status (before after : Metrics) (item : MatchRow) (mode : String) : String :=
  if mode = "migration" ∧ item.score < 70 then "manual_gerekli"
  else if before.clicks = 0 ∧ 0 < after.clicks then "yeni_toparlaniyor"
  else if before.clicks * (9/10) ≤ after.clicks ∨ after.position ≤ before.position + 3/10 then
    "toparlaniyor"
  else "duzeltildi_ama_toparlanmadi"

/-- A row of the before/after comparison report. -/
structure CompRow where
  old_url : String
  new_url : String
  before_clicks : Rat
  after_clicks : Rat
  click_delta : Rat
  before_position : Rat
  after_position : Rat
  position_delta : Rat
  status : String
  reason : String
deriving Repr, DecidableEq

/-- An unresolved row: the comparison row with its `lost_clicks` value. -/
structure UnresRow where
  row : CompRow
  lost_clicks : Rat
deriving Repr, DecidableEq

/-- The loop body of `build_comparison_rows` for one match, returning the
row together with the raw before/after metrics (needed for `lost_clicks`). -/
def mkCompRowM (bmap amap : MetricMap) (mode : String) (item : MatchRow) :
    Option (CompRow × Metrics × Metrics) := do
  let before ← pick_metric bmap item.old_url item.new_url
  let after ← pick_metric amap item.new_url item.old_url
  let click_delta := after.clicks - before.clicks
  let position_delta := before.position - after.position
  let status := compare_status before after item mode
  pure (⟨item.old_url, item.new_url, pyRound2 before.clicks, pyRound2 after.clicks,
         pyRound2 click_delta, pyRound2 before.position, pyRound2 after.position,
         pyRound2 position_delta, status, item.reason⟩, before, after)

/-- The comparison row built for one match. -/
def mkCompRow (bmap amap : MetricMap) (mode : String) (item : MatchRow) : Option CompRow :=
  (mkCompRowM bmap amap mode item).map (·.1)

/-- `main.build_comparison_rows`: empty unless both snapshots are non-empty;
rows sorted by descending absolute click delta, unresolved rows by
descending lost clicks. -/
def build_comparison_rows (matchRows : List MatchRow) (bmap amap : MetricMap)
    (mode : String) : Option (List CompRow × List UnresRow) :=
  if bmap = [] ∨ amap = [] then some ([], [])
  else do
    let acc ← matchRows.foldlM
      (fun (acc : List CompRow × List UnresRow) item => do
        let r ← mkCompRowM bmap amap mode item
        let row := r.1
        pure (acc.1 ++ [row],
          if row.status = "duzeltildi_ama_toparlanmadi" then
            acc.2 ++ [⟨row, pyRound2 (r.2.1.clicks - r.2.2.clicks)⟩]
          else acc.2))
      ([], [])
    pure (pySortBy (fun a b : CompRow => |b.click_delta| < |a.click_delta|) acc.1,
          pySortBy (fun a b : UnresRow => b.lost_clicks < a.lost_clicks) acc.2)

/-- One panel entry of the recovery projection. -/
structure PanelRow where
  day : Nat
  recovery_rate : Int
  recovering_count : Nat
  unresolved_count : Nat
deriving Repr, DecidableEq

/-- `main.build_recovery_panel`. -/
def build_recovery_panel (rows : List CompRow) : List PanelRow :=
  if rows = [] then []
  else
    let total := rows.length
    let recovering :=
      (rows.filter (fun r => r.status = "toparlaniyor" ∨ r.status = "yeni_toparlaniyor")).length
    let unresolved := (rows.filter (fun r => r.status = "duzeltildi_ama_toparlanmadi")).length
    let base_rate : Int := pyRound (((recovering : Rat) / ((max 1 total : Nat) : Rat)) * 100)
    [(7, 5), (14, 10), (30, 18)].map
      (fun p : Nat × Int => ⟨p.1, min 100 (base_rate + p.2), recovering, unresolved⟩)

/-! ## urllib.parse: urlunsplit / urlunparse / urljoin (CPython 3.11) -/

/-- Schemes treated as relative-capable by `urljoin`. -/
def usesRelative : List String :=
  ["", "ftp", "http", "gopher", "nntp", "imap", "wais", "file", "https",
   "shttp", "mms", "prospero", "rtsp", "rtsps", "rtspu", "sftp", "svn",
   "svn+ssh", "ws", "wss"]

/-- Schemes that carry a network location, for `urljoin`. -/
def usesNetloc : List String :=
  ["", "ftp", "http", "gopher", "nntp", "telnet", "imap", "wais", "file",
   "mms", "https", "shttp", "snews", "prospero", "rtsp", "rtsps", "rtspu",
   "rsync", "svn", "svn+ssh", "sftp", "nfs", "git", "git+ssh", "ws", "wss"]

/-- CPython `urlunsplit`. -/
def urlunsplit (scheme netloc url query fragment : String) : String :=
  let url1 :=
    if netloc ≠ "" ∨ (url ≠ "" ∧ isPrefOf ['/', '/'] url.data) then
      let u2 := if url ≠ "" ∧ ¬ isPrefOf ['/'] url.data then "/" ++ url else url
      "//" ++ netloc ++ u2
    else url
  let url2 := if scheme ≠ "" then scheme ++ ":" ++ url1 else url1
  let url3 := if query ≠ "" then url2 ++ "?" ++ query else url2
  if fragment ≠ "" then url3 ++ "#" ++ fragment else url3

/-- CPython `urlunparse`. -/
def urlunparse (p : ParseResult) : String :=
  let url := if p.params ≠ "" then p.path ++ ";" ++ p.params else p.path
  urlunsplit p.scheme p.netloc url p.query p.fragment

/-- Python `str.split(c)` (keeping empty pieces). -/
def splitCharL (c : Char) : List Char → List Char → List (List Char)
  | [], cur => [cur.reverse]
  | d :: ds, cur =>
    if d = c then cur.reverse :: splitCharL c ds [] else splitCharL c ds (d :: cur)

/-- Python `str.split(c)` on strings. -/
def pySplitChar (s : String) (c : Char) : List String :=
  (splitCharL c s.data []).map (fun l => (⟨l⟩ : String))

/-- `segments[1:-1] = filter(None, segments[1:-1])`: drop empty strings
except in the first and last position. -/
def filterMiddle : List String → List String
  | [] => []
  | [x] => [x]
  | x :: rest => x :: (rest.dropLast.filter (fun s => s ≠ "") ++ [rest.getLast?.getD ""])

/-- The segment-resolution loop of `urljoin` (`..` pops, `.` is skipped). -/
def resolveSegs : List String → List String → List String
  | [], acc => acc
  | s :: rest, acc =>
    if s = ".." then resolveSegs rest acc.dropLast
    else if s = "." then resolveSegs rest acc
    else resolveSegs rest (acc ++ [s])

/-- CPython `urljoin`. -/
def urljoin (base url : String) : Option String :=
  if base = "" then some url
  else if url = "" then some base
  else do
    let b ← urlparsePy base ""
    let u ← urlparsePy url b.scheme
    if u.scheme ≠ b.scheme ∨ ¬ usesRelative.contains u.scheme then pure url
    else if usesNetloc.contains u.scheme ∧ u.netloc ≠ "" then
      pure (urlunparse ⟨u.scheme, u.netloc, u.path, u.params, u.query, u.fragment⟩)
    else
      let netloc := if usesNetloc.contains u.scheme then b.netloc else u.netloc
      if u.path = "" ∧ u.params = "" then
        let query := if u.query = "" then b.query else u.query
        pure (urlunparse ⟨u.scheme, netloc, b.path, b.params, query, u.fragment⟩)
      else
        let base_parts0 := pySplitChar b.path '/'
        let base_parts :=
          if base_parts0.getLast?.getD "" ≠ "" then base_parts0.dropLast else base_parts0
        let segments :=
          if isPrefOf ['/'] u.path.data then pySplitChar u.path '/'
          else filterMiddle (base_parts ++ pySplitChar u.path '/')
        let resolved0 := resolveSegs segments []
        let resolved :=
          if segments.getLast?.getD "" = "." ∨ segments.getLast?.getD "" = ".." then
            resolved0 ++ [""]
          else resolved0
        let joined := String.intercalate "/" resolved
        pure (urlunparse ⟨u.scheme, netloc, if joined = "" then "/" else joined,
                          u.params, u.query, u.fragment⟩)

/-! ## app/services/audit.py

Network responses come from a `fetch` oracle (`FetchRes.fail msg` models a
raised transport exception with message `msg`).  The regular expressions of
the source are embedded as explicit scanners with Python re semantics
(leftmost match, greedy character classes, IGNORECASE on ASCII). -/

/-- A fetched HTTP response (after redirects), or a transport failure. -/
inductive FetchRes where
  | fail (msg : String)
  | ok (status : Nat) (finalUrl : String) (body : String)
deriving Repr, DecidableEq

/-- Case-insensitive literal match: consume `pat` from the front of the
input, returning the rest. -/
def litCI : List Char → List Char → Option (List Char)
  | [], l => some l
  | _ :: _, [] => none
  | p :: ps, c :: cs => if pyLowerChar c = pyLowerChar p then litCI ps cs else none

/-- Existential gap `[^>]{need,}` followed by `k` (order of the attempted
splits does not matter for a pure existence test). -/
def gapThen (k : List Char → Bool) : Nat → List Char → Bool
  | 0, [] => k []
  | 0, c :: cs => k (c :: cs) || (c ≠ '>' && gapThen k 0 cs)
  | _ + 1, [] => false
  | need + 1, c :: cs => c ≠ '>' && gapThen k need cs

/-- A quote character of the regex class matching a double or single quote. -/
def isQuote (c : Char) : Bool := c = '"' || c = '\''

/-- One quote character followed by `k`. -/
def quoteThen (k : List Char → Bool) : List Char → Bool
  | [] => false
  | c :: cs => isQuote c && k cs

/-- Try the pattern of `contains_noindex` at the current position:
`<meta[^>]+name=["|]robots["|][^>]*noindex` (IGNORECASE). -/
def noindexHere (l : List Char) : Bool :=
  match litCI "<meta".data l with
  | none => false
  | some r1 =>
    gapThen (fun r2 =>
      match litCI "name=".data r2 with
      | none => false
      | some r3 =>
        quoteThen (fun r4 =>
          match litCI "robots".data r4 with
          | none => false
          | some r5 =>
            quoteThen (fun r6 =>
              gapThen (fun r7 => (litCI "noindex".data r7).isSome) 0 r6) r5) r3) 1 r1

/-- Does a Boolean scanner succeed at any position (regex `search`)? -/
def scanAny (p : List Char → Bool) : List Char → Bool
  | [] => p []
  | l@(_ :: rest) => p l || scanAny p rest

/-- `audit.contains_noindex`. -/
def contains_noindex (html : String) : Bool := scanAny noindexHere html.data

/-- Greedy gap `[^>]{need,}`: Python backtracking prefers the longest gap
whose continuation matches. -/
def gapGreedy (k : List Char → Option α) : Nat → List Char → Option α
  | 0, [] => k []
  | 0, c :: cs => (if c ≠ '>' then gapGreedy k 0 cs else none) <|> k (c :: cs)
  | _ + 1, [] => none
  | need + 1, c :: cs => if c ≠ '>' then gapGreedy k need cs else none

/-- The non-backtracking tail `(["|])([^"|]+)(["|])`: a quote, a maximal
non-empty run of non-quote characters, a quote; returns the run and the rest
after the closing quote. -/
def quotedCapture : List Char → Option (List Char × List Char)
  | [] => none
  | q :: r2 =>
    if isQuote q then
      let cap := r2.takeWhile (fun c => ¬ isQuote c)
      if cap ≠ [] then
        match r2.drop cap.length with
        | q2 :: after => if isQuote q2 then some (cap, after) else none
        | [] => none
      else none
    else none

/-- Try the pattern of `extract_canonical` at the current position:
`<link[^>]+rel=["|]canonical["|][^>]+href=["|]([^"|]+)["|]` (IGNORECASE),
returning the capture. -/
def canonicalHere (l : List Char) : Option (List Char) :=
  match litCI "<link".data l with
  | none => none
  | some r1 =>
    gapGreedy (fun r2 =>
      match litCI "rel=".data r2 with
      | none => none
      | some r3 =>
        match r3 with
        | q :: r4 =>
          if isQuote q then
            match litCI "canonical".data r4 with
            | none => none
            | some r5 =>
              match r5 with
              | q2 :: r6 =>
                if isQuote q2 then
                  gapGreedy (fun r7 =>
                    match litCI "href=".data r7 with
                    | none => none
                    | some r8 => (quotedCapture r8).map (·.1)) 1 r6
                else none
              | [] => none
          else none
        | [] => none) 1 r1

/-- Leftmost application of an Option scanner (regex `search`). -/
def scanFirst (p : List Char → Option α) : List Char → Option α
  | [] => p []
  | l@(_ :: rest) => p l <|> scanFirst p rest

/-- `audit.extract_canonical`: the stripped first capture, or `""`. -/
def extract_canonical (html : String) : String :=
  match scanFirst canonicalHere html.data with
  | some cap => pyStrip ⟨cap⟩
  | none => ""

/-- `audit.classify_severity`. -/
def classify_severity (issues : List String) : String :=
  if issues.any (fun i => i = "5xx" || i = "404" || i = "request_error") then "critical"
  else if issues.any (fun i => i = "4xx" || i = "noindex" || i = "canonical_mismatch") then
    "warning"
  else "info"

/-- `audit.severity_rank`. -/
def severity_rank (severity : String) : Nat :=
  if severity = "critical" then 0 else if severity = "warning" then 1 else 2

/-- An audit-result dictionary.  `cause`/`fix` are attached by the
annotation pass and `rtype` only by the robots/sitemap site check; reads of
absent dict keys use `.get(..., "")`, so absent keys are the defaults. -/
structure AuditRow where
  url : String
  status_code : String
  severity : String
  issues : String
  canonical : String
  final_url : String
  cause : String := ""
  fix : String := ""
  rtype : String := ""
deriving Repr, DecidableEq

/-- The issue tags derived from the HTTP status code. -/
def statusIssues (status : Nat) : List String :=
  if status = 404 then ["404"]
  else if 500 ≤ status then ["5xx"]
  else if 400 ≤ status then ["4xx"]
  else []

/-- `audit.audit_single_url`.  The `except` block catches any exception of
the body, including a `ValueError` from `normalize_url`; in the latter case
the canonical field was already copied into the base dict before the
comparison raised. -/
def audit_single_url (fetch : String → FetchRes) (url : String) : AuditRow :=
  match fetch url with
  | .fail msg =>
    { url := url, status_code := "0", severity := "critical",
      issues := "request_error: " ++ (⟨msg.data.take 100⟩ : String),
      canonical := "", final_url := "" }
  | .ok status finalUrl body =>
    let issuesOpt : Option (List String × String) := do
      let issues0 := statusIssues status
      let issues1 := issues0 ++ (if contains_noindex body then ["noindex"] else [])
      let canonical := extract_canonical body
      let (canonVal, issues2) ←
        if canonical ≠ "" then do
          let nc ← normalize_url canonical
          let nf ← normalize_url finalUrl
          pure (canonical, issues1 ++ (if nc ≠ nf then ["canonical_mismatch"] else []))
        else pure ("", issues1)
      let nu ← normalize_url url
      let nf2 ← normalize_url finalUrl
      pure (issues2 ++ (if nu ≠ nf2 then ["redirected"] else []), canonVal)
    match issuesOpt with
    | some (issues, canonVal) =>
      { url := url, status_code := toString status,
        severity := classify_severity issues,
        issues := String.intercalate ", " issues,
        canonical := canonVal, final_url := finalUrl }
    | none =>
      { url := url, status_code := "0", severity := "critical",
        issues := "request_error: Invalid IPv6 URL",
        canonical := extract_canonical body, final_url := "" }

/-- Python string comparison `a < b` (lexicographic on code points; the
core `String` order is identical but its byte-level implementation does not
reduce in the kernel). -/
def pyStrLtL : List Char → List Char → Bool
  | [], [] => false
  | [], _ :: _ => true
  | _ :: _, [] => false
  | c :: cs, d :: ds => if c < d then true else if d < c then false else pyStrLtL cs ds

/-- Python `a < b` on strings. -/
def pyStrLt (a b : String) : Bool := pyStrLtL a.data b.data

/-- `dict.fromkeys` deduplication: first occurrence wins. -/
def pyDedupe (l : List String) : List String := go [] l
where
  go (seen : List String) : List String → List String
    | [] => []
    | x :: xs => if x ∈ seen then go seen xs else x :: go (x :: seen) xs

/-- `audit.run_quick_audit`.  The worker pool is modelled by the `order`
oracle giving the completion order of the unique URLs (`as_completed`);
results are then sorted by `(severity_rank, url)`. -/
def run_quick_audit (fetch : String → FetchRes) (order : List String → List String)
    (urls : List String) : List AuditRow :=
  let unique_urls := pyDedupe urls
  let results := (order unique_urls).map (audit_single_url fetch)
  pySortBy (fun a b =>
    severity_rank a.severity < severity_rank b.severity ||
    (severity_rank a.severity = severity_rank b.severity && pyStrLt a.url b.url)) results

/-- Python `str.rstrip("/")`. -/
def pyRStripSlash (s : String) : String :=
  ⟨(s.data.reverse.dropWhile (fun c => c = '/')).reverse⟩

/-- `audit.ensure_site_url`. -/
def ensure_site_url (value : String) : Option String := do
  let url0 := pyStrip value
  let url :=
    if pyStartsWith url0 "http://" || pyStartsWith url0 "https://" then url0
    else "https://" ++ url0
  let parsed ← urlparsePy url
  pure (pyRStripSlash (parsed.scheme ++ "://" ++ parsed.netloc))

/-- `audit.fetch_status`. -/
def fetch_status (fetch : String → FetchRes) (url : String) : Nat × String :=
  match fetch url with
  | .ok st _ _ => if 400 ≤ st then (st, "erisim_hatasi") else (st, "ok")
  | .fail msg => (0, "request_error: " ++ (⟨msg.data.take 100⟩ : String))

/-- `audit.check_robots_and_sitemap`. -/
def check_robots_and_sitemap (fetch : String → FetchRes) (site_url : String) :
    Option (List AuditRow) := do
  let site ← ensure_site_url site_url
  let robots_url := site ++ "/robots.txt"
  let sitemap_url := site ++ "/sitemap.xml"
  pure <| [("robots.txt", robots_url), ("sitemap.xml", sitemap_url)].map fun p =>
    let r := fetch_status fetch p.2
    { url := p.2, status_code := toString r.1,
      severity := if 400 ≤ r.1 ∨ r.1 = 0 then "critical" else "info",
      issues := r.2, canonical := "", final_url := "", rtype := p.1 }

/-- `audit.is_same_domain`. -/
def is_same_domain (url base_url : String) : Option Bool := do
  let a ← urlparsePy url
  let b ← urlparsePy base_url
  pure (pyLower a.netloc = pyLower b.netloc)

/-- The excluded file extensions of the crawler. -/
def EXCLUDED_EXTENSIONS : List String :=
  [".css", ".js", ".png", ".jpg", ".jpeg", ".gif", ".svg", ".webp", ".ico",
   ".json", ".map", ".woff", ".woff2", ".ttf", ".eot", ".pdf", ".zip"]

/-- The excluded path substrings of the crawler. -/
def EXCLUDED_PATH_PARTS : List String := ["/build/", "/assets/"]

/-- `audit.should_include_url`. -/
def should_include_url (url : String) : Option Bool := do
  let parsed ← urlparsePy url
  let path := pyLower (if parsed.path = "" then "/" else parsed.path)
  pure (¬ EXCLUDED_PATH_PARTS.any (fun part => containsSub part path) ∧
        ¬ EXCLUDED_EXTENSIONS.any (fun ext => pyEndsWith path ext))

/-- Scan for the non-greedy capture of `</loc>` (nearest closing tag). -/
def findCloseLoc : List Char → Option (List Char × List Char)
  | [] => none
  | l@(c :: rest) =>
    match litCI "</loc>".data l with
    | some after => some ([], after)
    | none => (findCloseLoc rest).map (fun p => (c :: p.1, p.2))

/-- `re.findall("<loc>(.*?)</loc>")` with IGNORECASE and DOTALL: successive
non-overlapping matches; the fuel (called with the text length) dominates
the scan, which always advances. -/
def extractLocsGo (fuel : Nat) : List Char → List (List Char)
  | [] => []
  | l@(_ :: rest) =>
    match fuel with
    | 0 => []
    | fuel + 1 =>
      match litCI "<loc>".data l with
      | some r =>
        match findCloseLoc r with
        | some (cap, after) => cap :: extractLocsGo fuel after
        | none => extractLocsGo fuel rest
      | none => extractLocsGo fuel rest

/-- All `<loc>` captures of a sitemap body. -/
def extractLocs (body : String) : List (List Char) :=
  extractLocsGo body.data.length body.data

/-- The sitemap BFS of `fetch_sitemap_urls`.  The loop of the source is
bounded only by the behaviour of the fetched site, so the embedding takes
the iteration bound as an explicit fuel. -/
def sitemapLoop (fetch : String → FetchRes) :
    Nat → List String → List String → List String → List String
  | 0, _, _, found => found
  | _ + 1, [], _, found => found
  | fuel + 1, url :: queue, visited, found =>
    if url ∈ visited then sitemapLoop fetch fuel queue visited found
    else
      let visited1 := url :: visited
      match fetch url with
      | .fail _ => sitemapLoop fetch fuel queue visited1 found
      | .ok st _ body =>
        if 400 ≤ st then sitemapLoop fetch fuel queue visited1 found
        else
          let locs := (extractLocs body).map (fun raw => pyStrip ⟨raw⟩)
          let newQ := locs.filter (fun c => pyEndsWith c ".xml")
          let newF := locs.filter (fun c =>
            ¬ pyEndsWith c ".xml" ∧
            (pyStartsWith c "http://" || pyStartsWith c "https://"))
          sitemapLoop fetch fuel (queue ++ newQ) visited1 (found ++ newF)

/-- `audit.fetch_sitemap_urls`. -/
def fetch_sitemap_urls (fetch : String → FetchRes) (base_url : String) (fuel : Nat) :
    List String :=
  pyDedupe (sitemapLoop fetch fuel [base_url ++ "/sitemap.xml"] [] [])

/-- The scan of `extract_html_links` for `href=["|]([^"|]+)["|]`
(IGNORECASE), returning all captures in order. -/
def hrefScan (fuel : Nat) : List Char → List (List Char)
  | [] => []
  | l@(_ :: rest) =>
    match fuel with
    | 0 => []
    | fuel + 1 =>
      match litCI "href=".data l with
      | some r =>
        match quotedCapture r with
        | some (cap, after) => cap :: hrefScan fuel after
        | none => hrefScan fuel rest
      | none => hrefScan fuel rest

/-- `audit.extract_html_links`. -/
def extract_html_links (html page_url : String) : Option (List String) := do
  let hrefs := (hrefScan html.data.length html.data).map (fun l => (⟨l⟩ : String))
  hrefs.foldlM
    (fun acc href => do
      if href = "" then pure acc
      else
        let lower := pyStrip (pyLower href)
        if pyStartsWith lower "#" || pyStartsWith lower "javascript:" ||
           pyStartsWith lower "mailto:" || pyStartsWith lower "tel:" then
          pure acc
        else do
          let joined ← urljoin page_url href
          let absolute : String := ⟨joined.data.takeWhile (fun c => c ≠ '#')⟩
          pure (if pyStartsWith absolute "http://" || pyStartsWith absolute "https://" then
                  acc ++ [absolute]
                else acc))
    []

/-- The body of the crawl loop of `crawl_internal_links` (queue, visited set,
found list); the fuel bounds the data-dependent `while` loop. -/
def crawlLoop (fetch : String → FetchRes) (base_url : String) (limit : Nat) :
    Nat → List String → List String → List String → Option (List String)
  | 0, _, _, found => some found
  | fuel + 1, queue, visited, found =>
    if queue = [] ∨ ¬ found.length < limit then some found
    else
      match queue with
      | [] => some found
      | current :: queue' => do
        let nc ← normalize_url current
        if nc ∈ visited then crawlLoop fetch base_url limit fuel queue' visited found
        else
          let visited1 := visited ++ [nc]
          match fetch current with
          | .fail _ => crawlLoop fetch base_url limit fuel queue' visited1 found
          | .ok st finalUrl body => do
            let sd ← is_same_domain finalUrl base_url
            if ¬ sd then crawlLoop fetch base_url limit fuel queue' visited1 found
            else if 400 ≤ st then crawlLoop fetch base_url limit fuel queue' visited1 found
            else do
              let nf ← normalize_url finalUrl
              let visited2 := if nf ∈ visited1 then visited1 else visited1 ++ [nf]
              let inc ← should_include_url finalUrl
              let found' := if inc then found ++ [finalUrl] else found
              let links ← extract_html_links body finalUrl
              let queue2 ← links.foldlM
                (fun q link => do
                  let sd2 ← is_same_domain link base_url
                  if ¬ sd2 then pure q
                  else do
                    let inc2 ← should_include_url link
                    if ¬ inc2 then pure q
                    else do
                      let ln ← normalize_url link
                      if ln ∈ visited2 then pure q
                      else
                        let q1 := q ++ [link]
                        pure (if limit * 5 < q1.length then q1.take (limit * 5) else q1))
                queue'
              crawlLoop fetch base_url limit fuel queue2 visited2 found'

/-- `audit.crawl_internal_links`. -/
def crawl_internal_links (fetch : String → FetchRes) (base_url : String)
    (limit : Nat) (fuel : Nat) : Option (List String) := do
  let found ← crawlLoop fetch base_url limit fuel [base_url] [] []
  pure ((pyDedupe found).take limit)

/-- The first phase of `discover_site_urls` over the sitemap URLs, with the
early `break` once the limit is reached. -/
def discoverPhase1 (base : String) (limit : Nat) :
    List String → List String → Option (List String)
  | [], acc => some acc
  | url :: rest, acc => do
    let sd ← is_same_domain url base
    let acc' ←
      if sd then do
        let inc ← should_include_url url
        pure (if inc then acc ++ [url] else acc)
      else pure acc
    if limit ≤ acc'.length then pure acc'
    else discoverPhase1 base limit rest acc'

/-- `audit.discover_site_urls`. -/
def discover_site_urls (fetch : String → FetchRes) (site_url : String) (limit : Nat)
    (sitemapFuel crawlFuel : Nat) : Option (List String) := do
  let base ← ensure_site_url site_url
  let sitemap_urls := fetch_sitemap_urls fetch base sitemapFuel
  let discovered ← discoverPhase1 base limit sitemap_urls []
  if limit ≤ discovered.length then pure ((pyDedupe discovered).take limit)
  else do
    let crawled ← crawl_internal_links fetch base limit crawlFuel
    pure ((pyDedupe (discovered ++ crawled)).take limit)

/-! ## Float parsing, metric maps, summaries, exports, urgent actions -/

/-- Numeric value of a digit run. -/
def digitsVal (l : List Char) : Nat :=
  l.foldl (fun a c => a * 10 + (c.toNat - 48)) 0

/-- Python `float(str)` on the decimal forms used by the metrics columns
(optional sign, digits with optional dot and exponent).  The special float
literals (`inf`, `nan`) and digit underscores have no rational counterpart
and are treated as a parse failure. -/
def pyFloat? (s : String) : Option Rat :=
  let l := pyStripL s.data
  let (sgn, r) : Rat × List Char :=
    match l with
    | '+' :: r => (1, r)
    | '-' :: r => (-1, r)
    | r => (1, r)
  let ds1 := r.takeWhile isAsciiDigit
  let r1 := r.drop ds1.length
  let (mant, r2) : Option Rat × List Char :=
    match r1 with
    | '.' :: r2 =>
      let ds2 := r2.takeWhile isAsciiDigit
      if ds1 = [] ∧ ds2 = [] then (none, r2)
      else (some ((digitsVal ds1 : Rat) + (digitsVal ds2 : Rat) / ((10 : Rat) ^ ds2.length)),
            r2.drop ds2.length)
    | _ => (if ds1 = [] then none else some (digitsVal ds1 : Rat), r1)
  match mant with
  | none => none
  | some m =>
    match r2 with
    | [] => some (sgn * m)
    | e :: r3 =>
      if e = 'e' ∨ e = 'E' then
        let (esgn, r4) : Bool × List Char :=
          match r3 with
          | '+' :: r4 => (true, r4)
          | '-' :: r4 => (false, r4)
          | r4 => (true, r4)
        let ds3 := r4.takeWhile isAsciiDigit
        if ds3 = [] ∨ r4.drop ds3.length ≠ [] then none
        else
          let p : Rat := (10 : Rat) ^ digitsVal ds3
          some (sgn * m * (if esgn then p else 1 / p))
      else none

/-- `main.safe_float`. -/
def safe_float (value : String) (default : Rat) : Rat :=
  (pyFloat? value).getD default

/-- A parsed Search-Console CSV row (string-valued columns). -/
structure GscRow where
  url : String
  clicks : String
  impressions : String
  position : String
deriving Repr, DecidableEq

/-- `main.build_gsc_metric_map`. -/
def build_gsc_metric_map (gsc_rows : List GscRow) : Option MetricMap :=
  gsc_rows.foldlM
    (fun out row => do
      let key ← normalize_url row.url
      if key = "" then pure out
      else pure (out ++ [(key, ⟨safe_float row.clicks 0, safe_float row.impressions 0,
                                safe_float row.position 999⟩)]))
    []

/-- The summary dictionary of `matching.summarize_matches`. -/
structure Summary where
  total_old_urls : Nat
  auto_matched : Nat
  manual_required : Nat
deriving Repr, DecidableEq

/-- `matching.summarize_matches`. -/
def summarize_matches (ms : List MatchRow) (score_threshold : Int) : Summary :=
  let total := ms.length
  let auto := (ms.filter (fun m => score_threshold ≤ m.score)).length
  ⟨total, auto, total - auto⟩

/-- The redirect-pairs loop of `matching.build_redirects_csv`; the CSV
serialization itself is out of scope (spec section 1), so the embedding
returns the written rows. -/
def build_redirects_rows (ms : List MatchRow) (score_threshold : Int) :
    List (String × String) :=
  go ms []
where
  go : List MatchRow → List (String × String) → List (String × String)
    | [], _ => []
    | item :: rest, seen =>
      if item.score < score_threshold then go rest seen
      else
        let source0 := if item.old_path = "" then "/" else item.old_path
        let target0 := if item.new_path = "" then "/" else item.new_path
        let source := if ¬ pyStartsWith source0 "/" then "/" ++ source0 else source0
        let target := if ¬ pyStartsWith target0 "/" then "/" ++ target0 else target0
        if source = target then go rest seen
        else if (source, target) ∈ seen then go rest seen
        else (source, target) :: go rest ((source, target) :: seen)

/-- The rows of `matching.build_manual_review_csv` (CSV serialization out of
scope). -/
def build_manual_review_rows (ms : List MatchRow) (score_threshold : Int) :
    List (String × String × Int × String) :=
  (ms.filter (fun m => m.score < score_threshold)).map
    (fun m => (m.old_url, m.new_url, m.score, m.reason))

/-- The heterogeneous `score` value of an urgent-action row: the match score
(an int) in migration mode, the audit status code (a string) in scan mode. -/
inductive ScoreVal where
  | i (n : Int)
  | s (v : String)
deriving Repr, DecidableEq

/-- An urgent-action row. -/
structure UrgentRow where
  old_url : String
  new_url : String
  score : ScoreVal
  impact : Rat
  reason : String
  cause : String := ""
  fix : String := ""
deriving Repr, DecidableEq

/-- `matching.rank_urgent_actions` (the float literals 2.0, 0.1, 50.0, 25.0
are the rationals 2, 1/10, 50, 25). -/
def rank_urgent_actions (ms : List MatchRow) (gsc_map : MetricMap) :
    Option (List UrgentRow) := do
  let ranked ← optMapM (fun item => do
    let key ← normalize_url item.old_url
    let metrics := (metricGet gsc_map key).getD ⟨0, 0, 999⟩
    let position_bonus := max 0 (50 - metrics.position)
    let impact0 := metrics.clicks * 2 + metrics.impressions * (1/10) + position_bonus
    let impact1 := if item.score < 70 then impact0 + 25 else impact0
    let impact2 := if item.new_url = "" then impact1 + 25 else impact1
    pure (⟨item.old_url, item.new_url, .i item.score, pyRound2 impact2, item.reason,
           "", ""⟩ : UrgentRow)) ms
  pure ((pySortBy (fun a b : UrgentRow => b.impact < a.impact) ranked).take 20)

/-- `main.build_audit_urgent_actions`. -/
def build_audit_urgent_actions (audit_results : List AuditRow) : List UrgentRow :=
  let scored := audit_results.map fun item =>
    let sev_points : Rat :=
      if item.severity = "critical" then 100 else if item.severity = "warning" then 60 else 20
    let p404 : Rat := if containsSub "404" item.issues then 30 else 0
    let p5xx : Rat := if containsSub "5xx" item.issues then 40 else 0
    let pNoindex : Rat := if containsSub "noindex" item.issues then 25 else 0
    let pCanon : Rat := if containsSub "canonical_mismatch" item.issues then 15 else 0
    let pReq : Rat := if containsSub "request_error" item.issues then 35 else 0
    (⟨item.url, item.final_url, .s item.status_code,
      sev_points + p404 + p5xx + pNoindex + pCanon + pReq,
      if item.issues = "" then "ok" else item.issues,
      item.cause, item.fix⟩ : UrgentRow)
  (pySortBy (fun a b : UrgentRow => b.impact < a.impact) scored).take 20

/-- `main.diagnose_issue`. -/
def diagnose_issue (item : AuditRow) : String × String :=
  let issues := pyLower item.issues
  let status := item.status_code
  let url := item.url
  if containsSub "request_error" issues then
    ("Sunucuya baglanti kurulamadi veya zaman asimi olustu.",
     "Domain/DNS/SSL erisimini kontrol et. Hosting aktif mi bak. Sonra tekrar tarama yap.")
  else if containsSub "404" issues then
    if pyEndsWith url "/sitemap.xml" then
      ("Sitemap dosyasi bulunamiyor.",
       "Dogru domaini primary olarak ayarla. Ardindan /sitemap.xml aciliyor mu kontrol et ve Search Console\x27a gonder.")
    else
      ("URL bulunamiyor (404).",
       "Sayfa tasindiysa 301 redirect tanimla. Silinmediyse sayfayi geri yayinla.")
  else if containsSub "5xx" issues then
    ("Sunucu hatasi (5xx) var.",
     "Hosting loglarini kontrol et. Uygulama/tema hatasini duzeltip URL\x27i tekrar test et.")
  else if containsSub "noindex" issues then
    ("Sayfa noindex etiketli oldugu icin Google\x27a kapanmis.",
     "Meta robots veya HTTP header\x27daki noindex\x27i kaldir. Sonra Search Console\x27da tekrar index iste.")
  else if containsSub "canonical_mismatch" issues then
    ("Canonical farkli bir URL\x27e isaret ediyor.",
     "Canonical etiketini bu sayfanin dogru final URL\x27ine guncelle.")
  else if pyStartsWith status "4" then
    ("Istemci hatasi (4xx) olustu.",
     "URL yazimini, yetki kurallarini ve yonlendirmeleri kontrol et.")
  else if pyStartsWith status "5" then
    ("Sunucu yanit veremedi (5xx).",
     "Sunucu logu ve uygulama hatalarini kontrol edip tekrar yayinla.")
  else ("Sorun gorunmuyor.", "Aksiyon gerekmiyor.")

/-- `main.annotate_audit_items`. -/
def annotate_audit_items (audit_results : List AuditRow) : List AuditRow :=
  audit_results.map fun item =>
    let cf := diagnose_issue item
    { item with cause := cf.1, fix := cf.2 }

/-! ## app/main.py: the job table state machine

A job dictionary and the operations that touch it: `update_job`, the
progress callback of `run_analysis_job` (which runs `check_cancel` before
updating), the terminal updates, and the `analyze_cancel` endpoint.  All
accesses happen under `STATE_LOCK`, so the interleaving of the worker and
the endpoints is a sequence of atomic steps on the job value; wall-clock
readings are explicit event data. -/

structure Job where
  status : String
  progress : Int
  message : String
  error : String
  log_id : String
  started_epoch : Rat
  eta_seconds : Option Int
  cancel_requested : Bool
  can_cancel : Bool
deriving Repr, DecidableEq

/-- The job entry created by `analyze_start`. -/
def initJob (now : Rat) (canCancel : Bool) : Job :=
  ⟨"running", 5, "Analiz siraya alindi.", "", "", now, none, false, canCancel⟩

/-- The keyword arguments of one `update_job` call. -/
structure JobKw where
  status? : Option String := none
  progress? : Option Int := none
  message? : Option String := none
  error? : Option String := none
  log_id? : Option String := none
  eta? : Option (Option Int) := none
deriving Repr, DecidableEq

/-- `current.update(kwargs)`. -/
def applyKw (j : Job) (kw : JobKw) : Job :=
  { j with
    status := kw.status?.getD j.status,
    progress := kw.progress?.getD j.progress,
    message := kw.message?.getD j.message,
    error := kw.error?.getD j.error,
    log_id := kw.log_id?.getD j.log_id,
    eta_seconds := kw.eta?.getD j.eta_seconds }

/-- `main.update_job`: apply the keyword arguments, then recompute
`eta_seconds` (linear extrapolation while running, 0 at 100%). -/
def update_job (j : Job) (kw : JobKw) (now : Rat) : Job :=
  let c := applyKw j kw
  let progress := c.progress
  let started := c.started_epoch
  if 0 < started ∧ 0 < progress ∧ progress < 100 ∧ c.status = "running" then
    let elapsed : Rat := max 1 (now - started)
    let eta := pyTrunc (elapsed / (progress : Rat) * ((100 : Rat) - (progress : Rat)))
    { c with eta_seconds := some (max 1 eta) }
  else if 100 ≤ progress then { c with eta_seconds := some 0 }
  else c

/-- The terminal statuses. -/
def terminalStatuses : List String := ["done", "error", "cancelled"]

/-- `main.analyze_cancel` on an existing job: the returned string is the
`status` field of the JSON response. -/
def analyze_cancel (flag : Bool) (j : Job) : Job × String :=
  if ¬ flag then (j, "disabled")
  else if j.status ∈ terminalStatuses then (j, "finished")
  else ({ j with cancel_requested := true, message := "Iptal islemi siraya alindi..." },
        "cancelling")

/-- An atomic operation on a job entry: a progress-callback invocation or a
terminal update from the worker, or a cancel request from the endpoint. -/
inductive JobEv where
  | progress (percent : Int) (msg : String) (now : Rat)
  | finish (st : String) (msg : String) (err log : Option String) (now : Rat)
  | cancel
deriving Repr, DecidableEq

/-- Worker-side (pipeline) events. -/
def isPipelineEv : JobEv → Bool
  | .progress _ _ _ => true
  | .finish _ _ _ _ _ => true
  | .cancel => false

/-- One step of the job state machine (`flag` is `FEATURE_FLAGS["CANCEL_JOB"]`). -/
def jobStep (flag : Bool) (j : Job) : JobEv → Job
  | .progress p m now =>
    -- the progress callback runs check_cancel first; with the flag set it
    -- raises JobCancelled instead of updating
    if j.cancel_requested ∧ flag then j
    else
      update_job j
        { status? := some "running", progress? := some (max 1 (min p 99)),
          message? := some m } now
  | .finish st m err log now =>
    update_job j
      { status? := some st, progress? := some 100, message? := some m,
        error? := err, log_id? := log, eta? := some (some 0) } now
  | .cancel => (analyze_cancel flag j).1

/-- Run a sequence of job events. -/
def runEvents (flag : Bool) (j : Job) (evs : List JobEv) : Job :=
  evs.foldl (jobStep flag) j

/-- Well-formedness of an event sequence from a state: pipeline events only
happen while the job is running.  This holds of every trace the program can
produce: the worker thread starts on a `running` job, its progress updates
keep the status `running`, its single terminal update is its last operation,
and the cancel endpoint never changes `status`. -/
def wfFrom (flag : Bool) : Job → List JobEv → Prop
  | _, [] => True
  | j, e :: es =>
    (isPipelineEv e = true → j.status = "running") ∧ wfFrom flag (jobStep flag j e) es

/-! ## app/main.py: the analysis pipeline

`perform_analysis` runs in a monad carrying the checkpoint counter and the
trace of observable effects; exceptions are `Except`.  Oracles in `Env`
stand for the out-of-scope collaborators (CSV parsing, spec section 1) and
the nondeterministic environment (network responses, worker-pool completion
order, the shared cancellation flag read at each checkpoint). -/

/-- A pipeline exception: cooperative cancellation, a structured validation
failure (`AppError`), or any other Python exception. -/
inductive PipeErr where
  | cancelled
  | appError (msg : String) (details : List String)
  | pyExc
deriving Repr, DecidableEq

/-- An observable pipeline effect. -/
inductive PEv where
  | progressEv (percent : Int) (msg : String)
  | discoverEv (site : String) (cap : Int)
  | auditBatchEv (batch : List String)
  | robotsEv (site : String)
deriving Repr, DecidableEq

/-- The pipeline monad: checkpoint counter, effect trace, exceptions. -/
abbrev PipeM (α : Type) := ExceptT PipeErr (StateM (Nat × List PEv)) α

/-- The environment of one pipeline run. -/
structure Env where
  parseCsv : List Nat → String → List UrlRow × List String
  parseGsc : List Nat → List GscRow × List String
  fetch : String → FetchRes
  order : List String → List String
  sitemapFuel : Nat
  crawlFuel : Nat
  cancelAt : Nat → Bool
  cancelFlag : Bool := true
  recoveryFlag : Bool := true

/-- The request arguments of one analysis. -/
structure Args where
  old_raw : List Nat
  new_raw : List Nat
  gsc_before_raw : List Nat
  gsc_after_raw : List Nat
  site_url : String
  run_audit : Bool
  audit_limit : Int
  crawl_site : Bool
  crawl_limit : Int

/-- The result bundle of `perform_analysis` (export payloads as row lists;
CSV serialization is out of scope, spec section 1). -/
structure Package where
  summary : Summary
  critical_issues : Nat
  matchesTop : List MatchRow
  urgent_actions : List UrgentRow
  audit_results : List AuditRow
  site_url : String
  run_audit : Bool
  analysis_mode : String
  comparison_rows : List CompRow
  unresolved_rows : List UnresRow
  recovery_panel : List PanelRow
  redirects_rows : List (String × String)
  manual_rows : List (String × String × Int × String)
  compare_rows : List CompRow
deriving Repr, DecidableEq

/-- Advance the checkpoint counter. -/
def tick : PipeM Nat := do
  let s ← get
  set (s.1 + 1, s.2)
  pure s.1

/-- Record an effect. -/
def emit (e : PEv) : PipeM Unit :=
  modify fun s => (s.1, s.2 ++ [e])

/-- `check_cancel`: reads the shared flag (oracle `cancelAt` at the current
checkpoint) and raises `JobCancelled` when it is set and the feature is on. -/
def checkCancel (env : Env) : PipeM Unit := do
  let n ← tick
  if env.cancelAt n ∧ env.cancelFlag then throw .cancelled else pure ()

/-- The progress callback wired by `run_analysis_job`: `check_cancel`, then
the job update (recorded as an effect). -/
def progressStep (env : Env) (p : Int) (m : String) : PipeM Unit := do
  checkCancel env
  emit (.progressEv p m)

/-- Lift a possibly-raising computation (`none` = Python exception). -/
def liftOpt : Option α → PipeM α
  | some a => pure a
  | none => throw .pyExc

/-- `urls[idx:idx+40]` batches with their start indices. -/
def chunks40Go : Nat → List String → List (List String)
  | 0, _ => []
  | _, [] => []
  | fuel + 1, l@(_ :: _) => l.take 40 :: chunks40Go fuel (l.drop 40)

/-- The batches of the audit loop (`range(0, len(urls), 40)`). -/
def chunks40 (l : List String) : List (List String) := chunks40Go l.length l

/-- Attach the Python loop indices `0, 40, 80, ...` to the batches. -/
def enumChunks (idx : Nat) : List (List String) → List (Nat × List String)
  | [] => []
  | b :: bs => (idx, b) :: enumChunks (idx + 40) bs

/-- The audit batch loop of `perform_analysis`. -/
def auditLoop (env : Env) (urlsLen : Nat) :
    List (Nat × List String) → List AuditRow → PipeM (List AuditRow)
  | [], acc => pure acc
  | (idx, batch) :: rest, acc => do
    checkCancel env
    emit (.auditBatchEv batch)
    let acc1 := acc ++ run_quick_audit env.fetch env.order batch
    let pc := 70 + pyTrunc ((((idx + batch.length : Nat) : Rat) / ((max 1 urlsLen : Nat) : Rat)) * 15)
    progressStep env (min 88 pc) "Teknik audit devam ediyor..."
    auditLoop env urlsLen rest acc1

/-- `main.perform_analysis`. -/
def perform_analysis (env : Env) (a : Args) : PipeM Package := do
  let score_threshold : Int := 70
  progressStep env 10 "Girdi dosyalari okunuyor."
  let has_old := a.old_raw ≠ []
  let has_new := a.new_raw ≠ []
  let stage1 ←
    if has_old ∧ has_new then do
      let old := env.parseCsv a.old_raw "Eski URL dosyasi"
      let new := env.parseCsv a.new_raw "Yeni URL dosyasi"
      pure ("migration", old.1, new.1, old.2 ++ new.2, a.run_audit)
    else if a.crawl_site ∧ pyStrip a.site_url ≠ "" then do
      progressStep env 20 "Site URL\x27leri bulunuyor (sitemap + ic link taramasi)."
      checkCancel env
      let cap : Int := max 10 (min a.crawl_limit 2000)
      emit (.discoverEv a.site_url cap)
      let discovered ← liftOpt
        (discover_site_urls env.fetch a.site_url cap.toNat env.sitemapFuel env.crawlFuel)
      let errs :=
        if discovered = [] then
          ["Site URL ile otomatik taramada URL bulunamadi. Site erisimi, robots veya sitemap kontrol edin."]
        else []
      let new_rows ← liftOpt (optMapM (fun url =>
        (infer_type url).map (fun t => ({ url := url, type? := some t } : UrlRow))) discovered)
      pure ("scan", new_rows, new_rows, errs, true)
    else
      pure ("migration", ([] : List UrlRow), ([] : List UrlRow),
            ["CSV gecis analizi icin eski ve yeni URL dosyalari gereklidir.",
             "Alternatif olarak \x27Siteyi otomatik tara\x27 secenegini acip Site URL girebilirsin."],
            a.run_audit)
  let (analysis_mode, old_rows, new_rows, errors0, run_audit) := stage1
  let gsc_before := if a.gsc_before_raw ≠ [] then env.parseGsc a.gsc_before_raw else ([], [])
  let gsc_after := if a.gsc_after_raw ≠ [] then env.parseGsc a.gsc_after_raw else ([], [])
  let errors := errors0 ++ gsc_before.2 ++ gsc_after.2 ++
    (if old_rows = [] then ["Eski URL listesi bos veya gecersiz."] else []) ++
    (if new_rows = [] then ["Yeni URL listesi bos veya gecersiz."] else [])
  if errors ≠ [] then throw (.appError "Analiz baslatilamadi." errors) else pure ()
  progressStep env 45 "URL eslestirme ve onceliklendirme yapiliyor."
  checkCancel env
  let matchList ←
    if analysis_mode = "migration" then liftOpt (match_urls old_rows new_rows)
    else
      liftOpt (optMapM (fun item => do
        let t ←
          match item.type? with
          | some t => if t = "" then infer_type item.url else some t
          | none => infer_type item.url
        result_row item.url item.url 100 "site_scan" t) old_rows)
  let summary := summarize_matches matchList score_threshold
  let gsc_before_map ← liftOpt (build_gsc_metric_map gsc_before.1)
  let gsc_after_map ← liftOpt (build_gsc_metric_map gsc_after.1)
  let urgent0 ←
    if analysis_mode = "migration" then liftOpt (rank_urgent_actions matchList gsc_before_map)
    else pure []
  let redirects_rows :=
    if analysis_mode = "migration" then build_redirects_rows matchList score_threshold else []
  let manual_rows :=
    if analysis_mode = "migration" then build_manual_review_rows matchList score_threshold
    else []
  let audit_results ←
    if run_audit then do
      progressStep env 70 "Teknik audit yapiliyor (404, noindex, canonical, robots, sitemap)."
      let cap : Int := max 1 (min a.audit_limit 500)
      let urls := (new_rows.map (·.url)).take cap.toNat
      let results0 ← auditLoop env urls.length (enumChunks 0 (chunks40 urls)) []
      let results1 ←
        if pyStrip a.site_url ≠ "" then do
          checkCancel env
          emit (.robotsEv a.site_url)
          let rb ← liftOpt (check_robots_and_sitemap env.fetch a.site_url)
          pure (results0 ++ rb)
        else pure results0
      pure (annotate_audit_items results1)
    else pure []
  let urgent_actions :=
    if analysis_mode = "scan" then build_audit_urgent_actions audit_results else urgent0
  progressStep env 90 "Rapor hazirlaniyor."
  checkCancel env
  let cmp ← liftOpt (build_comparison_rows matchList gsc_before_map gsc_after_map analysis_mode)
  let recovery_panel := if env.recoveryFlag then build_recovery_panel cmp.1 else []
  let critical_issues := (audit_results.filter (fun i => i.severity = "critical")).length
  pure
    { summary := summary, critical_issues := critical_issues,
      matchesTop := matchList.take 100, urgent_actions := urgent_actions,
      audit_results := audit_results.take 200, site_url := a.site_url,
      run_audit := run_audit, analysis_mode := analysis_mode,
      comparison_rows := cmp.1.take 200, unresolved_rows := cmp.2.take 100,
      recovery_panel := recovery_panel, redirects_rows := redirects_rows,
      manual_rows := manual_rows, compare_rows := cmp.1 }

/-- Run the pipeline from a fresh counter and trace. -/
def performRun (env : Env) (a : Args) :
    Except PipeErr Package × Nat × List PEv :=
  (perform_analysis env a).run.run (0, [])

/-- The result of a run. -/
def performResult (env : Env) (a : Args) : Except PipeErr Package :=
  (performRun env a).1

/-- The effect trace of a run. -/
def performTrace (env : Env) (a : Args) : List PEv :=
  (performRun env a).2.2

/-- The terminal status `run_analysis_job` records for a pipeline outcome:
`done` on success, `cancelled` for the cancellation signal, `error` for an
`AppError` or any unexpected exception. -/
def runOutcome : Except PipeErr Package → String
  | .ok _ => "done"
  | .error .cancelled => "cancelled"
  | .error (.appError _ _) => "error"
  | .error .pyExc => "error"

/-! ## Derived definitions used by the verification statements -/

/-- No character of the string is an ASCII uppercase letter. -/
def noUpper (s : String) : Prop := ∀ c ∈ s.data, ¬ ('A' ≤ c ∧ c ≤ 'Z')

/-- The path component as assembled by `normalize_url`: empty becomes the
root, and one trailing slash is removed from a non-root path. -/
def normPath (p : String) : String :=
  let p0 := if p = "" then "/" else p
  if p0 ≠ "/" ∧ pyEndsWith p0 "/" then ⟨p0.data.dropLast⟩ else p0


/-- Rows counted as recovering by the panel. -/
def recoveringCount (rows : List CompRow) : Nat :=
  (rows.filter (fun r => r.status = "toparlaniyor" ∨ r.status = "yeni_toparlaniyor")).length

/-- Rows counted as unresolved by the panel. -/

def unresolvedCount (rows : List CompRow) : Nat :=
  (rows.filter (fun r => r.status = "duzeltildi_ama_toparlanmadi")).length

/-- The base recovery rate in the form stated by the specification,
`round(100 × recovering_count / total)`. -/

def baseRate (rows : List CompRow) : Int :=
  pyRound (100 * (recoveringCount rows : Rat) / (rows.length : Rat))


/-- Total number of URLs handed to the auditor over a trace (the sum of
the audit batch sizes). -/
def auditSum : List PEv → Nat
  | [] => 0
  | PEv.auditBatchEv b :: es => b.length + auditSum es
  | _ :: es => auditSum es

/-- Sum of the batch sizes of an indexed batch list. -/
def sumBatches : List (Nat × List String) → Nat
  | [] => 0
  | (_, b) :: r => b.length + sumBatches r

/-- Sum of the lengths of a list of batches. -/
def sumLens : List (List String) → Nat
  | [] => 0
  | b :: r => b.length + sumLens r

/-- Every discovery event in the list carries the clamped crawl cap of the
request. -/
def capsOK (a : Args) (l : List PEv) : Prop :=
  ∀ site cap, PEv.discoverEv site cap ∈ l → cap = max 10 (min a.crawl_limit 2000)

/-- The computation appends some event list to the trace, every appended
discovery event carries the clamped crawl cap, and at most `B` URLs are
sent to the auditor. -/
def GoodM {α : Type} (a : Args) (B : Nat) (m : PipeM α) : Prop :=
  ∀ s : Nat × List PEv, ∃ l : List PEv,
    ((m.run.run s).2.2 = s.2 ++ l) ∧ capsOK a l ∧ auditSum l ≤ B

/-- A concrete environment for evaluating the pipeline on closed inputs:
empty CSV parses, every fetch fails, identity completion order, no
cancellation. -/
def envC10 : Env :=
  { parseCsv := fun _ _ => ([], []), parseGsc := fun _ => ([], []),
    fetch := fun _ => FetchRes.fail "x", order := id, sitemapFuel := 3,
    crawlFuel := 3, cancelAt := fun _ => false }

/-- A concrete scan request with `crawl_limit = 50` and `audit_limit = 3`. -/
def argsC10 : Args :=
  { old_raw := [], new_raw := [], gsc_before_raw := [], gsc_after_raw := [],
    site_url := "http://e.com", run_audit := false, audit_limit := 3,
    crawl_site := true, crawl_limit := 50 }

/-- The sort order of the audit report: ascending severity rank, ties broken
by ascending URL. -/
def auditLe (x y : AuditRow) : Prop :=
  severity_rank x.severity < severity_rank y.severity ∨
    (severity_rank x.severity = severity_rank y.severity ∧
      (pyStrLt x.url y.url = true ∨ x.url = y.url))

/-- A page body whose canonical link target is a malformed bracketed URL. -/
def c6Body : String := "<link a rel=\x22canonical\x22 a href=\x22http://[x\x22>"

/-- A fetch oracle answering HTTP 404 with the malformed-canonical body. -/
def fetch404bad : String → FetchRes := fun _ => FetchRes.ok 404 "http://e.com/x" c6Body

/-- The checkpoint index at which the audit stage would begin: 5 on the
site-scan path (10%, 20%, post-20% check, 45%, post-45% check come first),
3 on the migration path (10%, 45%, post-45% check come first). -/
def auditStartIdx (a : Args) : Nat :=
  if ¬(a.old_raw ≠ [] ∧ a.new_raw ≠ []) ∧ (a.crawl_site = true ∧ pyStrip a.site_url ≠ "") then 5
  else 3

/-- An environment whose cancellation flag becomes set at checkpoint 3. -/
def envC5 : Env :=
  { parseCsv := fun _ _ => ([{ url := "http://a/x", type? := none }], []),
    parseGsc := fun _ => ([], []), fetch := fun _ => FetchRes.fail "x", order := id,
    sitemapFuel := 1, crawlFuel := 1, cancelAt := fun n => decide (3 ≤ n) }

/-- A migration request with the audit disabled. -/
def argsC5 : Args :=
  { old_raw := [1], new_raw := [1], gsc_before_raw := [], gsc_after_raw := [],
    site_url := "", run_audit := false, audit_limit := 1, crawl_site := false,
    crawl_limit := 10 }

/-- The combined slug score of one candidate, as computed inside the
slug-similarity loop: `0.75 * sequence_ratio + 0.25 * token_jaccard`. -/
def combinedScore (old_slug cand : String) : Option Rat := do
  let cand_slug ← slug_of cand
  let old_tokens := (tokenize_slug old_slug).toFinset
  let cand_tokens := (tokenize_slug cand_slug).toFinset
  let u := (old_tokens ∪ cand_tokens).card
  let union := if u = 0 then 1 else u
  pure (similarity old_slug cand_slug * (3/4) +
    (((old_tokens ∩ cand_tokens).card : Rat) / (union : Rat)) * (1/4))

/-! # Theorems -/

/-! ## C2: URL normalization -/

theorem upperShift (c : Char) (h1 : c.toNat ≤ 90) (h2 : 65 ≤ c.toNat) :
    ¬ ('A' ≤ Char.ofNat (c.toNat + 32) ∧ Char.ofNat (c.toNat + 32) ≤ 'Z') := by
  intro ⟨_, hb⟩
  have ht : (Char.ofNat (c.toNat + 32)).toNat = c.toNat + 32 := by
    have hv : Nat.isValidChar (c.toNat + 32) := Or.inl (by omega)
    rw [Char.ofNat, dif_pos hv]
    rfl
  have hb2 : (Char.ofNat (c.toNat + 32)).toNat ≤ ('Z').toNat :=
    Nat.le_of_lt_succ (Nat.lt_succ_of_le hb)
  rw [ht] at hb2
  have hz : ('Z').toNat = 90 := by decide
  omega

theorem pyLowerChar_noUpper (c : Char) : ¬ ('A' ≤ pyLowerChar c ∧ pyLowerChar c ≤ 'Z') := by
  unfold pyLowerChar
  by_cases h : 'A' ≤ c ∧ c ≤ 'Z'
  · rw [if_pos h]
    have h1 : c.toNat ≤ 90 := by
      have hb : c.toNat ≤ ('Z').toNat := Nat.le_of_lt_succ (Nat.lt_succ_of_le h.2)
      have hz : ('Z').toNat = 90 := by decide
      omega
    have h2 : 65 ≤ c.toNat := by
      have hb : ('A').toNat ≤ c.toNat := Nat.le_of_lt_succ (Nat.lt_succ_of_le h.1)
      have ha : ('A').toNat = 65 := by decide
      omega
    exact upperShift c h1 h2
  · rw [if_neg h]
    exact h

theorem pyLower_noUpper (s : String) : noUpper (pyLower s) := by
  intro c hc
  simp only [pyLower, List.mem_map] at hc
  obtain ⟨d, _, rfl⟩ := hc
  exact pyLowerChar_noUpper d

/-- C2, counterexample: the claim says the path component of the normalized
URL is always lowercase; normalizing `https://EX.com/Foo/` keeps the
uppercase `F` of the path (only scheme and host are lowercased), so the
result is not its own lowercase image. -/
theorem c2_counterexample :
    normalize_url "https://EX.com/Foo/" = some "https://ex.com/Foo" ∧
    pyLower "https://ex.com/Foo" ≠ "https://ex.com/Foo" := by
  constructor
  · decide
  · decide

/-- C2, amended: for every URL string on which normalization succeeds, the
result is the lowercased scheme, `://`, the lowercased host, and the path
with its original character case, where the path is `/` when empty and one
trailing slash is removed from a non-root path; query and fragment do not
occur in the result (it is assembled from scheme, host and path only).
Scheme and host are lowercase in the result; the path keeps its case. -/
theorem c2_amended (url s : String) (h : normalize_url url = some s) :
    ∃ pr, urlparsePy (pyStrip url) = some pr ∧
      s = pyLower pr.scheme ++ "://" ++ pyLower pr.netloc ++ normPath pr.path ∧
      noUpper (pyLower pr.scheme) ∧ noUpper (pyLower pr.netloc) ∧
      (pr.path ≠ "/" → pyEndsWith pr.path "/" = true →
        (normPath pr.path).data = pr.path.data.dropLast) ∧
      (pr.path = "" → normPath pr.path = "/") := by
  unfold normalize_url at h
  cases hp : urlparsePy (pyStrip url) with
  | none => rw [hp] at h; exact absurd h (by simp [Option.bind])
  | some pr =>
    rw [hp] at h
    simp only [Option.pure_def, Option.bind_eq_bind, Option.some_bind, Option.some.injEq] at h
    refine ⟨pr, rfl, ?_, pyLower_noUpper _, pyLower_noUpper _, ?_, ?_⟩
    · rw [← h]
      unfold normPath
      rfl
    · intro hne hsl
      unfold normPath
      have hne2 : pr.path ≠ "" := by
        intro he
        rw [he] at hsl
        exact absurd hsl (by decide)
      simp only [if_neg hne2, if_pos (And.intro hne hsl)]
    · intro he
      unfold normPath
      simp [he]

theorem c2_amended_witness :
    ∃ pr, urlparsePy (pyStrip "https://A.com/B/") = some pr ∧
      "https://a.com/B" = pyLower pr.scheme ++ "://" ++ pyLower pr.netloc ++ normPath pr.path ∧
      noUpper (pyLower pr.scheme) ∧ noUpper (pyLower pr.netloc) ∧
      (pr.path ≠ "/" → pyEndsWith pr.path "/" = true →
        (normPath pr.path).data = pr.path.data.dropLast) ∧
      (pr.path = "" → normPath pr.path = "/") :=
  c2_amended "https://A.com/B/" "https://a.com/B" (by decide)

/-! ## C9: matcher output length and order -/

theorem result_row_old_url {o n : String} {sc : Int} {re ty : String} {mr : MatchRow}
    (h : result_row o n sc re ty = some mr) : mr.old_url = o := by
  unfold result_row at h
  obtain ⟨op, hop, h⟩ := Option.bind_eq_some.mp h
  by_cases hn : n ≠ ""
  · rw [if_pos hn] at h
    obtain ⟨np, hnp, h⟩ := Option.bind_eq_some.mp h
    simp only [Option.pure_def, Option.some.injEq] at h
    subst h; rfl
  · rw [if_neg hn] at h
    obtain ⟨np, hnp, h⟩ := Option.bind_eq_some.mp h
    simp only [Option.pure_def, Option.some.injEq] at h
    subst h; rfl

theorem matchOne_old_url {m : NewMaps} {row : UrlRow} {mr : MatchRow}
    (h : matchOne m row = some mr) : mr.old_url = row.url := by
  unfold matchOne at h
  obtain ⟨ty, h1, h⟩ := Option.bind_eq_some.mp h
  obtain ⟨nrm, h2, h⟩ := Option.bind_eq_some.mp h
  obtain ⟨pth, h3, h⟩ := Option.bind_eq_some.mp h
  obtain ⟨slg, h4, h⟩ := Option.bind_eq_some.mp h
  split at h
  · exact result_row_old_url h
  · split at h
    · exact result_row_old_url h
    · obtain ⟨best, h7, h⟩ := Option.bind_eq_some.mp h
      dsimp only at h
      split at h
      · exact result_row_old_url h
      · exact result_row_old_url h

theorem optMapM_length {α β : Type} {f : α → Option β} :
    ∀ {l : List α} {r : List β}, optMapM f l = some r → r.length = l.length := by
  intro l
  induction l with
  | nil =>
    intro r h
    simp only [optMapM, Option.some.injEq] at h
    simp [← h]
  | cons a t ih =>
    intro r h
    simp only [optMapM] at h
    obtain ⟨b, hb, h⟩ := Option.bind_eq_some.mp h
    obtain ⟨rt, hrt, h⟩ := Option.bind_eq_some.mp h
    simp only [Option.pure_def, Option.some.injEq] at h
    subst h
    simp [ih hrt]

theorem optMapM_map {α β γ : Type} {f : α → Option β} {g : β → γ} {gs : α → γ}
    (hf : ∀ a b, f a = some b → g b = gs a) :
    ∀ {l : List α} {r : List β}, optMapM f l = some r → r.map g = l.map gs := by
  intro l
  induction l with
  | nil =>
    intro r h
    simp only [optMapM, Option.some.injEq] at h
    simp [← h]
  | cons a t ih =>
    intro r h
    simp only [optMapM] at h
    obtain ⟨b, hb, h⟩ := Option.bind_eq_some.mp h
    obtain ⟨rt, hrt, h⟩ := Option.bind_eq_some.mp h
    simp only [Option.pure_def, Option.some.injEq] at h
    subst h
    simp [hf a b hb, ih hrt]

/-- C9: the Matcher returns exactly one MatchResult per old URL, in input
order: the output has the same length as the old-URL list and the i-th
result carries the i-th old URL. -/
theorem c9_match_urls_shape (old_rows new_rows : List UrlRow) (res : List MatchRow)
    (h : match_urls old_rows new_rows = some res) :
    res.length = old_rows.length ∧
    res.map (fun r => r.old_url) = old_rows.map (fun r => r.url) := by
  unfold match_urls at h
  obtain ⟨m, hm, h⟩ := Option.bind_eq_some.mp h
  exact ⟨optMapM_length h, optMapM_map (fun a b hb => matchOne_old_url hb) h⟩

theorem c9_match_urls_shape_witness :
    ([(⟨"https://yeni-site.com/products/siyah-elbise",
        "https://yeni-site.com/products/siyah-elbise", 100, "exact_url", "product",
        "/products/siyah-elbise", "/products/siyah-elbise"⟩ : MatchRow)].length =
      [(⟨"https://yeni-site.com/products/siyah-elbise", some "product"⟩ : UrlRow)].length) ∧
    [(⟨"https://yeni-site.com/products/siyah-elbise",
        "https://yeni-site.com/products/siyah-elbise", 100, "exact_url", "product",
        "/products/siyah-elbise", "/products/siyah-elbise"⟩ : MatchRow)].map
      (fun r => r.old_url) =
    [(⟨"https://yeni-site.com/products/siyah-elbise", some "product"⟩ : UrlRow)].map
      (fun r => r.url) :=
  c9_match_urls_shape
    [⟨"https://yeni-site.com/products/siyah-elbise", some "product"⟩]
    [⟨"https://yeni-site.com/products/siyah-elbise", some "product"⟩]
    _ (by decide)

/-! ## C8: recovery panel -/

theorem pyRound_le {x : Rat} {n : Int} (h : x ≤ (n : Rat)) : pyRound x ≤ n := by
  unfold pyRound
  dsimp only
  have hf : (⌊x⌋ : Rat) ≤ x := Int.floor_le x
  have hfn : ⌊x⌋ ≤ n := by
    have h2 := Int.floor_mono h
    rwa [Int.floor_intCast] at h2
  split
  · exact hfn
  · split
    · rename_i h1 h2
      have h3 : ⌊x⌋ < n := by
        by_contra hc
        push_neg at hc
        have hc2 : (n : Rat) ≤ (⌊x⌋ : Rat) := by exact_mod_cast hc
        linarith
      omega
    · rename_i h1 h2
      have hr : x - (⌊x⌋ : Rat) = 1/2 := le_antisymm (not_lt.mp h2) (not_lt.mp h1)
      have h3 : ⌊x⌋ < n := by
        by_contra hc
        push_neg at hc
        have hc2 : (n : Rat) ≤ (⌊x⌋ : Rat) := by exact_mod_cast hc
        linarith
      split <;> omega

theorem pyRound_nonneg {x : Rat} (h : 0 ≤ x) : 0 ≤ pyRound x := by
  unfold pyRound
  dsimp only
  have hf : (0 : Int) ≤ ⌊x⌋ := Int.floor_nonneg.mpr h
  split
  · exact hf
  · split
    · omega
    · split <;> omega

/-- C8: for a non-empty row list the panel is exactly the three horizons
with rates `min 100 (base + bonus)` for bonuses 5, 10, 18, where the base
rate is `round(100 × recovering_count / total)`; the day-30 rate is at
least the day-7 rate, which is at least the base rate, and all three are at
most 100. -/
theorem c8_recovery_panel (rows : List CompRow) (hne : rows ≠ []) :
    build_recovery_panel rows =
      [⟨7, min 100 (baseRate rows + 5), recoveringCount rows, unresolvedCount rows⟩,
       ⟨14, min 100 (baseRate rows + 10), recoveringCount rows, unresolvedCount rows⟩,
       ⟨30, min 100 (baseRate rows + 18), recoveringCount rows, unresolvedCount rows⟩] ∧
    baseRate rows ≤ min 100 (baseRate rows + 5) ∧
    min 100 (baseRate rows + 5) ≤ min 100 (baseRate rows + 18) ∧
    baseRate rows ≤ 100 ∧
    min 100 (baseRate rows + 5) ≤ 100 ∧ min 100 (baseRate rows + 18) ≤ 100 := by
  have hlen : 1 ≤ rows.length := List.length_pos.mpr hne
  have hmax : max 1 rows.length = rows.length := Nat.max_eq_right hlen
  have hcount : recoveringCount rows ≤ rows.length := by
    simpa [recoveringCount] using List.length_filter_le _ rows
  have hformula :
      ((recoveringCount rows : Rat) / ((max 1 rows.length : Nat) : Rat)) * 100 =
      100 * (recoveringCount rows : Rat) / (rows.length : Rat) := by
    rw [hmax]
    ring
  have hbase_le : baseRate rows ≤ 100 := by
    apply pyRound_le
    have hpos : (0 : Rat) < (rows.length : Rat) := by exact_mod_cast hlen
    rw [div_le_iff₀ hpos]
    have : (recoveringCount rows : Rat) ≤ (rows.length : Rat) := by exact_mod_cast hcount
    push_cast
    nlinarith
  have hbase_nonneg : 0 ≤ baseRate rows := by
    apply pyRound_nonneg
    have hpos : (0 : Rat) ≤ (rows.length : Rat) := by positivity
    positivity
  refine ⟨?_, ?_, ?_, hbase_le, min_le_left _ _, min_le_left _ _⟩
  · unfold build_recovery_panel
    rw [if_neg hne]
    simp only [List.map_cons, List.map_nil]
    have hb : pyRound ((recoveringCount rows : Rat) / ((max 1 rows.length : Nat) : Rat) * 100)
        = baseRate rows := by
      unfold baseRate
      rw [hformula]
    refine congrArg₂ _ ?_ (congrArg₂ _ ?_ (congrArg₂ _ ?_ rfl)) <;>
      simp only [recoveringCount, unresolvedCount] at hb ⊢ <;>
      rw [← hb]
  · exact le_min hbase_le (by omega)
  · exact min_le_min le_rfl (by omega)

theorem c8_recovery_panel_witness :
    build_recovery_panel
        [⟨"a", "b", 1, 2, 1, 3, 3, 0, "toparlaniyor", "r"⟩,
         ⟨"c", "d", 5, 1, -4, 3, 9, -6, "duzeltildi_ama_toparlanmadi", "r"⟩] =
      [⟨7, min 100 (baseRate [⟨"a", "b", 1, 2, 1, 3, 3, 0, "toparlaniyor", "r"⟩,
         ⟨"c", "d", 5, 1, -4, 3, 9, -6, "duzeltildi_ama_toparlanmadi", "r"⟩] + 5),
         recoveringCount [⟨"a", "b", 1, 2, 1, 3, 3, 0, "toparlaniyor", "r"⟩,
         ⟨"c", "d", 5, 1, -4, 3, 9, -6, "duzeltildi_ama_toparlanmadi", "r"⟩],
         unresolvedCount [⟨"a", "b", 1, 2, 1, 3, 3, 0, "toparlaniyor", "r"⟩,
         ⟨"c", "d", 5, 1, -4, 3, 9, -6, "duzeltildi_ama_toparlanmadi", "r"⟩]⟩,
       ⟨14, min 100 (baseRate [⟨"a", "b", 1, 2, 1, 3, 3, 0, "toparlaniyor", "r"⟩,
         ⟨"c", "d", 5, 1, -4, 3, 9, -6, "duzeltildi_ama_toparlanmadi", "r"⟩] + 10),
         recoveringCount [⟨"a", "b", 1, 2, 1, 3, 3, 0, "toparlaniyor", "r"⟩,
         ⟨"c", "d", 5, 1, -4, 3, 9, -6, "duzeltildi_ama_toparlanmadi", "r"⟩],
         unresolvedCount [⟨"a", "b", 1, 2, 1, 3, 3, 0, "toparlaniyor", "r"⟩,
         ⟨"c", "d", 5, 1, -4, 3, 9, -6, "duzeltildi_ama_toparlanmadi", "r"⟩]⟩,
       ⟨30, min 100 (baseRate [⟨"a", "b", 1, 2, 1, 3, 3, 0, "toparlaniyor", "r"⟩,
         ⟨"c", "d", 5, 1, -4, 3, 9, -6, "duzeltildi_ama_toparlanmadi", "r"⟩] + 18),
         recoveringCount [⟨"a", "b", 1, 2, 1, 3, 3, 0, "toparlaniyor", "r"⟩,
         ⟨"c", "d", 5, 1, -4, 3, 9, -6, "duzeltildi_ama_toparlanmadi", "r"⟩],
         unresolvedCount [⟨"a", "b", 1, 2, 1, 3, 3, 0, "toparlaniyor", "r"⟩,
         ⟨"c", "d", 5, 1, -4, 3, 9, -6, "duzeltildi_ama_toparlanmadi", "r"⟩]⟩] ∧
    baseRate [⟨"a", "b", 1, 2, 1, 3, 3, 0, "toparlaniyor", "r"⟩,
      ⟨"c", "d", 5, 1, -4, 3, 9, -6, "duzeltildi_ama_toparlanmadi", "r"⟩] ≤
      min 100 (baseRate [⟨"a", "b", 1, 2, 1, 3, 3, 0, "toparlaniyor", "r"⟩,
        ⟨"c", "d", 5, 1, -4, 3, 9, -6, "duzeltildi_ama_toparlanmadi", "r"⟩] + 5) ∧
    min 100 (baseRate [⟨"a", "b", 1, 2, 1, 3, 3, 0, "toparlaniyor", "r"⟩,
      ⟨"c", "d", 5, 1, -4, 3, 9, -6, "duzeltildi_ama_toparlanmadi", "r"⟩] + 5) ≤
      min 100 (baseRate [⟨"a", "b", 1, 2, 1, 3, 3, 0, "toparlaniyor", "r"⟩,
        ⟨"c", "d", 5, 1, -4, 3, 9, -6, "duzeltildi_ama_toparlanmadi", "r"⟩] + 18) ∧
    baseRate [⟨"a", "b", 1, 2, 1, 3, 3, 0, "toparlaniyor", "r"⟩,
      ⟨"c", "d", 5, 1, -4, 3, 9, -6, "duzeltildi_ama_toparlanmadi", "r"⟩] ≤ 100 ∧
    min 100 (baseRate [⟨"a", "b", 1, 2, 1, 3, 3, 0, "toparlaniyor", "r"⟩,
      ⟨"c", "d", 5, 1, -4, 3, 9, -6, "duzeltildi_ama_toparlanmadi", "r"⟩] + 5) ≤ 100 ∧
    min 100 (baseRate [⟨"a", "b", 1, 2, 1, 3, 3, 0, "toparlaniyor", "r"⟩,
      ⟨"c", "d", 5, 1, -4, 3, 9, -6, "duzeltildi_ama_toparlanmadi", "r"⟩] + 18) ≤ 100 :=
  c8_recovery_panel _ (by decide)

/-! ## C4: job lifecycle -/

theorem update_job_status (j : Job) (kw : JobKw) (now : Rat) :
    (update_job j kw now).status = (applyKw j kw).status := by
  unfold update_job
  dsimp only
  split
  · rfl
  · split <;> rfl

theorem update_job_progress (j : Job) (kw : JobKw) (now : Rat) :
    (update_job j kw now).progress = (applyKw j kw).progress := by
  unfold update_job
  dsimp only
  split
  · rfl
  · split <;> rfl

theorem jobStep_terminal_fixed {flag : Bool} {j : Job} (ht : j.status ∈ terminalStatuses) :
    jobStep flag j .cancel = j := by
  unfold jobStep analyze_cancel
  by_cases hf : flag
  · simp [hf, ht]
  · simp [hf]

theorem running_not_terminal : "running" ∉ terminalStatuses := by decide

/-- C4: the job lifecycle.  (1) A terminal job is never changed by any
well-formed sequence of further operations.  (2) Every reachable terminal
state has progress 100 and eta 0 (the property is preserved from any state
that has it, and the initial state is running).  (3) A cancel request
against a terminal job leaves it unchanged and reports "finished".  (4) A
progress-callback update on a running job clamps the percentage into
[1, 99].  (5) A job starts in the running state. -/
theorem c4_job_lifecycle :
    (∀ (flag : Bool) (j : Job) (evs : List JobEv), wfFrom flag j evs →
      j.status ∈ terminalStatuses → runEvents flag j evs = j) ∧
    (∀ (flag : Bool) (j : Job) (evs : List JobEv), wfFrom flag j evs →
      (j.status ∈ terminalStatuses → j.progress = 100 ∧ j.eta_seconds = some 0) →
      (runEvents flag j evs).status ∈ terminalStatuses →
      (runEvents flag j evs).progress = 100 ∧
      (runEvents flag j evs).eta_seconds = some 0) ∧
    (∀ j : Job, j.status ∈ terminalStatuses → analyze_cancel true j = (j, "finished")) ∧
    (∀ (flag : Bool) (j : Job) (p : Int) (m : String) (now : Rat),
      j.status = "running" → ¬ (j.cancel_requested ∧ flag) →
      1 ≤ (jobStep flag j (.progress p m now)).progress ∧
      (jobStep flag j (.progress p m now)).progress ≤ 99) ∧
    (∀ (now : Rat) (c : Bool), (initJob now c).status = "running") := by
  refine ⟨?_, ?_, ?_, ?_, ?_⟩
  · intro flag j evs
    induction evs generalizing j with
    | nil => intro _ _; rfl
    | cons e es ih =>
      intro hwf ht
      obtain ⟨hpe, hrest⟩ := hwf
      cases e with
      | progress p m now =>
        have hr := hpe (by rfl)
        rw [hr] at ht
        exact absurd ht running_not_terminal
      | finish st m err log now =>
        have hr := hpe (by rfl)
        rw [hr] at ht
        exact absurd ht running_not_terminal
      | cancel =>
        have hfix := @jobStep_terminal_fixed flag j ht
        show runEvents flag (jobStep flag j .cancel) es = j
        rw [hfix] at hrest ⊢
        exact ih j hrest ht
  · intro flag j evs
    induction evs generalizing j with
    | nil => intro _ hinv ht; exact hinv ht
    | cons e es ih =>
      intro hwf hinv
      obtain ⟨hpe, hrest⟩ := hwf
      refine ih (jobStep flag j e) hrest ?_
      cases e with
      | progress p m now =>
        intro ht
        by_cases hc : j.cancel_requested ∧ flag
        · have h2 : jobStep flag j (.progress p m now) = j := by
            unfold jobStep
            dsimp only
            rw [if_pos hc]
          rw [h2] at ht ⊢
          exact hinv ht
        · exfalso
          have h2 : (jobStep flag j (.progress p m now)).status = "running" := by
            unfold jobStep
            dsimp only
            rw [if_neg hc, update_job_status]
            rfl
          rw [h2] at ht
          exact running_not_terminal ht
      | finish st m err log now =>
        intro _
        have hj : jobStep flag j (.finish st m err log now) = update_job j { status? := some st, progress? := some 100, message? := some m, error? := err, log_id? := log, eta? := some (some 0) } now := rfl
        rw [hj]
        have hpro : (applyKw j { status? := some st, progress? := some 100, message? := some m, error? := err, log_id? := log, eta? := some (some 0) }).progress = 100 := rfl
        constructor
        · rw [update_job_progress]
          exact hpro
        · unfold update_job
          dsimp only
          split
          · rename_i hcond
            exfalso
            omega
          · split
            · rfl
            · rename_i h1 h2
              exfalso
              omega
      | cancel =>
        intro ht
        have hj : jobStep flag j .cancel = (analyze_cancel flag j).1 := rfl
        have hfields : ((analyze_cancel flag j).1).status = j.status ∧
            ((analyze_cancel flag j).1).progress = j.progress ∧
            ((analyze_cancel flag j).1).eta_seconds = j.eta_seconds := by
          unfold analyze_cancel
          split
          · exact ⟨rfl, rfl, rfl⟩
          · split
            · exact ⟨rfl, rfl, rfl⟩
            · exact ⟨rfl, rfl, rfl⟩
        obtain ⟨hs, hp, he⟩ := hfields
        rw [hj] at ht ⊢
        rw [hs] at ht
        exact ⟨hp.trans (hinv ht).1, he.trans (hinv ht).2⟩
  · intro j ht
    unfold analyze_cancel
    simp [ht]
  · intro flag j p m now _ hnc
    have h2 : (jobStep flag j (.progress p m now)).progress = max 1 (min p 99) := by
      unfold jobStep
      dsimp only
      rw [if_neg hnc, update_job_progress]
      rfl
    rw [h2]
    omega
  · intro now c
    rfl

theorem c4_job_lifecycle_witness :
    runEvents true ⟨"done", 100, "m", "", "", 5, some 0, false, true⟩ [.cancel] =
      ⟨"done", 100, "m", "", "", 5, some 0, false, true⟩ ∧
    ((runEvents true ⟨"done", 100, "m", "", "", 5, some 0, false, true⟩ [.cancel]).progress = 100 ∧
      (runEvents true ⟨"done", 100, "m", "", "", 5, some 0, false, true⟩ [.cancel]).eta_seconds = some 0) ∧
    analyze_cancel true ⟨"error", 100, "m", "e", "l", 5, some 0, true, true⟩ =
      (⟨"error", 100, "m", "e", "l", 5, some 0, true, true⟩, "finished") ∧
    (1 ≤ (jobStep true ⟨"running", 5, "m", "", "", 5, none, false, true⟩
        (.progress 250 "x" 9)).progress ∧
      (jobStep true ⟨"running", 5, "m", "", "", 5, none, false, true⟩
        (.progress 250 "x" 9)).progress ≤ 99) ∧
    (initJob 3 true).status = "running" := by
  have h := c4_job_lifecycle
  have hwf : wfFrom true ⟨"done", 100, "m", "", "", 5, some 0, false, true⟩ [.cancel] := by
    exact ⟨by intro hx; exact absurd hx (by decide), trivial⟩
  refine ⟨h.1 true _ [.cancel] hwf (by decide),
          h.2.1 true _ [.cancel] hwf (fun _ => ⟨rfl, rfl⟩) ?_,
          h.2.2.1 _ (by decide),
          h.2.2.2.1 true _ 250 "x" 9 rfl (by simp),
          h.2.2.2.2 3 true⟩
  rw [h.1 true _ [.cancel] hwf (by decide)]
  decide

/-! ## C10: limit clamps -/

theorem run_pure {α : Type} (x : α) (s : Nat × List PEv) :
    ((pure x : PipeM α).run.run s) = (.ok x, s) := rfl

theorem run_throw {α : Type} (e : PipeErr) (s : Nat × List PEv) :
    ((throw e : PipeM α).run.run s) = (.error e, s) := rfl

theorem run_emit (e : PEv) (s : Nat × List PEv) :
    ((emit e).run.run s) = (.ok (), (s.1, s.2 ++ [e])) := rfl

theorem run_tick (s : Nat × List PEv) :
    (tick.run.run s) = (.ok s.1, (s.1 + 1, s.2)) := rfl

theorem run_bind {α β : Type} (m : PipeM α) (f : α → PipeM β) (s : Nat × List PEv) :
    ((m >>= f).run.run s) =
      (match m.run.run s with
       | (Except.ok x, s1) => (f x).run.run s1
       | (Except.error e, s1) => (Except.error e, s1)) := by
  rcases hm : m.run.run s with ⟨x, s1⟩
  simp only [StateT.run, ExceptT.run] at hm
  cases x <;>
    simp [Bind.bind, ExceptT.bind, ExceptT.bindCont, ExceptT.mk, ExceptT.run,
      StateT.run, StateT.bind, hm]
  rfl

theorem run_checkCancel (env : Env) (s : Nat × List PEv) :
    ((checkCancel env).run.run s) =
      (if env.cancelAt s.1 ∧ env.cancelFlag then (Except.error PipeErr.cancelled, (s.1 + 1, s.2))
       else (Except.ok (), (s.1 + 1, s.2))) := by
  show ((tick >>= fun n => if env.cancelAt n ∧ env.cancelFlag then throw PipeErr.cancelled
      else pure ()).run.run s) = _
  rw [run_bind, run_tick]
  dsimp only
  by_cases h : env.cancelAt s.1 ∧ env.cancelFlag
  · rw [if_pos h, if_pos h]
    rfl
  · rw [if_neg h, if_neg h]
    rfl

theorem capsOK_nil (a : Args) : capsOK a [] := by
  intro site cap h
  simp at h

theorem capsOK_append {a : Args} {l1 l2 : List PEv} (h1 : capsOK a l1) (h2 : capsOK a l2) :
    capsOK a (l1 ++ l2) := by
  intro site cap h
  rcases List.mem_append.mp h with h | h
  · exact h1 site cap h
  · exact h2 site cap h

theorem auditSum_append (l1 l2 : List PEv) :
    auditSum (l1 ++ l2) = auditSum l1 + auditSum l2 := by
  induction l1 with
  | nil => simp [auditSum]
  | cons e es ih =>
    cases e <;> simp [auditSum, ih] <;> omega

theorem GoodM.mono {α : Type} {a : Args} {m : PipeM α} (B1 B2 : Nat) (h : B1 ≤ B2)
    (hm : GoodM a B1 m) : GoodM a B2 m := by
  intro s
  obtain ⟨l, h1, h2, h3⟩ := hm s
  exact ⟨l, h1, h2, le_trans h3 h⟩

theorem GoodM.bind {α β : Type} {a : Args} {B1 B2 B : Nat} {m : PipeM α} {f : α → PipeM β}
    (hm : GoodM a B1 m) (hf : ∀ x, GoodM a B2 (f x)) (hB : B1 + B2 ≤ B) :
    GoodM a B (m >>= f) := by
  intro s
  obtain ⟨l1, h1, hc1, ha1⟩ := hm s
  rcases hr : m.run.run s with ⟨x, s1⟩
  rw [hr] at h1
  cases x with
  | error e =>
    refine ⟨l1, ?_, hc1, le_trans ha1 (by omega)⟩
    rw [run_bind, hr]
    exact h1
  | ok x =>
    obtain ⟨l2, h2, hc2, ha2⟩ := hf x s1
    refine ⟨l1 ++ l2, ?_, capsOK_append hc1 hc2, ?_⟩
    · rw [run_bind, hr]
      dsimp only
      rw [h2, h1, List.append_assoc]
    · rw [auditSum_append]
      omega

theorem goodM_pure {α : Type} (a : Args) (B : Nat) (x : α) : GoodM a B (pure x) := by
  intro s
  refine ⟨[], ?_, capsOK_nil a, by simp [auditSum]⟩
  rw [run_pure]
  simp

theorem goodM_throw {α : Type} (a : Args) (B : Nat) (e : PipeErr) :
    GoodM a B (throw e : PipeM α) := by
  intro s
  refine ⟨[], ?_, capsOK_nil a, by simp [auditSum]⟩
  rw [run_throw]
  simp

theorem goodM_emit {a : Args} {B : Nat} (e : PEv) (hc : capsOK a [e])
    (hB : auditSum [e] ≤ B) : GoodM a B (emit e) := by
  intro s
  refine ⟨[e], ?_, hc, hB⟩
  rw [run_emit]

theorem goodM_checkCancel (a : Args) (B : Nat) (env : Env) : GoodM a B (checkCancel env) := by
  intro s
  refine ⟨[], ?_, capsOK_nil a, by simp [auditSum]⟩
  rw [run_checkCancel]
  split <;> simp

theorem GoodM.seq {α β : Type} {a : Args} {B1 B2 : Nat} {m : PipeM α} {f : α → PipeM β}
    (hm : GoodM a B1 m) (hf : ∀ x, GoodM a B2 (f x)) : GoodM a (B1 + B2) (m >>= f) :=
  GoodM.bind hm hf (le_refl _)

theorem goodM_progressStep (a : Args) (B : Nat) (env : Env) (p : Int) (msg : String) :
    GoodM a B (progressStep env p msg) := by
  show GoodM a B (checkCancel env >>= fun _ => emit (.progressEv p msg))
  refine GoodM.mono _ B ?_ (GoodM.seq (goodM_checkCancel a 0 env) (fun _ =>
    goodM_emit (.progressEv p msg) (by intro site cap h; simp at h) (le_refl _)))
  simp [auditSum]

theorem goodM_liftOpt {α : Type} (a : Args) (B : Nat) (o : Option α) :
    GoodM a B (liftOpt o) := by
  cases o with
  | none => exact goodM_throw a B .pyExc
  | some x => exact goodM_pure a B x

theorem goodM_auditLoop (a : Args) (env : Env) (len : Nat) :
    ∀ (chs : List (Nat × List String)) (acc : List AuditRow) (B : Nat),
      sumBatches chs ≤ B → GoodM a B (auditLoop env len chs acc) := by
  intro chs
  induction chs with
  | nil =>
    intro acc B _
    exact goodM_pure a B acc
  | cons hd rest ih =>
    intro acc B hB
    obtain ⟨idx, b⟩ := hd
    have hB2 : b.length + sumBatches rest ≤ B := by
      simpa [sumBatches] using hB
    show GoodM a B (checkCancel env >>= fun _ => emit (.auditBatchEv b) >>= fun _ =>
      progressStep env (min 88 (70 + pyTrunc ((((idx + b.length : Nat) : Rat) /
        ((max 1 len : Nat) : Rat)) * 15))) "Teknik audit devam ediyor..." >>= fun _ =>
      auditLoop env len rest (acc ++ run_quick_audit env.fetch env.order b))
    refine GoodM.mono _ B ?_ (GoodM.seq (goodM_checkCancel a 0 env) (fun _ =>
      GoodM.seq (goodM_emit (.auditBatchEv b)
          (by intro site cap h; simp at h) (le_refl (auditSum [.auditBatchEv b])))
        (fun _ =>
          GoodM.seq (goodM_progressStep a 0 env _ _) (fun _ =>
            ih _ (sumBatches rest) (le_refl _)))))
    simp [auditSum]
    omega

theorem sumBatches_enumChunks (bs : List (List String)) :
    ∀ idx, sumBatches (enumChunks idx bs) = sumLens bs := by
  induction bs with
  | nil => intro idx; rfl
  | cons b r ih => intro idx; simp [enumChunks, sumBatches, sumLens, ih]

theorem sumLens_chunks40Go (fuel : Nat) :
    ∀ l : List String, sumLens (chunks40Go fuel l) ≤ l.length := by
  induction fuel with
  | zero => intro l; simp [chunks40Go, sumLens]
  | succ n ih =>
    intro l
    cases l with
    | nil => simp [chunks40Go, sumLens]
    | cons x xs =>
      have h := ih ((x :: xs).drop 40)
      simp only [chunks40Go, sumLens]
      have h1 : ((x :: xs).take 40).length = min 40 (x :: xs).length := List.length_take 40 _
      have h2 : ((x :: xs).drop 40).length = (x :: xs).length - 40 := List.length_drop 40 _
      omega

theorem GoodM.monoR {α : Type} {a : Args} {m : PipeM α} {B1 B2 : Nat}
    (hm : GoodM a B1 m) (h : B1 ≤ B2) : GoodM a B2 m :=
  GoodM.mono B1 B2 h hm

theorem GoodM.zseq {α β : Type} {a : Args} {m : PipeM α} {f : α → PipeM β}
    (hm : GoodM a 0 m) (hf : ∀ x, GoodM a 0 (f x)) : GoodM a 0 (m >>= f) :=
  GoodM.bind hm hf (Nat.le_refl 0)

theorem GoodM.seqZ {α β : Type} {a : Args} {B : Nat} {m : PipeM α} {f : α → PipeM β}
    (hm : GoodM a 0 m) (hf : ∀ x, GoodM a B (f x)) : GoodM a B (m >>= f) :=
  GoodM.bind hm hf (Nat.le_of_eq (Nat.zero_add B))

theorem GoodM.seqR {α β : Type} {a : Args} {B : Nat} {m : PipeM α} {f : α → PipeM β}
    (hm : GoodM a B m) (hf : ∀ x, GoodM a 0 (f x)) : GoodM a B (m >>= f) :=
  GoodM.bind hm hf (Nat.le_of_eq (Nat.add_zero B))

theorem GoodM.iteG {α : Type} {a : Args} {B : Nat} {m1 m2 : PipeM α}
    (c : Prop) [Decidable c] (h1 : GoodM a B m1) (h2 : GoodM a B m2) :
    GoodM a B (if c then m1 else m2) := by
  by_cases h : c
  · rw [if_pos h]; exact h1
  · rw [if_neg h]; exact h2

theorem capsOK_discover (a : Args) (site : String) :
    capsOK a [PEv.discoverEv site (max 10 (min a.crawl_limit 2000))] := by
  intro s c h
  simp at h
  exact h.2

theorem capsOK_progress (a : Args) (p : Int) (m : String) :
    capsOK a [PEv.progressEv p m] := by
  intro s c h
  simp at h

theorem capsOK_robots (a : Args) (site : String) :
    capsOK a [PEv.robotsEv site] := by
  intro s c h
  simp at h

set_option maxHeartbeats 2000000 in
theorem goodM_perform (env : Env) (a : Args) :
    GoodM a (Int.toNat (max 1 (min a.audit_limit 500))) (perform_analysis env a) := by
  have hReport : ∀ (summary : Summary) (analysis_mode : String) (run_audit : Bool)
      (matchList : List MatchRow) (gbm gam : MetricMap) (urgent0 : List UrgentRow)
      (redirects_rows : List (String × String))
      (manual_rows : List (String × String × Int × String))
      (audit_results : List AuditRow),
      GoodM a 0 (((do
        let urgent_actions :=
          if analysis_mode = "scan" then build_audit_urgent_actions audit_results else urgent0
        progressStep env 90 "Rapor hazirlaniyor."
        checkCancel env
        let cmp ← liftOpt (build_comparison_rows matchList gbm gam analysis_mode)
        let recovery_panel := if env.recoveryFlag then build_recovery_panel cmp.1 else []
        let critical_issues := (audit_results.filter (fun i => i.severity = "critical")).length
        pure
          { summary := summary, critical_issues := critical_issues,
            matchesTop := matchList.take 100, urgent_actions := urgent_actions,
            audit_results := audit_results.take 200, site_url := a.site_url,
            run_audit := run_audit, analysis_mode := analysis_mode,
            comparison_rows := cmp.1.take 200, unresolved_rows := cmp.2.take 100,
            recovery_panel := recovery_panel, redirects_rows := redirects_rows,
            manual_rows := manual_rows, compare_rows := cmp.1 }) : PipeM Package)) := by
    intro summary analysis_mode run_audit matchList gbm gam urgent0 rr mr ar
    dsimp only
    exact GoodM.zseq (goodM_progressStep a 0 env _ _) (fun _ =>
      GoodM.zseq (goodM_checkCancel a 0 env) (fun _ =>
        GoodM.zseq (goodM_liftOpt a 0 _) (fun cmp => goodM_pure a 0 _)))
  have hAudit : ∀ (summary : Summary) (analysis_mode : String) (run_audit : Bool)
      (matchList : List MatchRow) (gbm gam : MetricMap) (urgent0 : List UrgentRow)
      (redirects_rows : List (String × String))
      (manual_rows : List (String × String × Int × String))
      (new_rows : List UrlRow),
      GoodM a (Int.toNat (max 1 (min a.audit_limit 500))) (((do
        let audit_results ←
          if run_audit then do
            progressStep env 70 "Teknik audit yapiliyor (404, noindex, canonical, robots, sitemap)."
            let cap : Int := max 1 (min a.audit_limit 500)
            let urls := (new_rows.map (·.url)).take cap.toNat
            let results0 ← auditLoop env urls.length (enumChunks 0 (chunks40 urls)) []
            let results1 ←
              if pyStrip a.site_url ≠ "" then do
                checkCancel env
                emit (.robotsEv a.site_url)
                let rb ← liftOpt (check_robots_and_sitemap env.fetch a.site_url)
                pure (results0 ++ rb)
              else pure results0
            pure (annotate_audit_items results1)
          else pure []
        let urgent_actions :=
          if analysis_mode = "scan" then build_audit_urgent_actions audit_results else urgent0
        progressStep env 90 "Rapor hazirlaniyor."
        checkCancel env
        let cmp ← liftOpt (build_comparison_rows matchList gbm gam analysis_mode)
        let recovery_panel := if env.recoveryFlag then build_recovery_panel cmp.1 else []
        let critical_issues := (audit_results.filter (fun i => i.severity = "critical")).length
        pure
          { summary := summary, critical_issues := critical_issues,
            matchesTop := matchList.take 100, urgent_actions := urgent_actions,
            audit_results := audit_results.take 200, site_url := a.site_url,
            run_audit := run_audit, analysis_mode := analysis_mode,
            comparison_rows := cmp.1.take 200, unresolved_rows := cmp.2.take 100,
            recovery_panel := recovery_panel, redirects_rows := redirects_rows,
            manual_rows := manual_rows, compare_rows := cmp.1 }) : PipeM Package)) := by
    intro summary analysis_mode run_audit matchList gbm gam urgent0 rr mr new_rows
    have hsum : sumBatches (enumChunks 0 (chunks40
        ((new_rows.map (fun r => r.url)).take (Int.toNat (max 1 (min a.audit_limit 500)))))) ≤
        Int.toNat (max 1 (min a.audit_limit 500)) := by
      rw [sumBatches_enumChunks]
      have h1 := sumLens_chunks40Go
        ((new_rows.map (fun r => r.url)).take (Int.toNat (max 1 (min a.audit_limit 500)))).length
        ((new_rows.map (fun r => r.url)).take (Int.toNat (max 1 (min a.audit_limit 500))))
      have h2 : ((new_rows.map (fun r => r.url)).take
          (Int.toNat (max 1 (min a.audit_limit 500)))).length =
          min (Int.toNat (max 1 (min a.audit_limit 500))) (new_rows.map (fun r => r.url)).length :=
        List.length_take _ _
      rw [chunks40]
      omega
    dsimp only
    refine GoodM.iteG _ ?_ ?_
    · refine GoodM.seqZ (goodM_progressStep a 0 env _ _) (fun _ => ?_)
      refine GoodM.monoR (GoodM.seqR (goodM_auditLoop a env _ _ [] _ (le_refl _))
        (fun results0 => ?_)) hsum
      refine GoodM.iteG _ ?_ ?_
      · exact GoodM.zseq (goodM_checkCancel a 0 env) (fun _ =>
          GoodM.zseq (goodM_emit (.robotsEv a.site_url) (capsOK_robots a _) (Nat.le_refl 0)) (fun _ =>
            GoodM.zseq (goodM_liftOpt a 0 _) (fun rb =>
              GoodM.zseq (goodM_pure a 0 _) (fun results1 =>
                GoodM.zseq (goodM_pure a 0 _) (fun y =>
                  hReport summary analysis_mode run_audit matchList gbm gam urgent0 rr mr y)))))
      · exact GoodM.zseq (goodM_pure a 0 _) (fun results1 =>
          GoodM.zseq (goodM_pure a 0 _) (fun y =>
            hReport summary analysis_mode run_audit matchList gbm gam urgent0 rr mr y))
    · exact GoodM.seqZ (goodM_pure a 0 _) (fun y =>
        GoodM.monoR (hReport summary analysis_mode run_audit matchList gbm gam urgent0 rr mr y)
          (Nat.zero_le _))
  have hMatch : ∀ (analysis_mode : String) (run_audit : Bool) (new_rows : List UrlRow)
      (gb ga : List GscRow × List String) (matchList : List MatchRow),
      GoodM a (Int.toNat (max 1 (min a.audit_limit 500))) (((do
        let summary := summarize_matches matchList 70
        let gsc_before_map ← liftOpt (build_gsc_metric_map gb.1)
        let gsc_after_map ← liftOpt (build_gsc_metric_map ga.1)
        let urgent0 ←
          if analysis_mode = "migration" then liftOpt (rank_urgent_actions matchList gsc_before_map)
          else pure []
        let redirects_rows :=
          if analysis_mode = "migration" then build_redirects_rows matchList 70 else []
        let manual_rows :=
          if analysis_mode = "migration" then build_manual_review_rows matchList 70
          else []
        let audit_results ←
          if run_audit then do
            progressStep env 70 "Teknik audit yapiliyor (404, noindex, canonical, robots, sitemap)."
            let cap : Int := max 1 (min a.audit_limit 500)
            let urls := (new_rows.map (·.url)).take cap.toNat
            let results0 ← auditLoop env urls.length (enumChunks 0 (chunks40 urls)) []
            let results1 ←
              if pyStrip a.site_url ≠ "" then do
                checkCancel env
                emit (.robotsEv a.site_url)
                let rb ← liftOpt (check_robots_and_sitemap env.fetch a.site_url)
                pure (results0 ++ rb)
              else pure results0
            pure (annotate_audit_items results1)
          else pure []
        let urgent_actions :=
          if analysis_mode = "scan" then build_audit_urgent_actions audit_results else urgent0
        progressStep env 90 "Rapor hazirlaniyor."
        checkCancel env
        let cmp ← liftOpt (build_comparison_rows matchList gsc_before_map gsc_after_map analysis_mode)
        let recovery_panel := if env.recoveryFlag then build_recovery_panel cmp.1 else []
        let critical_issues := (audit_results.filter (fun i => i.severity = "critical")).length
        pure
          { summary := summary, critical_issues := critical_issues,
            matchesTop := matchList.take 100, urgent_actions := urgent_actions,
            audit_results := audit_results.take 200, site_url := a.site_url,
            run_audit := run_audit, analysis_mode := analysis_mode,
            comparison_rows := cmp.1.take 200, unresolved_rows := cmp.2.take 100,
            recovery_panel := recovery_panel, redirects_rows := redirects_rows,
            manual_rows := manual_rows, compare_rows := cmp.1 }) : PipeM Package)) := by
    intro analysis_mode run_audit new_rows gb ga matchList
    dsimp only
    refine GoodM.seqZ (goodM_liftOpt a 0 _) (fun gbm => ?_)
    refine GoodM.seqZ (goodM_liftOpt a 0 _) (fun gam => ?_)
    refine GoodM.iteG _ ?_ ?_
    · exact GoodM.seqZ (goodM_liftOpt a 0 _) (fun urgent0 =>
        hAudit _ analysis_mode run_audit matchList gbm gam urgent0 _ _ new_rows)
    · exact GoodM.seqZ (goodM_pure a 0 _) (fun urgent0 =>
        hAudit _ analysis_mode run_audit matchList gbm gam urgent0 _ _ new_rows)
  have hStage2 : ∀ (analysis_mode : String) (old_rows new_rows : List UrlRow) (run_audit : Bool)
      (gb ga : List GscRow × List String),
      GoodM a (Int.toNat (max 1 (min a.audit_limit 500))) (((do
        progressStep env 45 "URL eslestirme ve onceliklendirme yapiliyor."
        checkCancel env
        let matchList ←
          if analysis_mode = "migration" then liftOpt (match_urls old_rows new_rows)
          else
            liftOpt (optMapM (fun item => do
              let t ←
                match item.type? with
                | some t => if t = "" then infer_type item.url else some t
                | none => infer_type item.url
              result_row item.url item.url 100 "site_scan" t) old_rows)
        let summary := summarize_matches matchList 70
        let gsc_before_map ← liftOpt (build_gsc_metric_map gb.1)
        let gsc_after_map ← liftOpt (build_gsc_metric_map ga.1)
        let urgent0 ←
          if analysis_mode = "migration" then liftOpt (rank_urgent_actions matchList gsc_before_map)
          else pure []
        let redirects_rows :=
          if analysis_mode = "migration" then build_redirects_rows matchList 70 else []
        let manual_rows :=
          if analysis_mode = "migration" then build_manual_review_rows matchList 70
          else []
        let audit_results ←
          if run_audit then do
            progressStep env 70 "Teknik audit yapiliyor (404, noindex, canonical, robots, sitemap)."
            let cap : Int := max 1 (min a.audit_limit 500)
            let urls := (new_rows.map (·.url)).take cap.toNat
            let results0 ← auditLoop env urls.length (enumChunks 0 (chunks40 urls)) []
            let results1 ←
              if pyStrip a.site_url ≠ "" then do
                checkCancel env
                emit (.robotsEv a.site_url)
                let rb ← liftOpt (check_robots_and_sitemap env.fetch a.site_url)
                pure (results0 ++ rb)
              else pure results0
            pure (annotate_audit_items results1)
          else pure []
        let urgent_actions :=
          if analysis_mode = "scan" then build_audit_urgent_actions audit_results else urgent0
        progressStep env 90 "Rapor hazirlaniyor."
        checkCancel env
        let cmp ← liftOpt (build_comparison_rows matchList gsc_before_map gsc_after_map analysis_mode)
        let recovery_panel := if env.recoveryFlag then build_recovery_panel cmp.1 else []
        let critical_issues := (audit_results.filter (fun i => i.severity = "critical")).length
        pure
          { summary := summary, critical_issues := critical_issues,
            matchesTop := matchList.take 100, urgent_actions := urgent_actions,
            audit_results := audit_results.take 200, site_url := a.site_url,
            run_audit := run_audit, analysis_mode := analysis_mode,
            comparison_rows := cmp.1.take 200, unresolved_rows := cmp.2.take 100,
            recovery_panel := recovery_panel, redirects_rows := redirects_rows,
            manual_rows := manual_rows, compare_rows := cmp.1 }) : PipeM Package)) := by
    intro analysis_mode old_rows new_rows run_audit gb ga
    dsimp only
    refine GoodM.seqZ (goodM_progressStep a 0 env _ _) (fun _ => ?_)
    refine GoodM.seqZ (goodM_checkCancel a 0 env) (fun _ => ?_)
    refine GoodM.iteG _ ?_ ?_
    · exact GoodM.seqZ (goodM_liftOpt a 0 _) (fun matchList =>
        hMatch analysis_mode run_audit new_rows gb ga matchList)
    · exact GoodM.seqZ (goodM_liftOpt a 0 _) (fun matchList =>
        hMatch analysis_mode run_audit new_rows gb ga matchList)
  have hStage1 : ∀ (analysis_mode : String) (old_rows new_rows : List UrlRow)
      (errors0 : List String) (run_audit : Bool),
      GoodM a (Int.toNat (max 1 (min a.audit_limit 500))) ((
        (let gsc_before := if a.gsc_before_raw ≠ [] then env.parseGsc a.gsc_before_raw else ([], [])
         let gsc_after := if a.gsc_after_raw ≠ [] then env.parseGsc a.gsc_after_raw else ([], [])
         let errors := errors0 ++ gsc_before.2 ++ gsc_after.2 ++
           (if old_rows = [] then ["Eski URL listesi bos veya gecersiz."] else []) ++
           (if new_rows = [] then ["Yeni URL listesi bos veya gecersiz."] else [])
         do
         if errors ≠ [] then throw (.appError "Analiz baslatilamadi." errors) else pure ()
         progressStep env 45 "URL eslestirme ve onceliklendirme yapiliyor."
         checkCancel env
         let matchList ←
           if analysis_mode = "migration" then liftOpt (match_urls old_rows new_rows)
           else
             liftOpt (optMapM (fun item => do
               let t ←
                 match item.type? with
                 | some t => if t = "" then infer_type item.url else some t
                 | none => infer_type item.url
               result_row item.url item.url 100 "site_scan" t) old_rows)
         let summary := summarize_matches matchList 70
         let gsc_before_map ← liftOpt (build_gsc_metric_map gsc_before.1)
         let gsc_after_map ← liftOpt (build_gsc_metric_map gsc_after.1)
         let urgent0 ←
           if analysis_mode = "migration" then liftOpt (rank_urgent_actions matchList gsc_before_map)
           else pure []
         let redirects_rows :=
           if analysis_mode = "migration" then build_redirects_rows matchList 70 else []
         let manual_rows :=
           if analysis_mode = "migration" then build_manual_review_rows matchList 70
           else []
         let audit_results ←
           if run_audit then do
             progressStep env 70 "Teknik audit yapiliyor (404, noindex, canonical, robots, sitemap)."
             let cap : Int := max 1 (min a.audit_limit 500)
             let urls := (new_rows.map (·.url)).take cap.toNat
             let results0 ← auditLoop env urls.length (enumChunks 0 (chunks40 urls)) []
             let results1 ←
               if pyStrip a.site_url ≠ "" then do
                 checkCancel env
                 emit (.robotsEv a.site_url)
                 let rb ← liftOpt (check_robots_and_sitemap env.fetch a.site_url)
                 pure (results0 ++ rb)
               else pure results0
             pure (annotate_audit_items results1)
           else pure []
         let urgent_actions :=
           if analysis_mode = "scan" then build_audit_urgent_actions audit_results else urgent0
         progressStep env 90 "Rapor hazirlaniyor."
         checkCancel env
         let cmp ← liftOpt (build_comparison_rows matchList gsc_before_map gsc_after_map analysis_mode)
         let recovery_panel := if env.recoveryFlag then build_recovery_panel cmp.1 else []
         let critical_issues := (audit_results.filter (fun i => i.severity = "critical")).length
         pure
           { summary := summary, critical_issues := critical_issues,
             matchesTop := matchList.take 100, urgent_actions := urgent_actions,
             audit_results := audit_results.take 200, site_url := a.site_url,
             run_audit := run_audit, analysis_mode := analysis_mode,
             comparison_rows := cmp.1.take 200, unresolved_rows := cmp.2.take 100,
             recovery_panel := recovery_panel, redirects_rows := redirects_rows,
             manual_rows := manual_rows, compare_rows := cmp.1 }) : PipeM Package)) := by
    intro analysis_mode old_rows new_rows errors0 run_audit
    dsimp only
    refine GoodM.iteG _ ?_ ?_
    · exact GoodM.seqZ (goodM_throw a 0 _) (fun y =>
        hStage2 analysis_mode old_rows new_rows run_audit _ _)
    · exact GoodM.seqZ (goodM_pure a 0 ()) (fun y =>
        hStage2 analysis_mode old_rows new_rows run_audit _ _)
  unfold perform_analysis
  dsimp only
  refine GoodM.seqZ (goodM_progressStep a 0 env _ _) (fun _ => ?_)
  refine GoodM.iteG _ ?_ ?_
  · refine GoodM.seqZ (goodM_pure a 0 _) (fun y => ?_)
    dsimp only
    exact hStage1 _ _ _ _ _
  · refine GoodM.iteG _ ?_ ?_
    · refine GoodM.seqZ (goodM_progressStep a 0 env _ _) (fun _ => ?_)
      refine GoodM.seqZ (goodM_checkCancel a 0 env) (fun _ => ?_)
      refine GoodM.seqZ (goodM_emit (.discoverEv a.site_url (max 10 (min a.crawl_limit 2000)))
        (capsOK_discover a _) (Nat.le_refl 0)) (fun _ => ?_)
      refine GoodM.seqZ (goodM_liftOpt a 0 _) (fun discovered => ?_)
      dsimp only
      refine GoodM.seqZ (goodM_liftOpt a 0 _) (fun nr2 => ?_)
      refine GoodM.seqZ (goodM_pure a 0 _) (fun y => ?_)
      dsimp only
      exact hStage1 _ _ _ _ _
    · refine GoodM.seqZ (goodM_pure a 0 _) (fun y => ?_)
      dsimp only
      exact hStage1 _ _ _ _ _

/-- C10: for every environment and request the pipeline silently clamps the
caller-supplied limits: every discovery event in the trace carries the crawl
cap `min (max crawl_limit 10) 2000`, and the total number of URLs handed to
the auditor over the whole run is at most `min (max audit_limit 1) 500`. -/
theorem c10_limit_clamps (env : Env) (a : Args) :
    (∀ site cap, PEv.discoverEv site cap ∈ performTrace env a →
      cap = min (max a.crawl_limit 10) 2000) ∧
    ((auditSum (performTrace env a) : Int) ≤ min (max a.audit_limit 1) 500) := by
  obtain ⟨l, h1, h2, h3⟩ := goodM_perform env a (0, [])
  have htr : performTrace env a = l := by
    show ((perform_analysis env a).run.run (0, [])).2.2 = l
    rw [h1]
    rfl
  constructor
  · intro site cap hm
    rw [htr] at hm
    have hc := h2 site cap hm
    omega
  · rw [htr]
    have h4 : (auditSum l : Int) ≤ ((Int.toNat (max 1 (min a.audit_limit 500))) : Int) := by
      exact_mod_cast h3
    omega

theorem c10_limit_clamps_witness :
    ((50 : Int) = min (max argsC10.crawl_limit 10) 2000) ∧
    ((auditSum (performTrace envC10 argsC10) : Int) ≤ min (max argsC10.audit_limit 1) 500) :=
  ⟨(c10_limit_clamps envC10 argsC10).1 "http://e.com" 50 (by decide),
   (c10_limit_clamps envC10 argsC10).2⟩

/-! ## C1: low match score forces manual status -/

theorem pyInsert_perm {α : Type} (prec : α → α → Bool) (x : α) (l : List α) :
    (pyInsert prec x l).Perm (x :: l) := by
  induction l with
  | nil => exact List.Perm.refl _
  | cons y ys ih =>
    unfold pyInsert
    split
    · exact ((ih.cons y).trans (List.Perm.swap x y ys))
    · exact List.Perm.refl _

theorem pySortBy_perm {α : Type} (prec : α → α → Bool) (l : List α) :
    (pySortBy prec l).Perm l := by
  induction l with
  | nil => exact List.Perm.refl _
  | cons x xs ih =>
    unfold pySortBy
    exact (pyInsert_perm prec x (pySortBy prec xs)).trans (ih.cons x)

theorem buildFoldSub (bmap amap : MetricMap) (mode : String) :
    ∀ (l : List MatchRow) (acc0 acc : List CompRow × List UnresRow),
      l.foldlM (fun (acc : List CompRow × List UnresRow) item => do
          let r ← mkCompRowM bmap amap mode item
          let row := r.1
          pure (acc.1 ++ [row],
            if row.status = "duzeltildi_ama_toparlanmadi" then
              acc.2 ++ [⟨row, pyRound2 (r.2.1.clicks - r.2.2.clicks)⟩]
            else acc.2)) acc0 = some acc →
      ∀ c, c ∈ acc0.1 → c ∈ acc.1 := by
  intro l
  induction l with
  | nil =>
    intro acc0 acc h c hc
    rw [List.foldlM_nil] at h
    exact (Option.some.inj h) ▸ hc
  | cons hd tl ih =>
    intro acc0 acc h c hc
    rw [List.foldlM_cons] at h
    obtain ⟨acc1, hstep, hrest⟩ := Option.bind_eq_some.mp h
    obtain ⟨r, hr, hpure⟩ := Option.bind_eq_some.mp hstep
    have hacc1 := Option.some.inj hpure
    refine ih acc1 acc hrest c ?_
    rw [← hacc1]
    exact List.mem_append_left _ hc

theorem buildFoldMem (bmap amap : MetricMap) (mode : String) :
    ∀ (l : List MatchRow) (acc0 acc : List CompRow × List UnresRow),
      l.foldlM (fun (acc : List CompRow × List UnresRow) item => do
          let r ← mkCompRowM bmap amap mode item
          let row := r.1
          pure (acc.1 ++ [row],
            if row.status = "duzeltildi_ama_toparlanmadi" then
              acc.2 ++ [⟨row, pyRound2 (r.2.1.clicks - r.2.2.clicks)⟩]
            else acc.2)) acc0 = some acc →
      ∀ item, item ∈ l → ∀ trip, mkCompRowM bmap amap mode item = some trip →
        trip.1 ∈ acc.1 := by
  intro l
  induction l with
  | nil =>
    intro acc0 acc h item hmem
    exact absurd hmem (List.not_mem_nil item)
  | cons hd tl ih =>
    intro acc0 acc h item hmem trip htrip
    rw [List.foldlM_cons] at h
    obtain ⟨acc1, hstep, hrest⟩ := Option.bind_eq_some.mp h
    obtain ⟨r, hr, hpure⟩ := Option.bind_eq_some.mp hstep
    have hacc1 := Option.some.inj hpure
    rcases List.mem_cons.mp hmem with heq | htl
    · have hr2 : r = trip := by
        rw [heq] at htrip
        exact Option.some.inj (hr.symm.trans htrip)
      refine buildFoldSub bmap amap mode tl acc1 acc hrest trip.1 ?_
      rw [← hacc1, ← hr2]
      exact List.mem_append_right _ (List.mem_singleton_self _)
    · exact ih acc1 acc hrest item htl trip htrip

/-- C1: in migration mode a match whose score is below 70 always compares to
status `manual_gerekli`, whatever the metric values are; and with non-empty
before/after snapshots the comparison row the engine builds for such a match
carries that status and appears in the report. -/
theorem c1_low_score_manual :
    (∀ (before after : Metrics) (item : MatchRow), item.score < 70 →
      compare_status before after item "migration" = "manual_gerekli") ∧
    (∀ (matchRows : List MatchRow) (bmap amap : MetricMap) (item : MatchRow)
      (out : List CompRow × List UnresRow) (row : CompRow),
      bmap ≠ [] → amap ≠ [] → item ∈ matchRows → item.score < 70 →
      build_comparison_rows matchRows bmap amap "migration" = some out →
      mkCompRow bmap amap "migration" item = some row →
      row.status = "manual_gerekli" ∧ row ∈ out.1) := by
  constructor
  · intro before after item h
    unfold compare_status
    rw [if_pos ⟨rfl, h⟩]
  · intro matchRows bmap amap item out row hb ha hmem hscore hbuild hrow
    obtain ⟨trip, htrip, hr1⟩ := Option.map_eq_some'.mp hrow
    have hstatus : row.status = "manual_gerekli" := by
      obtain ⟨before, hbef, hrest⟩ := Option.bind_eq_some.mp htrip
      obtain ⟨after, haft, hpure⟩ := Option.bind_eq_some.mp hrest
      have htripeq := Option.some.inj hpure
      rw [← hr1, ← htripeq]
      show compare_status before after item "migration" = "manual_gerekli"
      unfold compare_status
      rw [if_pos ⟨rfl, hscore⟩]
    refine ⟨hstatus, ?_⟩
    unfold build_comparison_rows at hbuild
    rw [if_neg (by push_neg; exact ⟨hb, ha⟩)] at hbuild
    obtain ⟨acc, hacc, hout⟩ := Option.bind_eq_some.mp hbuild
    have houteq := Option.some.inj hout
    have hmemacc : trip.1 ∈ acc.1 :=
      buildFoldMem bmap amap "migration" matchRows ([], []) acc hacc item hmem trip htrip
    rw [← houteq]
    show row ∈ pySortBy (fun a b : CompRow => |b.click_delta| < |a.click_delta|) acc.1
    exact (pySortBy_perm _ acc.1).mem_iff.mpr (hr1 ▸ hmemacc)

theorem c1_low_score_manual_witness :
    compare_status ⟨1, 2, 3⟩ ⟨5, 6, 7⟩
      ⟨"https://a.com/x", "https://a.com/y", 50, "slug_similarity", "page", "/x", "/y"⟩
      "migration" = "manual_gerekli" ∧
    ((⟨"https://a.com/x", "https://a.com/y", 1, 5, 4, 3, 7, -4, "manual_gerekli",
        "slug_similarity"⟩ : CompRow).status = "manual_gerekli" ∧
      (⟨"https://a.com/x", "https://a.com/y", 1, 5, 4, 3, 7, -4, "manual_gerekli",
        "slug_similarity"⟩ : CompRow) ∈
        (([⟨"https://a.com/x", "https://a.com/y", 1, 5, 4, 3, 7, -4, "manual_gerekli",
            "slug_similarity"⟩], []) : List CompRow × List UnresRow).1) :=
  ⟨c1_low_score_manual.1 _ _ _ (by decide),
   c1_low_score_manual.2
     [⟨"https://a.com/x", "https://a.com/y", 50, "slug_similarity", "page", "/x", "/y"⟩]
     [("https://a.com/x", ⟨1, 2, 3⟩)] [("https://a.com/y", ⟨5, 6, 7⟩)]
     ⟨"https://a.com/x", "https://a.com/y", 50, "slug_similarity", "page", "/x", "/y"⟩
     ([⟨"https://a.com/x", "https://a.com/y", 1, 5, 4, 3, 7, -4, "manual_gerekli",
        "slug_similarity"⟩], [])
     ⟨"https://a.com/x", "https://a.com/y", 1, 5, 4, 3, 7, -4, "manual_gerekli",
      "slug_similarity"⟩
     (by decide) (by decide) (by decide) (by decide) (by decide) (by decide)⟩

/-! ## C6: auditor output shape, order and the 404 rule -/

theorem pyStrLtL_irrefl : ∀ as : List Char, pyStrLtL as as = false := by
  intro as
  induction as with
  | nil => rfl
  | cons c cs ih =>
    unfold pyStrLtL
    rw [if_neg (lt_irrefl c), if_neg (lt_irrefl c)]
    exact ih

theorem pyStrLtL_asymm : ∀ as bs : List Char, pyStrLtL as bs = true → pyStrLtL bs as = false := by
  intro as
  induction as with
  | nil =>
    intro bs h
    cases bs with
    | nil => rfl
    | cons d ds => rfl
  | cons c cs ih =>
    intro bs h
    cases bs with
    | nil => exact absurd h (by simp [pyStrLtL])
    | cons d ds =>
      unfold pyStrLtL at h ⊢
      rcases lt_trichotomy c d with h1 | h1 | h1
      · rw [if_neg (lt_asymm h1), if_pos h1]
      · subst h1
        rw [if_neg (lt_irrefl c), if_neg (lt_irrefl c)] at h ⊢
        exact ih ds h
      · rw [if_neg (lt_asymm h1), if_pos h1] at h
        exact absurd h (by simp)

theorem pyStrLtL_conn : ∀ as bs : List Char,
    pyStrLtL as bs = false → pyStrLtL bs as = false → as = bs := by
  intro as
  induction as with
  | nil =>
    intro bs h1 _
    cases bs with
    | nil => rfl
    | cons d ds => exact absurd h1 (by simp [pyStrLtL])
  | cons c cs ih =>
    intro bs h1 h2
    cases bs with
    | nil => exact absurd h2 (by simp [pyStrLtL])
    | cons d ds =>
      unfold pyStrLtL at h1 h2
      rcases lt_trichotomy c d with h | h | h
      · rw [if_pos h] at h1
        exact absurd h1 (by simp)
      · subst h
        rw [if_neg (lt_irrefl c), if_neg (lt_irrefl c)] at h1 h2
        rw [ih ds h1 h2]
      · rw [if_pos h] at h2
        exact absurd h2 (by simp)

theorem pyStrLtL_trans : ∀ as bs cs : List Char,
    pyStrLtL as bs = true → pyStrLtL bs cs = true → pyStrLtL as cs = true := by
  intro as
  induction as with
  | nil =>
    intro bs cs h1 h2
    cases bs with
    | nil => exact h2
    | cons d ds =>
      cases cs with
      | nil => exact absurd h2 (by simp [pyStrLtL])
      | cons e es => rfl
  | cons c cs' ih =>
    intro bs cs h1 h2
    cases bs with
    | nil => exact absurd h1 (by simp [pyStrLtL])
    | cons d ds =>
      cases cs with
      | nil => exact absurd h2 (by simp [pyStrLtL])
      | cons e es =>
        unfold pyStrLtL at h1 h2 ⊢
        rcases lt_trichotomy c d with hcd | hcd | hcd
        · rcases lt_trichotomy d e with hde | hde | hde
          · rw [if_pos (lt_trans hcd hde)]
          · subst hde
            rw [if_pos hcd]
          · rw [if_neg (lt_asymm hde), if_pos hde] at h2
            exact absurd h2 (by simp)
        · subst hcd
          rw [if_neg (lt_irrefl c), if_neg (lt_irrefl c)] at h1
          rcases lt_trichotomy c e with hce | hce | hce
          · rw [if_pos hce]
          · subst hce
            rw [if_neg (lt_irrefl c), if_neg (lt_irrefl c)] at h2 ⊢
            exact ih ds es h1 h2
          · rw [if_neg (lt_asymm hce), if_pos hce] at h2
            exact absurd h2 (by simp)
        · rw [if_neg (lt_asymm hcd), if_pos hcd] at h1
          exact absurd h1 (by simp)

theorem pyStrLtL_ntrans {a b c : List Char} (h1 : pyStrLtL b a = false)
    (h2 : pyStrLtL c b = false) : pyStrLtL c a = false := by
  by_cases hca : pyStrLtL c a = true
  · exfalso
    by_cases hab : pyStrLtL a b = true
    · by_cases hbc : pyStrLtL b c = true
      · have := pyStrLtL_asymm a c (pyStrLtL_trans a b c hab hbc)
        rw [this] at hca
        exact Bool.false_ne_true hca
      · have hbc2 := pyStrLtL_conn b c (by revert hbc; cases pyStrLtL b c <;> simp) h2
        subst hbc2
        have := pyStrLtL_asymm a b hab
        rw [this] at hca
        exact Bool.false_ne_true hca
    · have hab2 := pyStrLtL_conn a b (by revert hab; cases pyStrLtL a b <;> simp) h1
      subst hab2
      rw [h2] at hca
      exact Bool.false_ne_true hca
  · revert hca
    cases pyStrLtL c a <;> simp

theorem pyInsert_pairwise {α : Type} {prec : α → α → Bool}
    (hasym : ∀ a b, prec a b = true → prec b a = false)
    (htr : ∀ a b c, prec b a = false → prec c b = false → prec c a = false) :
    ∀ (x : α) (l : List α), l.Pairwise (fun u v => prec v u = false) →
      (pyInsert prec x l).Pairwise (fun u v => prec v u = false) := by
  intro x l
  induction l with
  | nil =>
    intro _
    simp [pyInsert]
  | cons y ys ih =>
    intro hp
    obtain ⟨hy, hys⟩ := List.pairwise_cons.mp hp
    unfold pyInsert
    split
    · rename_i hyx
      refine List.pairwise_cons.mpr ⟨?_, ih hys⟩
      intro z hz
      rcases List.mem_cons.mp ((pyInsert_perm prec x ys).mem_iff.mp hz) with rfl | hzys
      · exact hasym y z hyx
      · exact hy z hzys
    · rename_i hyx
      have hyx2 : prec y x = false := by
        revert hyx
        cases prec y x <;> simp
      refine List.pairwise_cons.mpr ⟨?_, hp⟩
      intro z hz
      rcases List.mem_cons.mp hz with rfl | hzys
      · exact hyx2
      · exact htr x y z hyx2 (hy z hzys)

theorem pySortBy_pairwise {α : Type} {prec : α → α → Bool}
    (hasym : ∀ a b, prec a b = true → prec b a = false)
    (htr : ∀ a b c, prec b a = false → prec c b = false → prec c a = false) :
    ∀ l : List α, (pySortBy prec l).Pairwise (fun u v => prec v u = false) := by
  intro l
  induction l with
  | nil => exact List.Pairwise.nil
  | cons x xs ih => exact pyInsert_pairwise hasym htr x (pySortBy prec xs) ih

theorem sortedPermEq {α : Type} {R : α → α → Prop} :
    ∀ l1 l2 : List α, l1.Perm l2 → l1.Pairwise R → l2.Pairwise R →
      (∀ a b, a ∈ l1 → b ∈ l1 → R a b → R b a → a = b) → l1 = l2 := by
  intro l1
  induction l1 with
  | nil =>
    intro l2 hp _ _ _
    exact hp.nil_eq
  | cons a t1 ih =>
    intro l2 hp hp1 hp2 hanti
    cases l2 with
    | nil => exact absurd hp.symm.nil_eq (by simp)
    | cons b t2 =>
      have hab : a = b := by
        by_cases h : a = b
        · exact h
        · exfalso
          have ha2 : a ∈ t2 := by
            rcases List.mem_cons.mp (hp.mem_iff.mp (List.mem_cons_self a t1)) with h1 | h1
            · exact absurd h1 h
            · exact h1
          have hb1 : b ∈ t1 := by
            rcases List.mem_cons.mp (hp.mem_iff.mpr (List.mem_cons_self b t2)) with h1 | h1
            · exact absurd h1.symm h
            · exact h1
          have hRab : R a b := (List.pairwise_cons.mp hp1).1 b hb1
          have hRba : R b a := (List.pairwise_cons.mp hp2).1 a ha2
          exact h (hanti a b (List.mem_cons_self a t1) (List.mem_cons_of_mem a hb1) hRab hRba)
      subst hab
      have hperm : t1.Perm t2 := hp.cons_inv
      have htail := ih t2 hperm (List.pairwise_cons.mp hp1).2 (List.pairwise_cons.mp hp2).2
        (fun x y hx hy => hanti x y (List.mem_cons_of_mem a hx) (List.mem_cons_of_mem a hy))
      rw [htail]

theorem pyDedupeGo_spec :
    ∀ (l seen : List String),
      (∀ x ∈ pyDedupe.go seen l, x ∉ seen) ∧ (pyDedupe.go seen l).Nodup := by
  intro l
  induction l with
  | nil =>
    intro seen
    exact ⟨fun x hx => absurd hx (List.not_mem_nil x), List.nodup_nil⟩
  | cons x xs ih =>
    intro seen
    unfold pyDedupe.go
    by_cases hx : x ∈ seen
    · rw [if_pos hx]
      exact ih seen
    · rw [if_neg hx]
      have h1 := ih (x :: seen)
      refine ⟨?_, ?_⟩
      · intro y hy
        rcases List.mem_cons.mp hy with rfl | hy2
        · exact hx
        · exact fun hc => h1.1 y hy2 (List.mem_cons_of_mem x hc)
      · refine List.nodup_cons.mpr ⟨?_, h1.2⟩
        intro hc
        exact h1.1 x hc (List.mem_cons_self x seen)

theorem pyDedupe_nodup (l : List String) : (pyDedupe l).Nodup :=
  (pyDedupeGo_spec l []).2

theorem audit_single_url_url (fetch : String → FetchRes) (u : String) :
    (audit_single_url fetch u).url = u := by
  unfold audit_single_url
  split
  · rfl
  · dsimp only
    split <;> rfl

theorem auditPrec_asymm : ∀ x y : AuditRow,
    (severity_rank x.severity < severity_rank y.severity ||
      (severity_rank x.severity = severity_rank y.severity && pyStrLt x.url y.url)) = true →
    (severity_rank y.severity < severity_rank x.severity ||
      (severity_rank y.severity = severity_rank x.severity && pyStrLt y.url x.url)) = false := by
  intro x y h
  rw [Bool.eq_false_iff]
  intro hcon
  simp only [Bool.or_eq_true, Bool.and_eq_true, decide_eq_true_eq] at h hcon
  rcases h with h | ⟨he, hu⟩ <;> rcases hcon with hc | ⟨hce, hcu⟩
  · omega
  · omega
  · omega
  · have h2 : pyStrLt y.url x.url = false := pyStrLtL_asymm x.url.data y.url.data hu
    rw [h2] at hcu
    exact Bool.false_ne_true hcu

theorem auditPrec_ntrans : ∀ x y z : AuditRow,
    (severity_rank y.severity < severity_rank x.severity ||
      (severity_rank y.severity = severity_rank x.severity && pyStrLt y.url x.url)) = false →
    (severity_rank z.severity < severity_rank y.severity ||
      (severity_rank z.severity = severity_rank y.severity && pyStrLt z.url y.url)) = false →
    (severity_rank z.severity < severity_rank x.severity ||
      (severity_rank z.severity = severity_rank x.severity && pyStrLt z.url x.url)) = false := by
  intro x y z h1 h2
  rw [Bool.eq_false_iff] at h1 h2
  rw [Bool.eq_false_iff]
  intro hcon
  simp only [ne_eq, Bool.or_eq_true, Bool.and_eq_true, decide_eq_true_eq, not_or,
    not_and] at h1 h2
  simp only [Bool.or_eq_true, Bool.and_eq_true, decide_eq_true_eq] at hcon
  rcases hcon with hc | ⟨hce, hcu⟩
  · omega
  · have hyx : severity_rank y.severity = severity_rank x.severity := by omega
    have hzy : severity_rank z.severity = severity_rank y.severity := by omega
    have hu1 : pyStrLtL y.url.data x.url.data = false := by
      have h3 := h1.2 hyx
      rw [Bool.not_eq_true] at h3
      exact h3
    have hu2 : pyStrLtL z.url.data y.url.data = false := by
      have h3 := h2.2 hzy
      rw [Bool.not_eq_true] at h3
      exact h3
    have h5 : pyStrLt z.url x.url = false := pyStrLtL_ntrans hu1 hu2
    rw [h5] at hcu
    exact Bool.false_ne_true hcu

theorem strOfDataEq {a b : String} (h : a.data = b.data) : a = b := by
  cases a
  cases b
  exact congrArg String.mk h

theorem auditPrec_false_le : ∀ x y : AuditRow,
    (severity_rank y.severity < severity_rank x.severity ||
      (severity_rank y.severity = severity_rank x.severity && pyStrLt y.url x.url)) = false →
    auditLe x y := by
  intro x y h
  rw [Bool.eq_false_iff] at h
  simp only [ne_eq, Bool.or_eq_true, Bool.and_eq_true, decide_eq_true_eq, not_or,
    not_and] at h
  obtain ⟨h1, h2⟩ := h
  unfold auditLe
  by_cases he : severity_rank x.severity = severity_rank y.severity
  · right
    refine ⟨he, ?_⟩
    have h3 : pyStrLtL y.url.data x.url.data = false := by
      have h4 := h2 he.symm
      rw [Bool.not_eq_true] at h4
      exact h4
    by_cases h4 : pyStrLt x.url y.url = true
    · exact Or.inl h4
    · right
      have h4b : pyStrLtL x.url.data y.url.data = false := by
        rw [Bool.not_eq_true] at h4
        exact h4
      exact strOfDataEq (pyStrLtL_conn x.url.data y.url.data h4b h3)
  · left
    omega

/-- C6, amended: the audit of a URL list returns one entry per unique input
URL (duplicates collapsed), sorted ascending by `(severity_rank, url)` with
critical at rank 0, warning 1, info 2, and two pool-completion orders give
identical output; a 404 response always makes the row critical, and it
carries the `404` issue tag as its first tag whenever building the row does
not itself raise while normalizing the page canonical or the URLs (a
malformed canonical in the body turns the row into a `request_error` row
instead, still critical but without the tag). -/
theorem c6_amended :
    (∀ (fetch : String → FetchRes) (o1 o2 : List String → List String) (urls : List String),
      (o1 (pyDedupe urls)).Perm (pyDedupe urls) →
      (o2 (pyDedupe urls)).Perm (pyDedupe urls) →
      run_quick_audit fetch o1 urls = run_quick_audit fetch o2 urls) ∧
    (∀ (fetch : String → FetchRes) (order : List String → List String) (urls : List String),
      (order (pyDedupe urls)).Perm (pyDedupe urls) →
      (run_quick_audit fetch order urls).length = (pyDedupe urls).length ∧
      (pyDedupe urls).Nodup ∧
      (run_quick_audit fetch order urls).Pairwise auditLe) ∧
    (severity_rank "critical" = 0 ∧ severity_rank "warning" = 1 ∧ severity_rank "info" = 2) ∧
    (∀ (fetch : String → FetchRes) (url finalUrl body : String),
      fetch url = FetchRes.ok 404 finalUrl body →
      (audit_single_url fetch url).severity = "critical") ∧
    (∀ (fetch : String → FetchRes) (url finalUrl body : String),
      fetch url = FetchRes.ok 404 finalUrl body →
      (extract_canonical body ≠ "" → (normalize_url (extract_canonical body)).isSome) →
      (normalize_url url).isSome → (normalize_url finalUrl).isSome →
      ∃ rest, (audit_single_url fetch url).issues = String.intercalate ", " ("404" :: rest)) := by
  refine ⟨?_, ?_, ⟨by decide, by decide, by decide⟩, ?_, ?_⟩
  · intro fetch o1 o2 urls h1 h2
    unfold run_quick_audit
    dsimp only
    have hperm : (pySortBy (fun a b : AuditRow =>
          severity_rank a.severity < severity_rank b.severity ||
            (severity_rank a.severity = severity_rank b.severity && pyStrLt a.url b.url))
          ((o1 (pyDedupe urls)).map (audit_single_url fetch))).Perm
        (pySortBy (fun a b : AuditRow =>
          severity_rank a.severity < severity_rank b.severity ||
            (severity_rank a.severity = severity_rank b.severity && pyStrLt a.url b.url))
          ((o2 (pyDedupe urls)).map (audit_single_url fetch))) :=
      ((pySortBy_perm _ _).trans
        (((h1.map (audit_single_url fetch)).trans (h2.map (audit_single_url fetch)).symm))).trans
        (pySortBy_perm _ _).symm
    refine sortedPermEq _ _ hperm (pySortBy_pairwise auditPrec_asymm auditPrec_ntrans _)
      (pySortBy_pairwise auditPrec_asymm auditPrec_ntrans _) ?_
    intro p q hp hq hpq hqp
    have hlep := auditPrec_false_le p q hpq
    have hleq := auditPrec_false_le q p hqp
    have hurl : p.url = q.url := by
      rcases hlep with h | ⟨he1, hu1⟩
      · rcases hleq with h' | ⟨he2, _⟩
        · omega
        · omega
      · rcases hleq with h' | ⟨he2, hu2⟩
        · omega
        · rcases hu1 with hu1 | hu1
          · rcases hu2 with hu2 | hu2
            · have h3 := pyStrLtL_asymm p.url.data q.url.data hu1
              have h4 : pyStrLt q.url p.url = false := h3
              rw [h4] at hu2
              exact absurd hu2 (by simp)
            · exact hu2.symm
          · exact hu1
    obtain ⟨up, hup, hpe⟩ := List.mem_map.mp ((pySortBy_perm _ _).mem_iff.mp hp)
    obtain ⟨uq, huq, hqe⟩ := List.mem_map.mp ((pySortBy_perm _ _).mem_iff.mp hq)
    have hpu : p = audit_single_url fetch p.url := by
      rw [← hpe, audit_single_url_url]
    have hqu : q = audit_single_url fetch q.url := by
      rw [← hqe, audit_single_url_url]
    rw [hpu, hqu, hurl]
  · intro fetch order urls hperm
    unfold run_quick_audit
    dsimp only
    refine ⟨?_, pyDedupe_nodup urls, ?_⟩
    · rw [(pySortBy_perm _ _).length_eq, List.length_map, hperm.length_eq]
    · exact (pySortBy_pairwise auditPrec_asymm auditPrec_ntrans _).imp
        (fun h => auditPrec_false_le _ _ h)
  · intro fetch url finalUrl body hf
    unfold audit_single_url
    rw [hf]
    dsimp only
    split
    · rename_i issues canonVal heq
      have hmem : "404" ∈ issues := by
        split at heq
        · obtain ⟨nc, hnc, hr⟩ := Option.bind_eq_some.mp heq
          obtain ⟨nf, hnf, hr2⟩ := Option.bind_eq_some.mp hr
          obtain ⟨y, hy, hr3⟩ := Option.bind_eq_some.mp hr2
          obtain ⟨nu, hnu, hr4⟩ := Option.bind_eq_some.mp hr3
          obtain ⟨nf2, hnf2, hr5⟩ := Option.bind_eq_some.mp hr4
          have hyv := Option.some.inj hy
          have h5 := Option.some.inj hr5
          have hiss : issues = y.2 ++ (if nu ≠ nf2 then ["redirected"] else []) :=
            (congrArg Prod.fst h5).symm
          have hy2 : y.2 = (statusIssues 404 ++
              (if contains_noindex body then ["noindex"] else [])) ++
              (if nc ≠ nf then ["canonical_mismatch"] else []) :=
            (congrArg Prod.snd hyv).symm
          rw [hiss, hy2]
          exact List.mem_append_left _ (List.mem_append_left _
            (List.mem_append_left _ (by decide)))
        · obtain ⟨y, hy, hr3⟩ := Option.bind_eq_some.mp heq
          obtain ⟨nu, hnu, hr4⟩ := Option.bind_eq_some.mp hr3
          obtain ⟨nf2, hnf2, hr5⟩ := Option.bind_eq_some.mp hr4
          have hyv := Option.some.inj hy
          have h5 := Option.some.inj hr5
          have hiss : issues = y.2 ++ (if nu ≠ nf2 then ["redirected"] else []) :=
            (congrArg Prod.fst h5).symm
          have hy2 : y.2 = statusIssues 404 ++
              (if contains_noindex body then ["noindex"] else []) :=
            (congrArg Prod.snd hyv).symm
          rw [hiss, hy2]
          exact List.mem_append_left _ (List.mem_append_left _ (by decide))
      show classify_severity issues = "critical"
      unfold classify_severity
      rw [if_pos]
      exact List.any_eq_true.mpr ⟨"404", hmem, by decide⟩
    · rfl
  · intro fetch url finalUrl body hf hc hnu hnf
    obtain ⟨vu, hvu⟩ := Option.isSome_iff_exists.mp hnu
    obtain ⟨vf, hvf⟩ := Option.isSome_iff_exists.mp hnf
    unfold audit_single_url
    rw [hf]
    dsimp only
    by_cases hcb : extract_canonical body ≠ ""
    · obtain ⟨vc, hvc⟩ := Option.isSome_iff_exists.mp (hc hcb)
      rw [if_pos hcb]
      simp only [hvc, hvf, hvu, Option.some_bind]
      exact ⟨(if contains_noindex body then ["noindex"] else []) ++
        (if vc ≠ vf then ["canonical_mismatch"] else []) ++
        (if vu ≠ vf then ["redirected"] else []), rfl⟩
    · rw [if_neg hcb]
      simp only [hvf, hvu, Option.some_bind]
      exact ⟨(if contains_noindex body then ["noindex"] else []) ++
        (if vu ≠ vf then ["redirected"] else []), rfl⟩

/-- C6, counterexample: the claim says a URL whose response status is HTTP
404 always carries issue tag `404`; for a 404 page whose body declares the
malformed canonical `http://[x`, normalizing the canonical raises inside the
audit body, the exception handler returns a `request_error` row, and the
`404` tag is lost (the row even reports status code 0).  Severity is still
critical. -/
theorem c6_counterexample :
    fetch404bad "http://e.com/x" = FetchRes.ok 404 "http://e.com/x" c6Body ∧
    (audit_single_url fetch404bad "http://e.com/x").issues = "request_error: Invalid IPv6 URL" ∧
    containsSub "404" (audit_single_url fetch404bad "http://e.com/x").issues = false ∧
    (audit_single_url fetch404bad "http://e.com/x").status_code = "0" ∧
    (audit_single_url fetch404bad "http://e.com/x").severity = "critical" := by
  refine ⟨rfl, ?_, ?_, ?_, ?_⟩ <;> decide

theorem c6_amended_witness :
    run_quick_audit (fun u => FetchRes.ok 200 u "") id ["http://a/1", "http://a/2", "http://a/1"] =
      run_quick_audit (fun u => FetchRes.ok 200 u "") List.reverse
        ["http://a/1", "http://a/2", "http://a/1"] ∧
    ((run_quick_audit (fun u => FetchRes.ok 200 u "") id
        ["http://a/1", "http://a/2", "http://a/1"]).length =
      (pyDedupe ["http://a/1", "http://a/2", "http://a/1"]).length ∧
      (pyDedupe ["http://a/1", "http://a/2", "http://a/1"]).Nodup ∧
      (run_quick_audit (fun u => FetchRes.ok 200 u "") id
        ["http://a/1", "http://a/2", "http://a/1"]).Pairwise auditLe) ∧
    (audit_single_url (fun _ => FetchRes.ok 404 "http://e.com/x" "") "http://e.com/x").severity =
      "critical" ∧
    (∃ rest, (audit_single_url (fun _ => FetchRes.ok 404 "http://e.com/x" "")
        "http://e.com/x").issues = String.intercalate ", " ("404" :: rest)) :=
  ⟨c6_amended.1 (fun u => FetchRes.ok 200 u "") id List.reverse
      ["http://a/1", "http://a/2", "http://a/1"] (by decide) (by decide),
   c6_amended.2.1 (fun u => FetchRes.ok 200 u "") id
      ["http://a/1", "http://a/2", "http://a/1"] (by decide),
   c6_amended.2.2.2.1 (fun _ => FetchRes.ok 404 "http://e.com/x" "") "http://e.com/x"
      "http://e.com/x" "" rfl,
   c6_amended.2.2.2.2 (fun _ => FetchRes.ok 404 "http://e.com/x" "") "http://e.com/x"
      "http://e.com/x" "" rfl (by intro h; exact absurd rfl h) (by decide) (by decide)⟩

/-! ## C7: crawler output invariants -/

theorem pyDedupeGo_sub : ∀ (l seen : List String) (x : String),
    x ∈ pyDedupe.go seen l → x ∈ l := by
  intro l
  induction l with
  | nil => intro seen x hx; exact absurd hx (List.not_mem_nil x)
  | cons y ys ih =>
    intro seen x hx
    unfold pyDedupe.go at hx
    by_cases hy : y ∈ seen
    · rw [if_pos hy] at hx
      exact List.mem_cons_of_mem y (ih seen x hx)
    · rw [if_neg hy] at hx
      rcases List.mem_cons.mp hx with rfl | hx2
      · exact List.mem_cons_self x ys
      · exact List.mem_cons_of_mem y (ih (y :: seen) x hx2)

theorem pyDedupe_sub {l : List String} {x : String} (hx : x ∈ pyDedupe l) : x ∈ l :=
  pyDedupeGo_sub l [] x hx

theorem discoverPhase1_mem (base : String) (limit : Nat) :
    ∀ (l acc res : List String), discoverPhase1 base limit l acc = some res →
      ∀ u ∈ res, u ∈ acc ∨
        (is_same_domain u base = some true ∧ should_include_url u = some true) := by
  intro l
  induction l with
  | nil =>
    intro acc res h u hu
    rw [discoverPhase1] at h
    exact Or.inl ((Option.some.inj h) ▸ hu)
  | cons url rest ih =>
    intro acc res h u hu
    rw [discoverPhase1] at h
    obtain ⟨sd, hsd, h2⟩ := Option.bind_eq_some.mp h
    dsimp only at h2
    split at h2
    · rename_i hsdv
      obtain ⟨inc, hinc, h4⟩ := Option.bind_eq_some.mp h2
      obtain ⟨y, hy, h5⟩ := Option.bind_eq_some.mp h4
      have hyv := Option.some.inj hy
      have hmemy : u ∈ y → u ∈ acc ∨
          (is_same_domain u base = some true ∧ should_include_url u = some true) := by
        intro hu2
        rw [← hyv] at hu2
        by_cases hincv : inc = true
        · rw [if_pos hincv] at hu2
          rcases List.mem_append.mp hu2 with h6 | h6
          · exact Or.inl h6
          · have h7 : u = url := List.mem_singleton.mp h6
            subst h7
            rw [hsdv] at hsd
            rw [hincv] at hinc
            exact Or.inr ⟨hsd, hinc⟩
        · rw [if_neg hincv] at hu2
          exact Or.inl hu2
      split at h5
      · exact hmemy ((Option.some.inj h5) ▸ hu)
      · rcases ih y res h5 u hu with h6 | h6
        · exact hmemy h6
        · exact Or.inr h6
    · obtain ⟨y, hy, h5⟩ := Option.bind_eq_some.mp h2
      have hyv := Option.some.inj hy
      split at h5
      · have hres := Option.some.inj h5
        rw [← hres, ← hyv] at hu
        exact Or.inl hu
      · rcases ih y res h5 u hu with h6 | h6
        · rw [← hyv] at h6
          exact Or.inl h6
        · exact Or.inr h6

theorem crawlLoop_mem (fetch : String → FetchRes) (base : String) (limit : Nat) :
    ∀ (fuel : Nat) (queue visited found res : List String),
      crawlLoop fetch base limit fuel queue visited found = some res →
      ∀ u ∈ res, u ∈ found ∨
        (is_same_domain u base = some true ∧ should_include_url u = some true) := by
  intro fuel
  induction fuel with
  | zero =>
    intro queue visited found res h u hu
    exact Or.inl ((Option.some.inj h) ▸ hu)
  | succ fuel ih =>
    intro queue visited found res h u hu
    rw [crawlLoop.eq_def] at h
    dsimp only at h
    split at h
    · exact Or.inl ((Option.some.inj h) ▸ hu)
    · split at h
      · exact Or.inl ((Option.some.inj h) ▸ hu)
      · rename_i current queue2
        obtain ⟨nc, hnc, h2⟩ := Option.bind_eq_some.mp h
        split at h2
        · exact ih _ _ _ _ h2 u hu
        · split at h2
          · exact ih _ _ _ _ h2 u hu
          · rename_i st finalUrl body
            obtain ⟨sd, hsd, h3⟩ := Option.bind_eq_some.mp h2
            split at h3
            · exact ih _ _ _ _ h3 u hu
            · split at h3
              · exact ih _ _ _ _ h3 u hu
              · rename_i hnsd hst
                obtain ⟨nf, hnf, h4⟩ := Option.bind_eq_some.mp h3
                obtain ⟨inc, hinc, h5⟩ := Option.bind_eq_some.mp h4
                obtain ⟨links, hlinks, h6⟩ := Option.bind_eq_some.mp h5
                obtain ⟨q2, hq2, h7⟩ := Option.bind_eq_some.mp h6
                rcases ih _ _ _ _ h7 u hu with h8 | h8
                · by_cases hincv : inc = true
                  · rw [if_pos hincv] at h8
                    rcases List.mem_append.mp h8 with h9 | h9
                    · exact Or.inl h9
                    · have h10 : u = st := List.mem_singleton.mp h9
                      subst h10
                      have hsdv : sd = true := by
                        revert hnsd
                        cases sd <;> simp
                      exact Or.inr ⟨hsdv ▸ hsd, hincv ▸ hinc⟩
                  · rw [if_neg hincv] at h8
                    exact Or.inl h8
                · exact Or.inr h8

/-- C7: whatever the fetched site does, the output of site discovery is
deduplicated, holds at most `limit` URLs, and every reported URL is on the
request domain of the site root and passes the exclusion rules (no excluded
path part, no excluded extension). -/
theorem c7_crawler_output (fetch : String → FetchRes) (site_url : String)
    (limit sitemapFuel crawlFuel : Nat) (out : List String)
    (h : discover_site_urls fetch site_url limit sitemapFuel crawlFuel = some out) :
    out.Nodup ∧ out.length ≤ limit ∧
    ∃ base, ensure_site_url site_url = some base ∧
      ∀ u ∈ out, is_same_domain u base = some true ∧ should_include_url u = some true := by
  unfold discover_site_urls at h
  obtain ⟨base, hbase, h2⟩ := Option.bind_eq_some.mp h
  obtain ⟨disc, hdisc, h3⟩ := Option.bind_eq_some.mp h2
  have hphase := discoverPhase1_mem base limit (fetch_sitemap_urls fetch base sitemapFuel)
    [] disc hdisc
  split at h3
  · have hout := Option.some.inj h3
    refine ⟨?_, ?_, base, hbase, ?_⟩
    · rw [← hout]
      exact (List.take_sublist _ _).nodup (pyDedupe_nodup disc)
    · rw [← hout]
      exact List.length_take_le _ _
    · intro u hu
      rw [← hout] at hu
      have hu2 := pyDedupe_sub ((List.take_sublist _ _).subset hu)
      rcases hphase u hu2 with h4 | h4
      · exact absurd h4 (List.not_mem_nil u)
      · exact h4
  · obtain ⟨crawled, hcrawl, h4⟩ := Option.bind_eq_some.mp h3
    have hout := Option.some.inj h4
    unfold crawl_internal_links at hcrawl
    obtain ⟨found, hfound, h5⟩ := Option.bind_eq_some.mp hcrawl
    have hcr := Option.some.inj h5
    have hloop := crawlLoop_mem fetch base limit crawlFuel [base] [] [] found hfound
    refine ⟨?_, ?_, base, hbase, ?_⟩
    · rw [← hout]
      exact (List.take_sublist _ _).nodup (pyDedupe_nodup _)
    · rw [← hout]
      exact List.length_take_le _ _
    · intro u hu
      rw [← hout] at hu
      have hu2 := pyDedupe_sub ((List.take_sublist _ _).subset hu)
      rcases List.mem_append.mp hu2 with h6 | h6
      · rcases hphase u h6 with h7 | h7
        · exact absurd h7 (List.not_mem_nil u)
        · exact h7
      · rw [← hcr] at h6
        have h8 : u ∈ found := pyDedupe_sub ((List.take_sublist _ _).subset h6)
        rcases hloop u h8 with h9 | h9
        · exact absurd h9 (List.not_mem_nil u)
        · exact h9

theorem c7_crawler_output_witness :
    (["http://e.com/page"] : List String).Nodup ∧
    (["http://e.com/page"] : List String).length ≤ 10 ∧
    ∃ base, ensure_site_url "http://e.com" = some base ∧
      ∀ u ∈ (["http://e.com/page"] : List String),
        is_same_domain u base = some true ∧ should_include_url u = some true :=
  c7_crawler_output
    (fun u => if u = "http://e.com" then FetchRes.ok 200 "http://e.com/page" ""
              else FetchRes.fail "x")
    "http://e.com" 10 3 3 ["http://e.com/page"] (by decide)


/-! ## C5: cancellation before the audit stage -/

theorem run_progressStep (env : Env) (p : Int) (msg : String) (s : Nat × List PEv) :
    ((progressStep env p msg).run.run s) =
      (if env.cancelAt s.1 ∧ env.cancelFlag then (Except.error PipeErr.cancelled, (s.1 + 1, s.2))
       else (Except.ok (), (s.1 + 1, s.2 ++ [PEv.progressEv p msg]))) := by
  show ((checkCancel env >>= fun _ => emit (.progressEv p msg)).run.run s) = _
  rw [run_bind, run_checkCancel]
  by_cases h : env.cancelAt s.1 ∧ env.cancelFlag
  · rw [if_pos h, if_pos h]
  · rw [if_neg h, if_neg h]
    exact run_emit _ _

theorem run_liftOpt {α : Type} (o : Option α) (s : Nat × List PEv) :
    ((liftOpt o).run.run s) =
      (match o with
       | some v => (Except.ok v, s)
       | none => (Except.error PipeErr.pyExc, s)) := by
  cases o <;> rfl

theorem boolFalse {b : Bool} (h : ¬ b = true) : b = false := by
  revert h
  cases b <;> simp

theorem c5_mig (env : Env) (a : Args) (pkg : Package)
    (hclean : performResult {env with cancelAt := fun _ => false} a = Except.ok pkg)
    (hflag : env.cancelFlag = true)
    (hmono : ∀ m n : Nat, m ≤ n → env.cancelAt m = true → env.cancelAt n = true)
    (hset : env.cancelAt 3 = true)
    (hold1 : a.old_raw ≠ []) (hnew1 : a.new_raw ≠ []) :
    ∃ st : Nat × List PEv,
      (perform_analysis env a).run.run (0, []) = (Except.error PipeErr.cancelled, st) ∧
      (∀ b, PEv.auditBatchEv b ∉ st.2) ∧ (∀ site, PEv.robotsEv site ∉ st.2) := by
  have hold2 : (a.old_raw = []) = False := eq_false hold1
  have hnew2 : (a.new_raw = []) = False := eq_false hnew1
  unfold performResult performRun perform_analysis at hclean
  unfold perform_analysis
  dsimp only at hclean ⊢
  by_cases hc0 : env.cancelAt 0 = true
  · refine ⟨(1, []), ?_, by simp, by simp⟩
    simp [run_bind, run_progressStep, hc0, hflag]
  have hc0f := boolFalse hc0
  set po := env.parseCsv a.old_raw "Eski URL dosyasi" with hpo
  set pn := env.parseCsv a.new_raw "Yeni URL dosyasi" with hpn
  set gb := (if a.gsc_before_raw ≠ [] then env.parseGsc a.gsc_before_raw
    else (([], []) : List GscRow × List String)) with hgbd
  set ga := (if a.gsc_after_raw ≠ [] then env.parseGsc a.gsc_after_raw
    else (([], []) : List GscRow × List String)) with hgad
  simp only [run_bind, run_progressStep, run_checkCancel, run_liftOpt, run_pure, run_throw,
    run_emit, hflag, Bool.false_eq_true, false_and, and_self, and_true, true_and, if_true,
    if_false, not_false_eq_true, not_true_eq_false, List.nil_append, List.append_nil, ne_eq,
    hc0f, hold2, hnew2] at hclean ⊢
  by_cases holdr : po.1 = []
  · simp only [run_bind, run_progressStep, run_checkCancel, run_liftOpt, run_pure, run_throw,
    run_emit, hflag, Bool.false_eq_true, false_and, and_self, and_true, true_and, if_true,
    if_false, not_false_eq_true, not_true_eq_false, List.nil_append, List.append_nil, ne_eq,
    eq_self_iff_true, hc0f, hold2, hnew2, holdr, List.cons_append, List.append_assoc,
    List.cons_ne_nil] at hclean
    exact absurd hclean (by simp)
  by_cases hnewr : pn.1 = []
  · simp only [run_bind, run_progressStep, run_checkCancel, run_liftOpt, run_pure, run_throw,
    run_emit, hflag, Bool.false_eq_true, false_and, and_self, and_true, true_and, if_true,
    if_false, not_false_eq_true, not_true_eq_false, List.nil_append, List.append_nil, ne_eq,
    eq_self_iff_true, hc0f, hold2, hnew2, holdr, hnewr, List.cons_append, List.append_assoc,
    List.cons_ne_nil] at hclean
    exact absurd hclean (by simp)
  simp only [run_bind, run_progressStep, run_checkCancel, run_liftOpt, run_pure, run_throw,
    run_emit, hflag, Bool.false_eq_true, false_and, and_self, and_true, true_and, if_true,
    if_false, not_false_eq_true, not_true_eq_false, List.nil_append, List.append_nil, ne_eq,
    eq_self_iff_true, holdr, hnewr] at hclean ⊢
  by_cases herr : (po.2 ++ pn.2 ++ gb.2 ++ ga.2 : List String) = []
  swap
  · simp only [run_bind, run_progressStep, run_checkCancel, run_liftOpt, run_pure, run_throw,
    run_emit, hflag, Bool.false_eq_true, false_and, and_self, and_true, true_and, if_true,
    if_false, not_false_eq_true, not_true_eq_false, List.nil_append, List.append_nil, ne_eq,
    eq_self_iff_true, herr] at hclean
    exact absurd hclean (by simp)
  simp only [run_bind, run_progressStep, run_checkCancel, run_liftOpt, run_pure, run_throw,
    run_emit, hflag, Bool.false_eq_true, false_and, and_self, and_true, true_and, if_true,
    if_false, not_false_eq_true, not_true_eq_false, List.nil_append, List.append_nil, ne_eq,
    eq_self_iff_true, herr] at hclean ⊢
  by_cases hc1 : env.cancelAt 1 = true
  · simp only [run_bind, run_progressStep, run_checkCancel, run_liftOpt, run_pure, run_throw,
    run_emit, hflag, Bool.false_eq_true, false_and, and_self, and_true, true_and, if_true,
    if_false, not_false_eq_true, not_true_eq_false, List.nil_append, List.append_nil, ne_eq,
    eq_self_iff_true, hc1] at hclean ⊢
    exact ⟨_, rfl, by simp, by simp⟩
  have hc1f := boolFalse hc1
  simp only [run_bind, run_progressStep, run_checkCancel, run_liftOpt, run_pure, run_throw,
    run_emit, hflag, Bool.false_eq_true, false_and, and_self, and_true, true_and, if_true,
    if_false, not_false_eq_true, not_true_eq_false, List.nil_append, List.append_nil, ne_eq,
    eq_self_iff_true, hc1f] at hclean ⊢
  by_cases hc2 : env.cancelAt 2 = true
  · simp only [run_bind, run_progressStep, run_checkCancel, run_liftOpt, run_pure, run_throw,
    run_emit, hflag, Bool.false_eq_true, false_and, and_self, and_true, true_and, if_true,
    if_false, not_false_eq_true, not_true_eq_false, List.nil_append, List.append_nil, ne_eq,
    eq_self_iff_true, hc2]
    exact ⟨_, rfl, by simp, by simp⟩
  have hc2f := boolFalse hc2
  simp only [run_bind, run_progressStep, run_checkCancel, run_liftOpt, run_pure, run_throw,
    run_emit, hflag, Bool.false_eq_true, false_and, and_self, and_true, true_and, if_true,
    if_false, not_false_eq_true, not_true_eq_false, List.nil_append, List.append_nil, ne_eq,
    eq_self_iff_true, hc2f] at hclean ⊢
  cases hmu : match_urls po.1 pn.1 with
  | none =>
    simp only [run_bind, run_progressStep, run_checkCancel, run_liftOpt, run_pure, run_throw,
      run_emit, hflag, Bool.false_eq_true, false_and, and_self, and_true, true_and, if_true,
      if_false, not_false_eq_true, not_true_eq_false, List.nil_append, List.append_nil, ne_eq,
      eq_self_iff_true, hmu] at hclean
    exact absurd hclean (by simp)
  | some ml =>
  simp only [run_bind, run_progressStep, run_checkCancel, run_liftOpt, run_pure, run_throw,
    run_emit, hflag, Bool.false_eq_true, false_and, and_self, and_true, true_and, if_true,
    if_false, not_false_eq_true, not_true_eq_false, List.nil_append, List.append_nil, ne_eq,
    eq_self_iff_true, hmu] at hclean ⊢
  cases hgbm : build_gsc_metric_map gb.1 with
  | none =>
    simp only [run_bind, run_progressStep, run_checkCancel, run_liftOpt, run_pure, run_throw,
      run_emit, hflag, Bool.false_eq_true, false_and, and_self, and_true, true_and, if_true,
      if_false, not_false_eq_true, not_true_eq_false, List.nil_append, List.append_nil, ne_eq,
      eq_self_iff_true, hgbm] at hclean
    exact absurd hclean (by simp)
  | some gbm =>
  simp only [run_bind, run_progressStep, run_checkCancel, run_liftOpt, run_pure, run_throw,
    run_emit, hflag, Bool.false_eq_true, false_and, and_self, and_true, true_and, if_true,
    if_false, not_false_eq_true, not_true_eq_false, List.nil_append, List.append_nil, ne_eq,
    eq_self_iff_true, hgbm] at hclean ⊢
  cases hgam : build_gsc_metric_map ga.1 with
  | none =>
    simp only [run_bind, run_progressStep, run_checkCancel, run_liftOpt, run_pure, run_throw,
      run_emit, hflag, Bool.false_eq_true, false_and, and_self, and_true, true_and, if_true,
      if_false, not_false_eq_true, not_true_eq_false, List.nil_append, List.append_nil, ne_eq,
      eq_self_iff_true, hgam] at hclean
    exact absurd hclean (by simp)
  | some gam =>
  simp only [run_bind, run_progressStep, run_checkCancel, run_liftOpt, run_pure, run_throw,
    run_emit, hflag, Bool.false_eq_true, false_and, and_self, and_true, true_and, if_true,
    if_false, not_false_eq_true, not_true_eq_false, List.nil_append, List.append_nil, ne_eq,
    eq_self_iff_true, hgam] at hclean ⊢
  cases hru : rank_urgent_actions ml gbm with
  | none =>
    simp only [run_bind, run_progressStep, run_checkCancel, run_liftOpt, run_pure, run_throw,
      run_emit, hflag, Bool.false_eq_true, false_and, and_self, and_true, true_and, if_true,
      if_false, not_false_eq_true, not_true_eq_false, List.nil_append, List.append_nil, ne_eq,
      eq_self_iff_true, hru] at hclean
    exact absurd hclean (by simp)
  | some ru =>
  simp only [run_bind, run_progressStep, run_checkCancel, run_liftOpt, run_pure, run_throw,
    run_emit, hflag, Bool.false_eq_true, false_and, and_self, and_true, true_and, if_true,
    if_false, not_false_eq_true, not_true_eq_false, List.nil_append, List.append_nil, ne_eq,
    eq_self_iff_true, hru] at hclean ⊢
  by_cases hra : a.run_audit = true
  · simp only [run_bind, run_progressStep, run_checkCancel, run_liftOpt, run_pure, run_throw,
    run_emit, hflag, Bool.false_eq_true, false_and, and_self, and_true, true_and, if_true,
    if_false, not_false_eq_true, not_true_eq_false, List.nil_append, List.append_nil, ne_eq,
    eq_self_iff_true, hra, hset]
    exact ⟨_, rfl, by simp, by simp⟩
  · have hraf := boolFalse hra
    simp only [run_bind, run_progressStep, run_checkCancel, run_liftOpt, run_pure, run_throw,
    run_emit, hflag, Bool.false_eq_true, false_and, and_self, and_true, true_and, if_true,
    if_false, not_false_eq_true, not_true_eq_false, List.nil_append, List.append_nil, ne_eq,
    eq_self_iff_true, hraf, hset]
    exact ⟨_, rfl, by simp, by simp⟩

theorem c5_scan (env : Env) (a : Args) (pkg : Package)
    (hclean : performResult {env with cancelAt := fun _ => false} a = Except.ok pkg)
    (hflag : env.cancelFlag = true)
    (hset : env.cancelAt 5 = true)
    (hnmig : ¬(a.old_raw ≠ [] ∧ a.new_raw ≠ []))
    (hcs : a.crawl_site = true) (hps : pyStrip a.site_url ≠ "") :
    ∃ st : Nat × List PEv,
      (perform_analysis env a).run.run (0, []) = (Except.error PipeErr.cancelled, st) ∧
      (∀ b, PEv.auditBatchEv b ∉ st.2) ∧ (∀ site, PEv.robotsEv site ∉ st.2) := by
  have hnm2 : (a.old_raw ≠ [] ∧ a.new_raw ≠ []) = False := eq_false hnmig
  have hps2 : (pyStrip a.site_url = "") = False := eq_false hps
  have hsmig : ("scan" = "migration") = False := by decide
  unfold performResult performRun perform_analysis at hclean
  unfold perform_analysis
  dsimp only at hclean ⊢
  by_cases hc0 : env.cancelAt 0 = true
  · refine ⟨(1, []), ?_, by simp, by simp⟩
    simp [run_bind, run_progressStep, hc0, hflag]
  have hc0f := boolFalse hc0
  set gb := (if a.gsc_before_raw ≠ [] then env.parseGsc a.gsc_before_raw
    else (([], []) : List GscRow × List String)) with hgbd
  set ga := (if a.gsc_after_raw ≠ [] then env.parseGsc a.gsc_after_raw
    else (([], []) : List GscRow × List String)) with hgad
  simp only [run_bind, run_progressStep, run_checkCancel, run_liftOpt, run_pure, run_throw,
    run_emit, hflag, Bool.false_eq_true, false_and, and_self, and_true, true_and, if_true,
    if_false, not_false_eq_true, not_true_eq_false, List.nil_append, List.append_nil, ne_eq,
    eq_self_iff_true, hsmig, hc0f, hnm2, hcs, hps2] at hclean ⊢
  by_cases hc1 : env.cancelAt 1 = true
  · simp only [run_bind, run_progressStep, run_checkCancel, run_liftOpt, run_pure, run_throw,
    run_emit, hflag, Bool.false_eq_true, false_and, and_self, and_true, true_and, if_true,
    if_false, not_false_eq_true, not_true_eq_false, List.nil_append, List.append_nil, ne_eq,
    eq_self_iff_true, hsmig, hc1] at hclean ⊢
    exact ⟨_, rfl, by simp, by simp⟩
  have hc1f := boolFalse hc1
  simp only [run_bind, run_progressStep, run_checkCancel, run_liftOpt, run_pure, run_throw,
    run_emit, hflag, Bool.false_eq_true, false_and, and_self, and_true, true_and, if_true,
    if_false, not_false_eq_true, not_true_eq_false, List.nil_append, List.append_nil, ne_eq,
    eq_self_iff_true, hsmig, hc1f] at hclean ⊢
  by_cases hc2 : env.cancelAt 2 = true
  · simp only [run_bind, run_progressStep, run_checkCancel, run_liftOpt, run_pure, run_throw,
    run_emit, hflag, Bool.false_eq_true, false_and, and_self, and_true, true_and, if_true,
    if_false, not_false_eq_true, not_true_eq_false, List.nil_append, List.append_nil, ne_eq,
    eq_self_iff_true, hsmig, hc2]
    exact ⟨_, rfl, by simp, by simp⟩
  have hc2f := boolFalse hc2
  simp only [run_bind, run_progressStep, run_checkCancel, run_liftOpt, run_pure, run_throw,
    run_emit, hflag, Bool.false_eq_true, false_and, and_self, and_true, true_and, if_true,
    if_false, not_false_eq_true, not_true_eq_false, List.nil_append, List.append_nil, ne_eq,
    eq_self_iff_true, hsmig, hc2f] at hclean ⊢
  cases hdisc : discover_site_urls env.fetch a.site_url
      (max 10 (min a.crawl_limit 2000)).toNat env.sitemapFuel env.crawlFuel with
  | none =>
    simp only [run_bind, run_progressStep, run_checkCancel, run_liftOpt, run_pure, run_throw,
    run_emit, hflag, Bool.false_eq_true, false_and, and_self, and_true, true_and, if_true,
    if_false, not_false_eq_true, not_true_eq_false, List.nil_append, List.append_nil, ne_eq,
    eq_self_iff_true, hsmig, hdisc] at hclean
    exact absurd hclean (by simp)
  | some disc =>
  simp only [run_bind, run_progressStep, run_checkCancel, run_liftOpt, run_pure, run_throw,
    run_emit, hflag, Bool.false_eq_true, false_and, and_self, and_true, true_and, if_true,
    if_false, not_false_eq_true, not_true_eq_false, List.nil_append, List.append_nil, ne_eq,
    eq_self_iff_true, hsmig, hdisc] at hclean ⊢
  cases hnr : optMapM (fun url =>
      Option.map (fun t => ({ url := url, type? := some t } : UrlRow)) (infer_type url)) disc with
  | none =>
    simp only [run_bind, run_progressStep, run_checkCancel, run_liftOpt, run_pure, run_throw,
    run_emit, hflag, Bool.false_eq_true, false_and, and_self, and_true, true_and, if_true,
    if_false, not_false_eq_true, not_true_eq_false, List.nil_append, List.append_nil, ne_eq,
    eq_self_iff_true, hsmig, hnr] at hclean
    exact absurd hclean (by simp)
  | some nrows =>
  simp only [run_bind, run_progressStep, run_checkCancel, run_liftOpt, run_pure, run_throw,
    run_emit, hflag, Bool.false_eq_true, false_and, and_self, and_true, true_and, if_true,
    if_false, not_false_eq_true, not_true_eq_false, List.nil_append, List.append_nil, ne_eq,
    eq_self_iff_true, hsmig, hnr] at hclean ⊢
  by_cases hdn : disc = []
  · simp only [run_bind, run_progressStep, run_checkCancel, run_liftOpt, run_pure, run_throw,
    run_emit, hflag, Bool.false_eq_true, false_and, and_self, and_true, true_and, if_true,
    if_false, not_false_eq_true, not_true_eq_false, List.nil_append, List.append_nil, ne_eq,
    eq_self_iff_true, hsmig, hdn, List.cons_append, List.cons_ne_nil] at hclean
    exact absurd hclean (by simp)
  simp only [run_bind, run_progressStep, run_checkCancel, run_liftOpt, run_pure, run_throw,
    run_emit, hflag, Bool.false_eq_true, false_and, and_self, and_true, true_and, if_true,
    if_false, not_false_eq_true, not_true_eq_false, List.nil_append, List.append_nil, ne_eq,
    eq_self_iff_true, hsmig, hdn] at hclean ⊢
  by_cases hnre : nrows = []
  · simp only [run_bind, run_progressStep, run_checkCancel, run_liftOpt, run_pure, run_throw,
    run_emit, hflag, Bool.false_eq_true, false_and, and_self, and_true, true_and, if_true,
    if_false, not_false_eq_true, not_true_eq_false, List.nil_append, List.append_nil, ne_eq,
    eq_self_iff_true, hsmig, hnre, List.cons_append, List.cons_ne_nil] at hclean
    exact absurd hclean (by simp)
  simp only [run_bind, run_progressStep, run_checkCancel, run_liftOpt, run_pure, run_throw,
    run_emit, hflag, Bool.false_eq_true, false_and, and_self, and_true, true_and, if_true,
    if_false, not_false_eq_true, not_true_eq_false, List.nil_append, List.append_nil, ne_eq,
    eq_self_iff_true, hsmig, hnre] at hclean ⊢
  by_cases herr : (gb.2 ++ ga.2 : List String) = []
  swap
  · simp only [run_bind, run_progressStep, run_checkCancel, run_liftOpt, run_pure, run_throw,
    run_emit, hflag, Bool.false_eq_true, false_and, and_self, and_true, true_and, if_true,
    if_false, not_false_eq_true, not_true_eq_false, List.nil_append, List.append_nil, ne_eq,
    eq_self_iff_true, hsmig, herr] at hclean
    exact absurd hclean (by simp)
  simp only [run_bind, run_progressStep, run_checkCancel, run_liftOpt, run_pure, run_throw,
    run_emit, hflag, Bool.false_eq_true, false_and, and_self, and_true, true_and, if_true,
    if_false, not_false_eq_true, not_true_eq_false, List.nil_append, List.append_nil, ne_eq,
    eq_self_iff_true, hsmig, herr] at hclean ⊢
  by_cases hc3 : env.cancelAt 3 = true
  · simp only [run_bind, run_progressStep, run_checkCancel, run_liftOpt, run_pure, run_throw,
    run_emit, hflag, Bool.false_eq_true, false_and, and_self, and_true, true_and, if_true,
    if_false, not_false_eq_true, not_true_eq_false, List.nil_append, List.append_nil, ne_eq,
    eq_self_iff_true, hsmig, hc3]
    exact ⟨_, rfl, by simp, by simp⟩
  have hc3f := boolFalse hc3
  simp only [run_bind, run_progressStep, run_checkCancel, run_liftOpt, run_pure, run_throw,
    run_emit, hflag, Bool.false_eq_true, false_and, and_self, and_true, true_and, if_true,
    if_false, not_false_eq_true, not_true_eq_false, List.nil_append, List.append_nil, ne_eq,
    eq_self_iff_true, hsmig, hc3f] at hclean ⊢
  by_cases hc4 : env.cancelAt 4 = true
  · simp only [run_bind, run_progressStep, run_checkCancel, run_liftOpt, run_pure, run_throw,
    run_emit, hflag, Bool.false_eq_true, false_and, and_self, and_true, true_and, if_true,
    if_false, not_false_eq_true, not_true_eq_false, List.nil_append, List.append_nil, ne_eq,
    eq_self_iff_true, hsmig, hc4]
    exact ⟨_, rfl, by simp, by simp⟩
  have hc4f := boolFalse hc4
  simp only [run_bind, run_progressStep, run_checkCancel, run_liftOpt, run_pure, run_throw,
    run_emit, hflag, Bool.false_eq_true, false_and, and_self, and_true, true_and, if_true,
    if_false, not_false_eq_true, not_true_eq_false, List.nil_append, List.append_nil, ne_eq,
    eq_self_iff_true, hsmig, hc4f] at hclean ⊢
  cases hsm : optMapM (fun item => do
      let t ←
        match item.type? with
        | some t => if t = "" then infer_type item.url else some t
        | none => infer_type item.url
      result_row item.url item.url 100 "site_scan" t) nrows with
  | none =>
    simp only [run_bind, run_progressStep, run_checkCancel, run_liftOpt, run_pure, run_throw,
    run_emit, hflag, Bool.false_eq_true, false_and, and_self, and_true, true_and, if_true,
    if_false, not_false_eq_true, not_true_eq_false, List.nil_append, List.append_nil, ne_eq,
    eq_self_iff_true, hsmig, hsm] at hclean
    exact absurd hclean (by simp)
  | some ml =>
  simp only [run_bind, run_progressStep, run_checkCancel, run_liftOpt, run_pure, run_throw,
    run_emit, hflag, Bool.false_eq_true, false_and, and_self, and_true, true_and, if_true,
    if_false, not_false_eq_true, not_true_eq_false, List.nil_append, List.append_nil, ne_eq,
    eq_self_iff_true, hsmig, hsm] at hclean ⊢
  cases hgbm : build_gsc_metric_map gb.1 with
  | none =>
    simp only [run_bind, run_progressStep, run_checkCancel, run_liftOpt, run_pure, run_throw,
    run_emit, hflag, Bool.false_eq_true, false_and, and_self, and_true, true_and, if_true,
    if_false, not_false_eq_true, not_true_eq_false, List.nil_append, List.append_nil, ne_eq,
    eq_self_iff_true, hsmig, hgbm] at hclean
    exact absurd hclean (by simp)
  | some gbm =>
  simp only [run_bind, run_progressStep, run_checkCancel, run_liftOpt, run_pure, run_throw,
    run_emit, hflag, Bool.false_eq_true, false_and, and_self, and_true, true_and, if_true,
    if_false, not_false_eq_true, not_true_eq_false, List.nil_append, List.append_nil, ne_eq,
    eq_self_iff_true, hsmig, hgbm] at hclean ⊢
  cases hgam : build_gsc_metric_map ga.1 with
  | none =>
    simp only [run_bind, run_progressStep, run_checkCancel, run_liftOpt, run_pure, run_throw,
    run_emit, hflag, Bool.false_eq_true, false_and, and_self, and_true, true_and, if_true,
    if_false, not_false_eq_true, not_true_eq_false, List.nil_append, List.append_nil, ne_eq,
    eq_self_iff_true, hsmig, hgam] at hclean
    exact absurd hclean (by simp)
  | some gam =>
  simp only [run_bind, run_progressStep, run_checkCancel, run_liftOpt, run_pure, run_throw,
    run_emit, hflag, Bool.false_eq_true, false_and, and_self, and_true, true_and, if_true,
    if_false, not_false_eq_true, not_true_eq_false, List.nil_append, List.append_nil, ne_eq,
    eq_self_iff_true, hsmig, hgam, hset]
  exact ⟨_, rfl, by simp, by simp⟩

/-- C5: if the job would complete when cancellation never fires, then with
the cancel feature enabled, a sticky cancellation flag that is set by the
time the audit stage would begin makes the pipeline abort with the distinct
cancellation signal - the job ends `cancelled`, not `error` - and no audit
batch is ever fetched and no robots check is made. -/
theorem c5_cancel_before_audit (env : Env) (a : Args)
    (hdone : runOutcome (performResult {env with cancelAt := fun _ => false} a) = "done")
    (hflag : env.cancelFlag = true)
    (hmono : ∀ m n : Nat, m ≤ n → env.cancelAt m = true → env.cancelAt n = true)
    (hset : env.cancelAt (auditStartIdx a) = true) :
    performResult env a = Except.error PipeErr.cancelled ∧
    runOutcome (performResult env a) = "cancelled" ∧
    (∀ b, PEv.auditBatchEv b ∉ performTrace env a) ∧
    (∀ site, PEv.robotsEv site ∉ performTrace env a) := by
  obtain ⟨pkg, hclean⟩ : ∃ pkg, performResult {env with cancelAt := fun _ => false} a =
      Except.ok pkg := by
    cases hh : performResult {env with cancelAt := fun _ => false} a with
    | ok pkg => exact ⟨pkg, rfl⟩
    | error e =>
      rw [hh] at hdone
      cases e <;> simp [runOutcome] at hdone
  suffices h : ∃ st : Nat × List PEv,
      (perform_analysis env a).run.run (0, []) = (Except.error PipeErr.cancelled, st) ∧
      (∀ b, PEv.auditBatchEv b ∉ st.2) ∧ (∀ site, PEv.robotsEv site ∉ st.2) by
    obtain ⟨st, h1, h2, h3⟩ := h
    have hres : performResult env a = Except.error PipeErr.cancelled := by
      unfold performResult performRun
      rw [h1]
    have htr : performTrace env a = st.2 := by
      unfold performTrace performRun
      rw [h1]
    exact ⟨hres, by rw [hres]; rfl, by rw [htr]; exact h2, by rw [htr]; exact h3⟩
  by_cases hmig : a.old_raw ≠ [] ∧ a.new_raw ≠ []
  · have hK : auditStartIdx a = 3 := by
      unfold auditStartIdx
      rw [if_neg]
      intro h
      exact h.1 hmig
    exact c5_mig env a pkg hclean hflag hmono (hK ▸ hset) hmig.1 hmig.2
  by_cases hscan : a.crawl_site = true ∧ pyStrip a.site_url ≠ ""
  · have hK : auditStartIdx a = 5 := by
      unfold auditStartIdx
      rw [if_pos ⟨hmig, hscan⟩]
    exact c5_scan env a pkg hclean hflag (hK ▸ hset) hmig hscan.1 hscan.2
  exfalso
  have hnm2 : (a.old_raw ≠ [] ∧ a.new_raw ≠ []) = False := eq_false hmig
  have hsc2 : (a.crawl_site = true ∧ pyStrip a.site_url ≠ "") = False := eq_false hscan
  unfold performResult performRun perform_analysis at hclean
  dsimp only at hclean
  simp [run_bind, run_progressStep, run_checkCancel, run_liftOpt, run_pure, run_throw,
    run_emit, hnm2, hsc2] at hclean

theorem c5_cancel_before_audit_witness :
    performResult envC5 argsC5 = Except.error PipeErr.cancelled ∧
    runOutcome (performResult envC5 argsC5) = "cancelled" ∧
    (∀ b, PEv.auditBatchEv b ∉ performTrace envC5 argsC5) ∧
    (∀ site, PEv.robotsEv site ∉ performTrace envC5 argsC5) :=
  c5_cancel_before_audit envC5 argsC5 (by decide) rfl
    (by
      intro m n h1 h2
      simp only [envC5, decide_eq_true_eq] at h2 ⊢
      omega)
    (by decide)

/-! ## C3: the slug-similarity stage -/

theorem extRight_le (a b : List Char) (bhi bi bj : Nat) :
    ∀ fuel s, extRight a b bhi bi bj fuel s ≤ s + fuel := by
  intro fuel
  induction fuel with
  | zero => intro s; exact Nat.le_refl s
  | succ n ih =>
    intro s
    unfold extRight
    split
    · exact le_trans (ih (s + 1)) (by omega)
    · omega

theorem extRight_bj (a b : List Char) (bhi bi bj : Nat) :
    ∀ fuel s, bj + s ≤ bhi → bj + extRight a b bhi bi bj fuel s ≤ bhi := by
  intro fuel
  induction fuel with
  | zero => intro s h; exact h
  | succ n ih =>
    intro s h
    unfold extRight
    split
    · rename_i hg
      exact ih (s + 1) (by omega)
    · exact h

theorem extLeft_spec (a b : List Char) (alo blo : Nat) :
    ∀ besti bestj size, alo ≤ besti → blo ≤ bestj →
      alo ≤ (extLeft a b alo blo besti bestj size).1 ∧
      blo ≤ (extLeft a b alo blo besti bestj size).2.1 ∧
      (extLeft a b alo blo besti bestj size).1 + (extLeft a b alo blo besti bestj size).2.2 =
        besti + size ∧
      (extLeft a b alo blo besti bestj size).2.1 + (extLeft a b alo blo besti bestj size).2.2 =
        bestj + size := by
  intro besti
  induction besti with
  | zero =>
    intro bestj size h1 h2
    exact ⟨h1, h2, rfl, rfl⟩
  | succ bi ih =>
    intro bestj size h1 h2
    unfold extLeft
    split
    · rename_i hg
      have h3 := ih (bestj - 1) (size + 1) (by omega) (by omega)
      refine ⟨h3.1, h3.2.1, ?_, ?_⟩
      · rw [h3.2.2.1]
        omega
      · rw [h3.2.2.2]
        omega
    · exact ⟨h1, h2, rfl, rfl⟩

theorem flmInner_spec (alo blo bhi ahi i : Nat) (old : Nat → Nat)
    (hold : ∀ x, old x = 0 ∨ (blo + old x ≤ x + 1 ∧ alo + old x ≤ i))
    (hi1 : alo ≤ i) (hi2 : i < ahi) :
    ∀ (js : List Nat) (best : Nat × Nat × Nat) (new : Nat → Nat),
      (alo ≤ best.1 ∧ blo ≤ best.2.1 ∧ best.1 + best.2.2 ≤ ahi ∧ best.2.1 + best.2.2 ≤ bhi) →
      (∀ x, new x = 0 ∨ (blo + new x ≤ x + 1 ∧ alo + new x ≤ i + 1)) →
      (alo ≤ (flmInner old blo bhi i js best new).1.1 ∧
        blo ≤ (flmInner old blo bhi i js best new).1.2.1 ∧
        (flmInner old blo bhi i js best new).1.1 + (flmInner old blo bhi i js best new).1.2.2 ≤
          ahi ∧
        (flmInner old blo bhi i js best new).1.2.1 + (flmInner old blo bhi i js best new).1.2.2 ≤
          bhi) ∧
      (∀ x, (flmInner old blo bhi i js best new).2 x = 0 ∨
        (blo + (flmInner old blo bhi i js best new).2 x ≤ x + 1 ∧
          alo + (flmInner old blo bhi i js best new).2 x ≤ i + 1)) := by
  intro js
  induction js with
  | nil =>
    intro best new hb hn
    exact ⟨hb, hn⟩
  | cons j js ih =>
    intro best new hb hn
    unfold flmInner
    split
    · exact ih best new hb hn
    · split
      · exact ⟨hb, hn⟩
      · rename_i hjlo hjhi
        have hjlo2 : blo ≤ j := by omega
        have hjhi2 : j < bhi := by omega
        set k := (if j = 0 then 1 else old (j - 1) + 1) with hkdef
        have hk : blo + k ≤ j + 1 ∧ alo + k ≤ i + 1 := by
          rw [hkdef]
          split
          · omega
          · rcases hold (j - 1) with h | ⟨h1, h2⟩
            · rw [h]
              omega
            · omega
        refine ih _ _ ?_ ?_
        · split
          · refine ⟨?_, ?_, ?_, ?_⟩ <;> (dsimp only; omega)
          · exact hb
        · intro x
          by_cases hx : x = j
          · right
            simp only [hx, if_pos rfl, if_true]
            omega
          · simp only [if_neg hx]
            exact hn x

theorem flmOuter_spec (a b : List Char) (alo blo bhi ahi : Nat) :
    ∀ (n s : Nat) (st : (Nat × Nat × Nat) × (Nat → Nat)), alo ≤ s → s + n ≤ ahi →
      (alo ≤ st.1.1 ∧ blo ≤ st.1.2.1 ∧ st.1.1 + st.1.2.2 ≤ ahi ∧ st.1.2.1 + st.1.2.2 ≤ bhi) →
      (∀ x, st.2 x = 0 ∨ (blo + st.2 x ≤ x + 1 ∧ alo + st.2 x ≤ s)) →
      alo ≤ (flmOuter a b blo bhi (List.range' s n) st).1.1 ∧
      blo ≤ (flmOuter a b blo bhi (List.range' s n) st).1.2.1 ∧
      (flmOuter a b blo bhi (List.range' s n) st).1.1 +
        (flmOuter a b blo bhi (List.range' s n) st).1.2.2 ≤ ahi ∧
      (flmOuter a b blo bhi (List.range' s n) st).1.2.1 +
        (flmOuter a b blo bhi (List.range' s n) st).1.2.2 ≤ bhi := by
  intro n
  induction n with
  | zero =>
    intro s st _ _ hb _
    exact hb
  | succ n ih =>
    intro s st h1 h2 hb hj
    rw [List.range'_succ]
    simp only [flmOuter]
    have hin := flmInner_spec alo blo bhi ahi s st.2 hj h1 (by omega)
      (b2jGet b (a.getD s (Char.ofNat 0))) st.1 (fun _ => 0) hb (fun x => Or.inl rfl)
    exact ih (s + 1) _ (by omega) (by omega) hin.1 hin.2

theorem flm_bounds (a b : List Char) (alo ahi blo bhi : Nat) (h1 : alo ≤ ahi)
    (h2 : blo ≤ bhi) :
    alo ≤ (findLongestMatch a b alo ahi blo bhi).1 ∧
    blo ≤ (findLongestMatch a b alo ahi blo bhi).2.1 ∧
    (findLongestMatch a b alo ahi blo bhi).1 + (findLongestMatch a b alo ahi blo bhi).2.2 ≤
      ahi ∧
    (findLongestMatch a b alo ahi blo bhi).2.1 + (findLongestMatch a b alo ahi blo bhi).2.2 ≤
      bhi := by
  simp only [findLongestMatch]
  have hst := flmOuter_spec a b alo blo bhi ahi (ahi - alo) alo ((alo, blo, 0), fun _ => 0)
    (Nat.le_refl alo) (by omega)
    ⟨Nat.le_refl alo, Nat.le_refl blo, by dsimp only; omega, by dsimp only; omega⟩
    (fun x => Or.inl rfl)
  set st := flmOuter a b blo bhi (List.range' alo (ahi - alo)) ((alo, blo, 0), fun _ => 0)
    with hstdef
  have he := extLeft_spec a b alo blo st.1.1 st.1.2.1 st.1.2.2 hst.1 hst.2.1
  set e := extLeft a b alo blo st.1.1 st.1.2.1 st.1.2.2 with hedef
  have hext := extRight_le a b bhi e.1 e.2.1 (ahi - (e.1 + e.2.2)) e.2.2
  have hbj := extRight_bj a b bhi e.1 e.2.1 (ahi - (e.1 + e.2.2)) e.2.2 (by omega)
  exact ⟨he.1, he.2.1, by omega, hbj⟩

theorem gmbGo_sum (a b : List Char) :
    ∀ (fuel : Nat) (stack : List (Nat × Nat × Nat × Nat)) (acc : List (Nat × Nat × Nat)),
      (∀ r ∈ stack, r.1 ≤ r.2.1 ∧ r.2.2.1 ≤ r.2.2.2) →
      ((gmbGo a b fuel stack acc).map (fun m => m.2.2)).sum ≤
        (stack.map (fun r => min (r.2.1 - r.1) (r.2.2.2 - r.2.2.1))).sum +
        ((acc.map (fun m => m.2.2)).sum) := by
  intro fuel
  induction fuel with
  | zero =>
    intro stack acc _
    simp only [gmbGo]
    exact Nat.le_add_left _ _
  | succ n ih =>
    intro stack acc hv
    cases stack with
    | nil =>
      simp only [gmbGo]
      exact Nat.le_add_left _ _
    | cons hd rest =>
      obtain ⟨alo, ahi, blo, bhi⟩ := hd
      have hvr := hv (alo, ahi, blo, bhi) (List.mem_cons_self _ _)
      dsimp only at hvr
      have hm := flm_bounds a b alo ahi blo bhi hvr.1 hvr.2
      simp only [gmbGo]
      set m := findLongestMatch a b alo ahi blo bhi with hmdef
      split
      · have hih := ih
          ((if m.1 + m.2.2 < ahi ∧ m.2.1 + m.2.2 < bhi then
              [(m.1 + m.2.2, ahi, m.2.1 + m.2.2, bhi)] else []) ++
            (if alo < m.1 ∧ blo < m.2.1 then [(alo, m.1, blo, m.2.1)] else []) ++ rest)
          (m :: acc) ?_
        · refine le_trans hih ?_
          simp only [List.map_append, List.sum_append, List.map_cons, List.sum_cons]
          by_cases hc2 : m.1 + m.2.2 < ahi ∧ m.2.1 + m.2.2 < bhi
          · by_cases hc1 : alo < m.1 ∧ blo < m.2.1
            · rw [if_pos hc2, if_pos hc1]
              simp only [List.map_cons, List.map_nil, List.sum_cons, List.sum_nil]
              omega
            · rw [if_pos hc2, if_neg hc1]
              simp only [List.map_cons, List.map_nil, List.sum_cons, List.sum_nil]
              omega
          · by_cases hc1 : alo < m.1 ∧ blo < m.2.1
            · rw [if_neg hc2, if_pos hc1]
              simp only [List.map_cons, List.map_nil, List.sum_cons, List.sum_nil]
              omega
            · rw [if_neg hc2, if_neg hc1]
              simp only [List.map_cons, List.map_nil, List.sum_cons, List.sum_nil]
              omega
        · intro r hr
          simp only [List.mem_append] at hr
          rcases hr with (hr2 | hr1) | hrr
          · by_cases hc2 : m.1 + m.2.2 < ahi ∧ m.2.1 + m.2.2 < bhi
            · rw [if_pos hc2] at hr2
              rw [List.mem_singleton.mp hr2]
              refine ⟨?_, ?_⟩ <;> (dsimp only; omega)
            · rw [if_neg hc2] at hr2
              exact absurd hr2 (List.not_mem_nil _)
          · by_cases hc1 : alo < m.1 ∧ blo < m.2.1
            · rw [if_pos hc1] at hr1
              rw [List.mem_singleton.mp hr1]
              exact ⟨hm.1, hm.2.1⟩
            · rw [if_neg hc1] at hr1
              exact absurd hr1 (List.not_mem_nil _)
          · exact hv r (List.mem_cons_of_mem _ hrr)
      · have hih := ih rest acc (fun r hr => hv r (List.mem_cons_of_mem _ hr))
        refine le_trans hih ?_
        simp only [List.map_cons, List.sum_cons]
        omega

theorem smMatchSizes_le (a b : List Char) :
    (smMatchSizes a b).sum ≤ min a.length b.length := by
  have h := gmbGo_sum a b (2 * (a.length + b.length) + 1) [(0, a.length, 0, b.length)] []
    (by
      intro r hr
      rw [List.mem_singleton.mp hr]
      exact ⟨Nat.zero_le _, Nat.zero_le _⟩)
  simp only [List.map_cons, List.map_nil, List.sum_cons, List.sum_nil, Nat.sub_zero] at h
  rw [smMatchSizes]
  omega

theorem smScore_bounds (a b : List Char) : 0 ≤ smScore a b ∧ smScore a b ≤ 1 := by
  have hS := smMatchSizes_le a b
  constructor
  · rw [smScore]
    split
    · norm_num
    · positivity
  · rw [smScore]
    split
    · exact le_refl 1
    · rename_i ht
      rw [div_le_one (by exact_mod_cast Nat.pos_of_ne_zero ht)]
      have h2 : 2 * (smMatchSizes a b).sum ≤ a.length + b.length := by omega
      exact_mod_cast h2

theorem combinedScore_bounds (old_slug cand : String) (sc : Rat)
    (h : combinedScore old_slug cand = some sc) : 0 ≤ sc ∧ sc ≤ 1 := by
  rw [combinedScore] at h
  obtain ⟨cs, hcs, h⟩ := Option.bind_eq_some.mp h
  simp only [Option.pure_def, Option.some.injEq] at h
  subst h
  have hsim : 0 ≤ similarity old_slug cs ∧ similarity old_slug cs ≤ 1 :=
    smScore_bounds old_slug.data cs.data
  have hcard : ((tokenize_slug old_slug).toFinset ∩ (tokenize_slug cs).toFinset).card ≤
      ((tokenize_slug old_slug).toFinset ∪ (tokenize_slug cs).toFinset).card :=
    Finset.card_le_card Finset.inter_subset_union
  by_cases hu : ((tokenize_slug old_slug).toFinset ∪ (tokenize_slug cs).toFinset).card = 0
  · rw [if_pos hu]
    have h0 : ((tokenize_slug old_slug).toFinset ∩ (tokenize_slug cs).toFinset).card = 0 := by
      omega
    rw [h0]
    push_cast
    constructor
    · nlinarith [hsim.1, hsim.2]
    · nlinarith [hsim.1, hsim.2]
  · rw [if_neg hu]
    have hupos : (0 : Rat) <
        (((tokenize_slug old_slug).toFinset ∪ (tokenize_slug cs).toFinset).card : Rat) := by
      exact_mod_cast Nat.pos_of_ne_zero hu
    have hjac0 : 0 ≤
        (((tokenize_slug old_slug).toFinset ∩ (tokenize_slug cs).toFinset).card : Rat) /
          (((tokenize_slug old_slug).toFinset ∪ (tokenize_slug cs).toFinset).card : Rat) := by
      positivity
    have hjac1 :
        (((tokenize_slug old_slug).toFinset ∩ (tokenize_slug cs).toFinset).card : Rat) /
          (((tokenize_slug old_slug).toFinset ∪ (tokenize_slug cs).toFinset).card : Rat) ≤ 1 := by
      rw [div_le_one hupos]
      exact_mod_cast hcard
    constructor
    · nlinarith [hsim.1, hsim.2]
    · nlinarith [hsim.1, hsim.2]

theorem bestStep_char (old_slug : String) (st : Option String × Rat) (cand : String)
    (st2 : Option String × Rat) (h : bestStep old_slug st cand = some st2) :
    ∃ sc, combinedScore old_slug cand = some sc ∧
      st2 = if st.2 < sc then (some cand, sc) else st := by
  rw [bestStep] at h
  obtain ⟨cs, hcs, h⟩ := Option.bind_eq_some.mp h
  simp only [Option.pure_def, Option.some.injEq] at h
  refine ⟨_, ?_, h.symm⟩
  rw [combinedScore, hcs]
  rfl

theorem bestFold_bounds (old_slug : String) :
    ∀ (cands : List String) (st best : Option String × Rat),
      0 ≤ st.2 → st.2 ≤ 1 →
      cands.foldlM (bestStep old_slug) st = some best →
      0 ≤ best.2 ∧ best.2 ≤ 1 := by
  intro cands
  induction cands with
  | nil =>
    intro st best h0 h1 h
    simp only [List.foldlM_nil, Option.pure_def, Option.some.injEq] at h
    subst h
    exact ⟨h0, h1⟩
  | cons c cs ih =>
    intro st best h0 h1 h
    simp only [List.foldlM_cons] at h
    obtain ⟨st2, hstep, hrest⟩ := Option.bind_eq_some.mp h
    obtain ⟨sc, hsc, hchar⟩ := bestStep_char old_slug st c st2 hstep
    have hb := combinedScore_bounds old_slug c sc hsc
    have h2 : 0 ≤ st2.2 ∧ st2.2 ≤ 1 := by
      rw [hchar]
      split
      · exact ⟨hb.1, hb.2⟩
      · exact ⟨h0, h1⟩
    exact ih st2 best h2.1 h2.2 hrest

theorem result_row_fields {o n2 : String} {sc : Int} {re ty : String} {mr : MatchRow}
    (h : result_row o n2 sc re ty = some mr) :
    mr.old_url = o ∧ mr.new_url = n2 ∧ mr.score = sc ∧ mr.reason = re := by
  unfold result_row at h
  obtain ⟨op, hop, h⟩ := Option.bind_eq_some.mp h
  by_cases hn : n2 ≠ ""
  · rw [if_pos hn] at h
    obtain ⟨np, hnp, h⟩ := Option.bind_eq_some.mp h
    simp only [Option.pure_def, Option.some.injEq] at h
    subst h
    exact ⟨rfl, rfl, rfl, rfl⟩
  · rw [if_neg hn] at h
    obtain ⟨np, hnp, h⟩ := Option.bind_eq_some.mp h
    simp only [Option.pure_def, Option.some.injEq] at h
    subst h
    exact ⟨rfl, rfl, rfl, rfl⟩

/-- **C3** (amended): for an old row that reaches the slug-similarity stage
(no exact-URL and no exact-path hit), the best fold score is the maximal
combined score `0.75*sequence_ratio + 0.25*jaccard` over the candidates and
always lies in `[0,1]`; the match is accepted with reason `slug_similarity`
and reported score `round(100*combined)` (which lies in `[60,100]`) exactly
when the rounded percentage is at least 60 AND the best target is a truthy
(non-empty) URL; otherwise - including a best percentage of at least 60
whose best target is the empty string - the row gets score 0, empty
`new_url` and reason `manual_required`. -/
theorem c3_amended (m : NewMaps) (row : UrlRow) (old_type old_norm op old_slug : String)
    (best : Option String × Rat) (out : MatchRow)
    (hty : rowType row = some old_type)
    (hn : normalize_url row.url = some old_norm)
    (hp : path_of row.url = some op)
    (hs : slug_of row.url = some old_slug)
    (hmiss1 : dictGet m.byNorm old_norm = none)
    (hmiss2 : dictGet m.byPath (pyLower op) = none)
    (hbest : bestFold old_slug
      (match typeBucket m old_type with
        | some l => if l = [] then m.allUrls else l
        | none => m.allUrls) = some best)
    (hout : matchOne m row = some out) :
    (0 ≤ best.2 ∧ best.2 ≤ 1) ∧
    (∀ st st2 cand, bestStep old_slug st cand = some st2 →
      ∃ sc, combinedScore old_slug cand = some sc ∧
        st2 = if st.2 < sc then (some cand, sc) else st) ∧
    (optTruthy best.1 = true ∧ 60 ≤ pyRound (best.2 * 100) →
      out.reason = "slug_similarity" ∧ out.new_url = best.1.getD "" ∧
        out.score = pyRound (best.2 * 100) ∧ 60 ≤ out.score ∧ out.score ≤ 100) ∧
    (¬(optTruthy best.1 = true ∧ 60 ≤ pyRound (best.2 * 100)) →
      out.reason = "manual_required" ∧ out.new_url = "" ∧ out.score = 0) := by
  have hbounds : 0 ≤ best.2 ∧ best.2 ≤ 1 := by
    rw [bestFold] at hbest
    exact bestFold_bounds old_slug _ (none, 0) best (by norm_num) (by norm_num) hbest
  have hmain : (optTruthy best.1 = true ∧ 60 ≤ pyRound (best.2 * 100) →
      result_row row.url (best.1.getD "") (pyRound (best.2 * 100)) "slug_similarity" old_type =
        some out) ∧
      (¬(optTruthy best.1 = true ∧ 60 ≤ pyRound (best.2 * 100)) →
      result_row row.url "" 0 "manual_required" old_type = some out) := by
    unfold matchOne at hout
    obtain ⟨ty, h1, hout⟩ := Option.bind_eq_some.mp hout
    rw [hty] at h1
    cases Option.some.inj h1
    obtain ⟨nrm, h2, hout⟩ := Option.bind_eq_some.mp hout
    rw [hn] at h2
    cases Option.some.inj h2
    obtain ⟨pth, h3, hout⟩ := Option.bind_eq_some.mp hout
    rw [hp] at h3
    cases Option.some.inj h3
    obtain ⟨slg, h4, hout⟩ := Option.bind_eq_some.mp hout
    rw [hs] at h4
    cases Option.some.inj h4
    simp only [hmiss1, hmiss2] at hout
    obtain ⟨best2, h7, hout⟩ := Option.bind_eq_some.mp hout
    rw [hbest] at h7
    cases Option.some.inj h7
    split at hout
    · rename_i hsplit
      exact ⟨fun _ => hout, fun hneg => absurd hsplit hneg⟩
    · rename_i hsplit
      exact ⟨fun hpos => absurd hpos hsplit, fun _ => hout⟩
  refine ⟨hbounds, fun st st2 cand h => bestStep_char old_slug st cand st2 h, ?_, ?_⟩
  · intro hcond
    obtain ⟨ho, hn2, hsc, hre⟩ := result_row_fields (hmain.1 hcond)
    have hle : pyRound (best.2 * 100) ≤ 100 := by
      apply pyRound_le
      have h100 : best.2 * 100 ≤ 1 * 100 :=
        mul_le_mul_of_nonneg_right hbounds.2 (by norm_num)
      push_cast
      linarith
    exact ⟨hre, hn2, hsc, hsc ▸ hcond.2, hsc ▸ hle⟩
  · intro hcond
    obtain ⟨ho, hn2, hsc, hre⟩ := result_row_fields (hmain.2 hcond)
    exact ⟨hre, hn2, hsc⟩

/-- C3, counterexample: the claim says that once the slug stage is reached,
a rounded combined percentage of at least 60 is accepted with reason
`slug_similarity`.  Matching old row `http://o/a//` against the single new
row with the empty URL reaches the slug stage (both exact lookups miss),
the best candidate scores `3/4` (sequence ratio 1 on two empty slugs,
jaccard 0 on empty token sets), the percentage 75 is at least 60 - yet the
best target is the falsy empty string, `best_target and percent >= 60`
fails, and the matcher emits score 0, empty `new_url` and
`manual_required`. -/
theorem c3_counterexample :
    match_urls [{ url := "http://o/a//" }] [{ url := "" }] =
      some [{ old_url := "http://o/a//", new_url := "", score := 0,
              reason := "manual_required", rtype := "page", old_path := "/a/",
              new_path := "" }] ∧
    buildMaps [{ url := "" }] =
      some { byNorm := [(":///", "")], byPath := [("/", "")],
             tPage := [""], allUrls := [""] } ∧
    rowType { url := "http://o/a//" } = some "page" ∧
    normalize_url "http://o/a//" = some "http://o/a/" ∧
    dictGet [(":///", "")] "http://o/a/" = none ∧
    path_of "http://o/a//" = some "/a/" ∧
    dictGet [("/", "")] "/a/" = none ∧
    slug_of "http://o/a//" = some "" ∧
    typeBucket
      { byNorm := [(":///", "")], byPath := [("/", "")], tPage := [""], allUrls := [""] }
      "page" = some [""] ∧
    bestFold "" [""] = some (some "", 3/4) ∧
    (60 : Int) ≤ pyRound ((3/4 : Rat) * 100) := by
  decide

theorem c3_amended_witness :
    ({ old_url := "http://o/a//", new_url := "", score := 0, reason := "manual_required",
       rtype := "page", old_path := "/a/", new_path := "" } : MatchRow).reason =
      "manual_required" ∧
    ({ old_url := "http://o/a//", new_url := "", score := 0, reason := "manual_required",
       rtype := "page", old_path := "/a/", new_path := "" } : MatchRow).new_url = "" ∧
    ({ old_url := "http://o/a//", new_url := "", score := 0, reason := "manual_required",
       rtype := "page", old_path := "/a/", new_path := "" } : MatchRow).score = 0 :=
  (c3_amended
    { byNorm := [(":///", "")], byPath := [("/", "")], tPage := [""], allUrls := [""] }
    { url := "http://o/a//" } "page" "http://o/a/" "/a/" "" (some "", 3/4)
    { old_url := "http://o/a//", new_url := "", score := 0, reason := "manual_required",
      rtype := "page", old_path := "/a/", new_path := "" }
    (by decide) (by decide) (by decide) (by decide) (by decide) (by decide) (by decide)
    (by decide)).2.2.2 (by decide)

end Seo
